import Mathlib

/-!
Verification development for the DocFlow-Lite PDF synthesis and
deduplicated-merge engine (src/app/lib/conversion.ts, the
useDocumentConversion hook, and src/app/lib/storage.ts).

The embedding models:
* `createPdfFromImage`  - the single-image PDF generation path;
* `mergeImagesToPDF`    - the multi-image merge path, including the
  post-hoc marker search that splices raw image bytes into the text
  buffer, the xref-position bookkeeping, and the trailer;
* the duplicate-detection logic of `mergeImages` and
  `getExistingPDFDocument` in the conversion hook;
* the persistence sequence of `saveDocument` in storage.ts.

Text is modelled as `List Char`; all emitted text is ASCII, so one
`Char` corresponds to one byte of the final buffer.  Raw image bytes
are likewise modelled as `List Char` (one char standing for one byte);
only their count and identity matter to the claims.  JavaScript string
positions (UTF-16 units) coincide with list indices on this data.
-/

namespace DocFlow

/-- Text of a string literal as a character list. -/
def str (s : String) : List Char := s.data

/-- Tail-recursive list length (JavaScript's `.length` on strings and
arrays; equal to `List.length`, see `lenTR_eq`). -/
def lenTR (l : List α) : Nat := l.foldl (fun n _ => n + 1) 0

/-- Fuelled decimal printer: digits of `n`, most significant first. -/
def natStrAux : Nat → Nat → List Char
  | 0, _ => []
  | fuel + 1, n =>
    if n < 10 then [Char.ofNat (48 + n)]
    else natStrAux fuel (n / 10) ++ [Char.ofNat (48 + n % 10)]

/-- Decimal rendering of a natural number, as JavaScript's
`Number.prototype.toString` produces for nonnegative integers
interpolated into template literals. -/
def natStr (n : Nat) : List Char := natStrAux (n + 1) n

/-- Model of JavaScript `String.prototype.padStart(10, '0')`. -/
def pad10 (n : Nat) : List Char :=
  List.replicate (10 - (natStr n).length) '0' ++ natStr n

/-! ## Substring occurrences

`occList p s` lists, in increasing order, every index `i` such that
the pattern `p` occurs in `s` starting at `i`.  JavaScript's
`indexOf`, `lastIndexOf` and `includes` are read off this list. -/

/-- Start indices of occurrences of `p` in a suffix `s`, each shifted
by the index `i` at which the suffix begins. -/
def occListFrom (p : List Char) : List Char → Nat → List Nat
  | [], i => if p.isPrefixOf ([] : List Char) then [i] else []
  | c :: s, i =>
    (if p.isPrefixOf (c :: s) then [i] else []) ++ occListFrom p s (i + 1)

/-- All start indices of occurrences of `p` in `s`, ascending. -/
def occList (p s : List Char) : List Nat := occListFrom p s 0

/-- JavaScript `s.indexOf(p, start)`: first occurrence index `≥ start`
(`none` models the `-1` result). -/
def jsIndexOfFrom (p s : List Char) (start : Nat) : Option Nat :=
  ((occList p s).filter (fun i => start ≤ i)).head?

/-- JavaScript `s.indexOf(p)`. -/
def jsIndexOf (p s : List Char) : Option Nat := (occList p s).head?

/-- JavaScript `s.lastIndexOf(p, bound)`: last occurrence index
`≤ bound` (`none` models the `-1` result). -/
def jsLastIndexOfLe (p s : List Char) (bound : Nat) : Option Nat :=
  ((occList p s).filter (fun i => i ≤ bound)).getLast?

/-- JavaScript `s.lastIndexOf(p)` with no bound. -/
def jsLastIndexOf (p s : List Char) : Option Nat := (occList p s).getLast?

/-- JavaScript `s.includes(p)`. -/
def includesSub (s p : List Char) : Bool := !(occList p s).isEmpty

/-- JavaScript `s.substring(a, b)` for `a ≤ b`. -/
def jsSubstring (s : List Char) (a b : Nat) : List Char := (s.take b).drop a

/-- JavaScript `s.startsWith(p)`. -/
def strStartsWith (s p : String) : Bool := p.data.isPrefixOf s.data

/-- Code-point lexicographic comparison on character lists, the model
of `a.localeCompare(b) ≤ 0` used by the id sorts. -/
def lexLe : List Char → List Char → Bool
  | [], _ => true
  | _ :: _, [] => false
  | a :: as, b :: bs =>
    if a.toNat < b.toNat then true
    else if b.toNat < a.toNat then false
    else lexLe as bs

/-- The id order: `lexLe` on the underlying character data. -/
def idLe (a b : String) : Bool := lexLe a.data b.data

/-! ## Single-image path: `createPdfFromImage`

The function draws the decoded image on a canvas, re-encodes it as
JPEG and builds the file as `pdfHeader ++ jpegBytes ++ pdfFooter`,
with all xref offsets written as fixed literals (`0000000010`, ...)
or as the estimates `266 + bytes.length + 100` / `+ 200`. -/

/-- The `pdfHeader` template literal of `createPdfFromImage`, up to and
including the `stream` line of the image XObject (object 4). -/
def singleHeader (w h len : Nat) : List Char :=
  str "%PDF-1.5\n1 0 obj\n<< /Type /Catalog /Pages 2 0 R >>\nendobj\n2 0 obj\n<< /Type /Pages /Kids [3 0 R] /Count 1 >>\nendobj\n3 0 obj\n<< /Type /Page /Parent 2 0 R /MediaBox [0 0 "
    ++ natStr w ++ str " " ++ natStr h
    ++ str "] /Resources << /XObject << /Image 4 0 R >> >> /Contents 5 0 R >>\nendobj\n4 0 obj\n<< /Type /XObject /Subtype /Image /Width "
    ++ natStr w ++ str " /Height " ++ natStr h
    ++ str " /ColorSpace /DeviceRGB /BitsPerComponent 8 /Filter /DCTDecode /Length "
    ++ natStr len ++ str " >>\nstream\n"

/-- The `pdfFooter` template literal of `createPdfFromImage`: content
stream object 5 (declared `/Length 44`), the xref table with its
hard-coded offsets, and the trailer. -/
def singleFooter (w h len : Nat) : List Char :=
  str "\nendstream\nendobj\n5 0 obj\n<< /Length 44 >>\nstream\nq\n"
    ++ natStr w ++ str " 0 0 " ++ natStr h
    ++ str " 0 0 cm\n/Image Do\nQ\nendstream\nendobj\nxref\n0 6\n0000000000 65535 f\n0000000010 00000 n\n0000000059 00000 n\n0000000116 00000 n\n0000000266 00000 n\n0000000"
    ++ natStr (266 + len + 100)
    ++ str " 00000 n\ntrailer\n<< /Size 6 /Root 1 0 R >>\nstartxref\n0000000"
    ++ natStr (266 + len + 200) ++ str "\n%%EOF"

/-- Final byte buffer produced by `createPdfFromImage` for an image of
pixel size `w × h` whose JPEG re-encoding is `bytes`: the Blob
concatenation `[pdfHeader, bytes, pdfFooter]`. -/
def createPdfFromImage (w h : Nat) (bytes : List Char) : List Char :=
  singleHeader w h bytes.length ++ bytes ++ singleFooter w h bytes.length

/-- The object-number / byte-offset pairs recorded in the xref table
emitted by `createPdfFromImage` (read off the table's five `n` lines,
whose offsets are the literals `10`, `59`, `116`, `266` and the
estimate `266 + bytes.length + 100`). -/
def singleXrefEntries (len : Nat) : List (Nat × Nat) :=
  [(1, 10), (2, 59), (3, 116), (4, 266), (5, 266 + len + 100)]

/-! ## Merge path: `mergeImagesToPDF` -/

/-- One successfully loaded image in a merge: its pixel dimensions and
the raw JPEG bytes produced by the canvas re-encode. -/
structure MergeImg where
  width : Nat
  height : Nat
  bytes : List Char
deriving DecidableEq

/-- Fixed text of the merge header before the Kids array: PDF marker,
Catalog (object 1) and the opening of the Pages object (object 2). -/
def mergeHeaderPre : List Char :=
  str "%PDF-1.7\n1 0 obj\n<< /Type /Catalog /Pages 2 0 R >>\nendobj\n2 0 obj\n<< /Type /Pages /Kids ["

/-- The Kids array body written by the first loop:
`"${3 + i * 3} 0 R "` for each page index `i < k`. -/
def kidsList (k : Nat) : List Char :=
  (List.range k).flatMap (fun i => natStr (3 + i * 3) ++ str " 0 R ")

/-- Merge header for `k` pages: catalog, page tree with Kids and
`/Count k`. -/
def mergeHeader (k : Nat) : List Char :=
  mergeHeaderPre ++ kidsList k ++ str "] /Count " ++ natStr k
    ++ str " >>\nendobj\n"

/-- Page object text for page `i` (object `n`): MediaBox from the
image's pixel size, XObject resource `/Image{i}` pointing at `n+1`,
contents pointing at `n+2`. -/
def pageBlockA (i n w h : Nat) : List Char :=
  natStr n ++ str " 0 obj\n<< /Type /Page /Parent 2 0 R /MediaBox [0 0 "
    ++ natStr w ++ str " " ++ natStr h
    ++ str "] /Resources << /XObject << /Image" ++ natStr i ++ str " "
    ++ natStr (n + 1) ++ str " 0 R >> >> /Contents " ++ natStr (n + 2)
    ++ str " 0 R >>\nendobj\n"

/-- Image XObject text for object `n`, up to and including its
`stream` line; `len` is `bytes.length` of the JPEG data. -/
def pageBlockB (len n w h : Nat) : List Char :=
  natStr n ++ str " 0 obj\n<< /Type /XObject /Subtype /Image /Width "
    ++ natStr w ++ str " /Height " ++ natStr h
    ++ str " /ColorSpace /DeviceRGB /BitsPerComponent 8 /Filter /DCTDecode /Length "
    ++ natStr len ++ str " >>\nstream\n"

/-- Closing of the image stream followed by the content stream object
`n` for page `i` (declared `/Length 44`). -/
def pageBlockC (i n w h : Nat) : List Char :=
  str "endstream\nendobj\n" ++ natStr n ++ str " 0 obj\n<< /Length 44 >>\nstream\nq\n"
    ++ natStr w ++ str " 0 0 " ++ natStr h ++ str " 0 0 cm\n/Image"
    ++ natStr i ++ str " Do\nQ\nendstream\nendobj\n"

/-- The per-image loop of `mergeImagesToPDF`: threads the text built so
far, the `xrefPositions` array and the running `objectNumber`.  Before
each of the three appended objects the current text length is pushed
as that object's xref position, except that the content-stream object
uses the estimate `pdfContent.length + bytes.length + 10`. -/
def mergeLoop : List (Nat × MergeImg) → List Char → List Nat → Nat →
    List Char × List Nat × Nat
  | [], content, xref, objNum => (content, xref, objNum)
  | (i, img) :: rest, content, xref, objNum =>
    let c1 := content ++ pageBlockA i objNum img.width img.height
    let c2 := c1 ++ pageBlockB (lenTR img.bytes) (objNum + 1) img.width img.height
    let c3 := c2 ++ pageBlockC i (objNum + 2) img.width img.height
    mergeLoop rest c3
      (xref ++ [lenTR content, lenTR c1, lenTR c2 + lenTR img.bytes + 10])
      (objNum + 3)

/-- The xref section and trailer appended after the loop: the `xref`
keyword, the free entry for object 0, one entry per object from the
`xrefPositions` array, then the trailer pointing `startxref` at the
position where the `xref` keyword was written. -/
def xrefSection (xrefStart : Nat) (positions : List Nat) (objNum : Nat) :
    List Char :=
  str "xref\n0 " ++ natStr objNum ++ str "\n0000000000 65535 f\n"
    ++ (List.range (objNum - 1)).flatMap
        (fun j => pad10 (positions.getD (j + 1) 0) ++ str " 00000 n\n")
    ++ str "trailer\n<< /Size " ++ natStr objNum
    ++ str " /Root 1 0 R >>\nstartxref\n" ++ natStr xrefStart ++ str "\n%%EOF"

/-- The initial `xrefPositions` array:
`[0, pdfContent.indexOf('1 0 obj'), pdfContent.indexOf('2 0 obj')]`
computed on the header for `k` pages (both occurrences exist, so the
modelled default for a `-1` result is never taken). -/
def mergeInitXref (k : Nat) : List Nat :=
  [0, (jsIndexOf (str "1 0 obj") (mergeHeader k)).getD 0,
   (jsIndexOf (str "2 0 obj") (mergeHeader k)).getD 0]

/-- The complete `pdfContent` string of `mergeImagesToPDF` (before
image bytes are spliced in), together with the final `xrefPositions`
array and `objectNumber`. -/
def mergeContentXref (imgs : List MergeImg) : List Char × List Nat × Nat :=
  let r := mergeLoop imgs.enum (mergeHeader imgs.length)
    (mergeInitXref imgs.length) 3
  (r.1 ++ xrefSection (lenTR r.1) r.2.1 r.2.2, r.2.1, r.2.2)

/-- The full `pdfContent` text of the merge path. -/
def mergePdfContent (imgs : List MergeImg) : List Char :=
  (mergeContentXref imgs).1

/-- The `xrefPositions` array of the merge path: entry `n` is the
offset recorded in the xref table for object `n`. -/
def mergeXrefPositions (imgs : List MergeImg) : List Nat :=
  (mergeContentXref imgs).2.1

/-- The `while (true)` search of `mergeImagesToPDF` locating where
image data must be spliced: scan for `"stream\n"`, find the following
`"endstream"`, and record the interval when the enclosing object
dictionary (text from the last `"obj"` before the marker) mentions
`/DCTDecode`.  The recursion is fuelled; the search position strictly
increases, so `content.length + 1` fuel always suffices. -/
def findImagePositionsAux (content : List Char) :
    Nat → Nat → List (Nat × Nat)
  | 0, _ => []
  | fuel + 1, searchPos =>
    match jsIndexOfFrom (str "stream\n") content searchPos with
    | none => []
    | some streamPos =>
      match jsIndexOfFrom (str "endstream") content streamPos with
      | none => []
      | some endstreamPos =>
        let rest := findImagePositionsAux content fuel (endstreamPos + 9)
        match jsLastIndexOfLe (str "obj") content streamPos with
        | none => rest
        | some objectStart =>
          if includesSub (jsSubstring content objectStart streamPos)
              (str "/DCTDecode")
          then (streamPos + 7, endstreamPos) :: rest
          else rest

/-- `imageDataPositions` of `mergeImagesToPDF`. -/
def findImagePositions (content : List Char) : List (Nat × Nat) :=
  findImagePositionsAux content (lenTR content + 1) 0

/-- The final-parts assembly: for each recorded interval, emit the text
from the previous cut to the interval start, then the next image byte
array; finally emit the remaining text.  Flattening the parts models
the Blob concatenation. -/
def spliceGo (content : List Char) :
    List (Nat × Nat) → List (List Char) → Nat → List Char
  | [], _, lastIndex => content.drop lastIndex
  | (s, e) :: rest, arrays, lastIndex =>
    jsSubstring content lastIndex s ++ arrays.headD []
      ++ spliceGo content rest arrays.tail e

/-- Final byte buffer produced by `mergeImagesToPDF` for the
successfully loaded images `imgs`: the text skeleton with each image's
raw bytes spliced in at the searched positions. -/
def mergeFinalBuffer (imgs : List MergeImg) : List Char :=
  let content := mergePdfContent imgs
  spliceGo content (findImagePositions content) (imgs.map (·.bytes)) 0

/-! ## Structural description of the merge loop output

`mergeLoop` appends, for page `i` (objects `3+3i`, `3+3i+1`, `3+3i+2`),
the three blocks `pageBlockA`, `pageBlockB`, `pageBlockC`;
`pageBlocksFrom` spells this out and `mergeLoop_eq` proves it. -/

/-- The three objects a page contributes, concatenated. -/
def pageBlock (i n : Nat) (img : MergeImg) : List Char :=
  pageBlockA i n img.width img.height
    ++ pageBlockB img.bytes.length (n + 1) img.width img.height
    ++ pageBlockC i (n + 2) img.width img.height

/-- The page blocks for pages `i, i+1, ...` over the given images. -/
def pageBlocksFrom : Nat → List MergeImg → List Char
  | _, [] => []
  | i, img :: rest => pageBlock i (3 + 3 * i) img ++ pageBlocksFrom (i + 1) rest

/-- The xref positions the loop records for pages `i, i+1, ...` when
the text written so far has length `base`: the page object's true
offset, the image object's true offset, and the content object's
estimate `(text so far).length + bytes.length + 10`. -/
def xrefPosFrom : Nat → Nat → List MergeImg → List Nat
  | _, _, [] => []
  | base, i, img :: rest =>
    base
      :: (base + (pageBlockA i (3 + 3 * i) img.width img.height).length)
      :: (base + (pageBlockA i (3 + 3 * i) img.width img.height).length
          + (pageBlockB img.bytes.length (3 + 3 * i + 1) img.width
              img.height).length
          + img.bytes.length + 10)
      :: xrefPosFrom (base + (pageBlock i (3 + 3 * i) img).length) (i + 1) rest

/-! ## Chunk decompositions

To reason about substring occurrences in the generated text, the text
is presented as a sequence of chunks: fixed literal pieces and
digit-only pieces (interpolated numbers and padded offsets).  A
pattern that contains no digit cannot overlap a digit-only chunk, so
its occurrences decompose chunk by chunk (`occListFrom_chunks`). -/

/-- A piece of generated text: a fixed literal or a digit-only run. -/
inductive Chunk where
  | lit : List Char → Chunk
  | dig : List Char → Chunk
deriving DecidableEq

/-- The text a chunk sequence denotes. -/
def chunksText : List Chunk → List Char
  | [] => []
  | .lit t :: rest => t ++ chunksText rest
  | .dig d :: rest => d ++ chunksText rest

/-- Prepend a literal, merging with a leading literal chunk so that
well-formed sequences never hold two adjacent literals. -/
def consLit (t : List Char) : List Chunk → List Chunk
  | .lit t2 :: rest => .lit (t ++ t2) :: rest
  | cs => .lit t :: cs

/-- Occurrences of a digit-free pattern in a chunk sequence starting
at text position `i`: the occurrences inside each literal chunk. -/
def chunkOccs (p : List Char) : List Chunk → Nat → List Nat
  | [], _ => []
  | .lit t :: rest, i => occListFrom p t i ++ chunkOccs p rest (i + t.length)
  | .dig d :: rest, i => chunkOccs p rest (i + d.length)

/-- Well-formedness: digit chunks are nonempty and digit-only, and no
two literal chunks are adjacent. -/
def chunksOk : List Chunk → Prop
  | [] => True
  | .dig d :: rest => d ≠ [] ∧ (∀ c ∈ d, c.isDigit = true) ∧ chunksOk rest
  | .lit _ :: [] => True
  | .lit _ :: .lit _ :: _ => False
  | .lit _ :: .dig d :: rest => chunksOk (Chunk.dig d :: rest)

/-! ## The merge content as a chunk sequence

The full `pdfContent` of the merge path, cut into literal and
digit-only chunks.  Unit boundaries are drawn so that no two literal
chunks are adjacent: the final literal of the kids array absorbs
`"] /Count "`, the final page literal absorbs `"xref\n0 "`, and the
final xref entry literal absorbs `"trailer\n<< /Size "`. -/

/-- Kids entries after the first: `" 0 R "` then the next object
number, with the closing `" 0 R ] /Count "` at the end. -/
def kidsMoreChunks : Nat → Nat → List Chunk
  | 0, _ => [Chunk.lit (str " 0 R ] /Count ")]
  | m + 1, i => Chunk.lit (str " 0 R ") :: Chunk.dig (natStr (3 + 3 * i))
      :: kidsMoreChunks m (i + 1)

/-- Chunks of `mergeHeader k` for `k ≥ 1` pages. -/
def headerChunks (k : Nat) : List Chunk :=
  Chunk.lit mergeHeaderPre :: Chunk.dig (natStr 3)
    :: (kidsMoreChunks (k - 1) 1
      ++ [Chunk.dig (natStr k), Chunk.lit (str " >>\nendobj\n")])

/-- Chunks of one page's three objects, except the trailing literal
`" Do\nQ\nendstream\nendobj\n"`. -/
def pageChunksCore (i : Nat) (img : MergeImg) : List Chunk :=
  [Chunk.dig (natStr (3 + 3 * i)),
   Chunk.lit (str " 0 obj\n<< /Type /Page /Parent 2 0 R /MediaBox [0 0 "),
   Chunk.dig (natStr img.width),
   Chunk.lit (str " "),
   Chunk.dig (natStr img.height),
   Chunk.lit (str "] /Resources << /XObject << /Image"),
   Chunk.dig (natStr i),
   Chunk.lit (str " "),
   Chunk.dig (natStr (3 + 3 * i + 1)),
   Chunk.lit (str " 0 R >> >> /Contents "),
   Chunk.dig (natStr (3 + 3 * i + 2)),
   Chunk.lit (str " 0 R >>\nendobj\n"),
   Chunk.dig (natStr (3 + 3 * i + 1)),
   Chunk.lit (str " 0 obj\n<< /Type /XObject /Subtype /Image /Width "),
   Chunk.dig (natStr img.width),
   Chunk.lit (str " /Height "),
   Chunk.dig (natStr img.height),
   Chunk.lit (str " /ColorSpace /DeviceRGB /BitsPerComponent 8 /Filter /DCTDecode /Length "),
   Chunk.dig (natStr img.bytes.length),
   Chunk.lit (str " >>\nstream\nendstream\nendobj\n"),
   Chunk.dig (natStr (3 + 3 * i + 2)),
   Chunk.lit (str " 0 obj\n<< /Length 44 >>\nstream\nq\n"),
   Chunk.dig (natStr img.width),
   Chunk.lit (str " 0 0 "),
   Chunk.dig (natStr img.height),
   Chunk.lit (str " 0 0 cm\n/Image"),
   Chunk.dig (natStr i)]

/-- Chunks of the page region; the last page's trailing literal
absorbs the `"xref\n0 "` that follows it. -/
def pagesChunksX : Nat → List MergeImg → List Chunk
  | _, [] => [Chunk.lit (str "xref\n0 ")]
  | i, [img] => pageChunksCore i img
      ++ [Chunk.lit (str " Do\nQ\nendstream\nendobj\nxref\n0 ")]
  | i, img :: rest => pageChunksCore i img
      ++ (Chunk.lit (str " Do\nQ\nendstream\nendobj\n") :: pagesChunksX (i + 1) rest)

/-- Chunks of the xref entry lines (one per object); the last entry's
literal absorbs `"trailer\n<< /Size "`. -/
def xrefEntryChunks (positions : List Nat) : Nat → Nat → List Chunk
  | 0, _ => [Chunk.lit (str "trailer\n<< /Size ")]
  | 1, j => [Chunk.dig (pad10 (positions.getD (j + 1) 0)),
             Chunk.lit (str " 00000 n\ntrailer\n<< /Size ")]
  | m + 2, j => Chunk.dig (pad10 (positions.getD (j + 1) 0))
      :: Chunk.lit (str " 00000 n\n")
      :: xrefEntryChunks positions (m + 1) (j + 1)

/-- The complete chunk sequence of `mergePdfContent imgs`
(for `imgs ≠ []`). -/
def mergeChunks (imgs : List MergeImg) : List Chunk :=
  headerChunks imgs.length ++ pagesChunksX 0 imgs
    ++ (Chunk.dig (natStr (3 + 3 * imgs.length))
        :: Chunk.lit (str "\n0000000000 65535 f\n")
        :: xrefEntryChunks (mergeXrefPositions imgs) (3 + 3 * imgs.length - 1) 0)
    ++ [Chunk.dig (natStr (3 + 3 * imgs.length)),
        Chunk.lit (str " /Root 1 0 R >>\nstartxref\n"),
        Chunk.dig (natStr (mergeHeader imgs.length ++ pageBlocksFrom 0 imgs).length),
        Chunk.lit (str "\n%%EOF")]

/-! ## Document metadata and the storage model

`DocumentMeta` in storage.ts carries an untyped `metadata` record; the
fields the conversion code reads or writes are modelled explicitly,
with `none` / `false` standing for a document without them. -/

/-- Document metadata as the duplicate checks and the persistence code
see it. -/
structure DocMeta where
  id : String
  name : String
  type : String
  sourceImageIds : Option (List String) := none
  isMergedDocument : Bool := false
  isGeneratedDocument : Bool := false
  sourceDocumentId : Option String := none
deriving DecidableEq

/-- A source document handed to a conversion or merge: its metadata and
raw data bytes. -/
structure SrcDoc where
  meta : DocMeta
  data : List Char
deriving DecidableEq

/-- The browser raster facility (`createImageFromArrayBuffer` followed
by the canvas redraw and JPEG re-encode), treated as an oracle from raw
source bytes to a decoded-and-re-encoded image; `none` models a decode
failure (the `img.onerror` path). -/
def RasterOracle := List Char → Option MergeImg

/-! ## format-utils and the single-conversion duplicate check -/

/-- `getFileNameWithoutExtension` of format-utils.ts:
`lastIndexOf('.')`, returning the whole name when there is no dot and
the prefix before the last dot otherwise. -/
def getFileNameWithoutExtension (name : List Char) : List Char :=
  match jsLastIndexOf (str ".") name with
  | none => name
  | some i => jsSubstring name 0 i

/-- The predicate of `getExistingPDFDocument`: an existing document
counts as the PDF version of `document` when its type is
`application/pdf` and its base file name equals `document`'s. -/
def isPdfWithSameBaseName (document d : DocMeta) : Bool :=
  d.type == "application/pdf" &&
    getFileNameWithoutExtension d.name.data ==
      getFileNameWithoutExtension document.name.data

/-- `getExistingPDFDocument` of the conversion hook: the first stored
document whose base name matches and whose type is PDF. -/
def getExistingPDFDocument (document : DocMeta) (allDocuments : List DocMeta) :
    Option DocMeta :=
  allDocuments.find? (isPdfWithSameBaseName document)

/-! ## Merge duplicate detection (`mergeImages` in the hook) -/

/-- JavaScript `array.sort((a, b) => a.localeCompare(b))` on id
strings, modelled with the code-point lexicographic order. -/
def sortStrings (l : List String) : List String :=
  List.insertionSort (fun a b => idLe a b = true) l

/-- `[...imageDocuments].sort((a, b) => a.id.localeCompare(b.id))
.map(doc => doc.id)`. -/
def sortedImageIdsOf (imageDocuments : List DocMeta) : List String :=
  (List.insertionSort (fun a b => idLe a.id b.id = true) imageDocuments).map (·.id)

/-- `sortedImageIds.join('_')`, the merge-set identifier
(fingerprint digest). -/
def mergeSetIdentifier (imageDocuments : List DocMeta) : String :=
  String.intercalate "_" (sortedImageIdsOf imageDocuments)

/-- The filter selecting previously generated merged PDFs: type is PDF
and either the name carries the `merged-images-` prefix or the
`isMergedDocument` metadata flag is set. -/
def isExistingMergedPdf (d : DocMeta) : Bool :=
  d.type == "application/pdf" &&
    (strStartsWith d.name "merged-images-" || d.isMergedDocument)

/-- The per-artifact comparison of the duplicate scan: skip artifacts
without recorded `sourceImageIds`; skip on a length mismatch
(short-circuit); otherwise sort the recorded ids and compare
element-wise against the candidate's sorted ids. -/
def matchesMergeSet (sortedImageIds : List String) (d : DocMeta) : Bool :=
  match d.sourceImageIds with
  | none => false
  | some sourceIds =>
    if lenTR sourceIds != lenTR sortedImageIds then false
    else
      let sortedSourceIds := sortStrings sourceIds
      lenTR sortedImageIds == lenTR sortedSourceIds &&
        (List.zip sortedImageIds sortedSourceIds).all (fun p => p.1 == p.2)

/-- The duplicate scan of `mergeImages`: over the stored documents
filtered to merged PDFs, the first whose recorded source-id set
matches the candidate's. -/
def findDuplicateMerge (sortedImageIds : List String)
    (allDocuments : List DocMeta) : Option DocMeta :=
  (allDocuments.filter isExistingMergedPdf).find? (matchesMergeSet sortedImageIds)

/-! ## `mergeImagesToPDF` success/failure and the hook around it -/

/-- The image-loading phase of `mergeImagesToPDF`: filter to image
MIME types (error when none), decode each source skipping failures
with a recorded warning, and fail only when no image loads. -/
def mergeImagesLoad (raster : RasterOracle) (documents : List SrcDoc) :
    Except String (List MergeImg × List String) :=
  let imageDocuments := documents.filter (fun d => strStartsWith d.meta.type "image/")
  if lenTR imageDocuments == 0 then
    .error "No image documents provided for merging"
  else
    let images := imageDocuments.filterMap (fun d => raster d.data)
    let warnings := (imageDocuments.filter (fun d => (raster d.data).isNone)).map
      (fun d => d.meta.name)
    if lenTR images == 0 then .error "Failed to load any images for merging"
    else .ok (images, warnings)

/-- `mergeImagesToPDF` end to end: load images (with the partial-failure
policy), then build the final byte buffer; the second component lists
the warnings recorded for skipped sources. -/
def mergeImagesToPDFModel (raster : RasterOracle) (documents : List SrcDoc) :
    Except String (List Char × List String) :=
  (mergeImagesLoad raster documents).map
    (fun r => (mergeFinalBuffer r.1, r.2))

/-- Stored state visible to the conversion hook: the metadata of every
stored document (in list order, as `getAllDocuments` returns them) and
the raw data blobs keyed by document id. -/
structure MergeStore where
  docs : List DocMeta
  files : List (String × List Char)
deriving DecidableEq

/-- `getDocument(id)` data lookup. -/
def lookupData (store : MergeStore) (id : String) : Option (List Char) :=
  (store.files.find? (fun p => p.1 == id)).map (·.2)

/-- The `mergeImages` operation of the conversion hook: filter to
images, require at least two, run the duplicate scan (returning
`false` with the store untouched on a hit), fetch each document's
data, merge, and persist the new artifact with its merge metadata.
`freshId` and `fileName` stand for the generated document id and the
timestamped file name. -/
def mergeImages (raster : RasterOracle) (freshId fileName : String)
    (selected : List DocMeta) (store : MergeStore) : Bool × MergeStore :=
  let imageDocuments := selected.filter (fun d => strStartsWith d.type "image/")
  if lenTR imageDocuments < 2 then (false, store)
  else
    let sortedIds := sortedImageIdsOf imageDocuments
    if (findDuplicateMerge sortedIds store.docs).isSome then (false, store)
    else
      let docsWithData := imageDocuments.filterMap
        (fun d => (lookupData store d.id).map (fun data => SrcDoc.mk d data))
      if lenTR docsWithData < 2 then (false, store)
      else
        match mergeImagesToPDFModel raster docsWithData with
        | .error _ => (false, store)
        | .ok r =>
          let newDoc : DocMeta :=
            { id := freshId, name := fileName, type := "application/pdf",
              sourceImageIds := some (imageDocuments.map (·.id)),
              isMergedDocument := true }
          (true, { docs := store.docs ++ [newDoc],
                   files := store.files ++ [(freshId, r.1)] })

/-! ## Single-document conversion (`convertDocument`) -/

/-- The `CONVERSION_FORMATS` table of conversion.ts. -/
def CONVERSION_FORMATS : List (String × List String) :=
  [("application/pdf", ["image/png", "image/jpeg"]),
   ("image/png", ["application/pdf", "image/jpeg"]),
   ("image/jpeg", ["application/pdf", "image/png"]),
   ("image/webp", ["application/pdf", "image/png", "image/jpeg"])]

/-- `validateConversion`: the source type must be a key of
`CONVERSION_FORMATS` and the target must be among its supported
targets. -/
def validateConversion (sourceType targetType : String) : Except String Unit :=
  match CONVERSION_FORMATS.find? (fun p => p.1 == sourceType) with
  | none => .error "Unsupported source format"
  | some p =>
    if targetType ∈ p.2 then .ok ()
    else .error "Conversion is not supported"

/-- `convertToPdf`: PDFs pass through unchanged; images are decoded
(fatally failing when the oracle fails) and wrapped by
`createPdfFromImage`; anything else is rejected. -/
def convertToPdfModel (raster : RasterOracle) (data : List Char)
    (meta : DocMeta) : Except String (List Char) :=
  if meta.type == "application/pdf" then .ok data
  else if strStartsWith meta.type "image/" then
    match raster data with
    | none => .error "Failed to load image"
    | some img => .ok (createPdfFromImage img.width img.height img.bytes)
  else .error "Conversion to PDF is not supported"

/-- The new file name `convertDocument` builds:
`name.split('.').slice(0, -1).join('.')` plus the target extension. -/
def newFileNameFor (name extension : String) : String :=
  String.intercalate "." ((name.splitOn ".").dropLast) ++ "." ++ extension

/-- `convertDocument` for the `application/pdf` target (the conversion
the spec covers): validate, convert, and only on success persist the
new artifact (bytes and metadata, including the generated-document
provenance written after `saveDocument`). On any error the store is
left untouched. -/
def convertDocumentToPdf (raster : RasterOracle) (freshId : String)
    (src : SrcDoc) (store : MergeStore) :
    Except String DocMeta × MergeStore :=
  match validateConversion src.meta.type "application/pdf" with
  | .error e => (.error e, store)
  | .ok _ =>
    match convertToPdfModel raster src.data src.meta with
    | .error e => (.error e, store)
    | .ok blob =>
      let savedDoc : DocMeta :=
        { id := freshId, name := newFileNameFor src.meta.name "pdf",
          type := "application/pdf", isGeneratedDocument := true,
          sourceDocumentId := some src.meta.id }
      (.ok savedDoc, { docs := store.docs ++ [savedDoc],
                       files := store.files ++ [(freshId, blob)] })

/-! ## Low-level persistence (`saveDocument` in storage.ts)

`saveDocument` issues three sequential `localforage.setItem` calls:
the raw bytes under `file:<id>`, the metadata under `meta:<id>`, then
the updated document list.  A rejected write aborts the remaining
calls, but writes already completed stay in storage.  Failures are
injected through the set of keys whose write fails. -/

/-- A value stored under one localforage key. -/
inductive StoredVal where
  | file : List Char → StoredVal
  | meta : DocMeta → StoredVal
  | docList : List String → StoredVal
deriving DecidableEq

/-- The key-value store backing localforage. -/
abbrev KVStore := List (String × StoredVal)

/-- `localforage.setItem`, replacing any previous value of the key;
keys in `failing` reject. -/
def kvSet (failing : List String) (k : String) (v : StoredVal)
    (st : KVStore) : Except Unit KVStore :=
  if k ∈ failing then .error ()
  else .ok ((st.filter (fun p : String × StoredVal => p.1 != k)) ++ [(k, v)])

/-- `localforage.getItem`. -/
def kvGet (st : KVStore) (k : String) : Option StoredVal :=
  (st.find? (fun p : String × StoredVal => p.1 == k)).map (·.2)

/-- The stored document-id list (defaulting to empty). -/
def kvDocList (st : KVStore) : List String :=
  match kvGet st "documentList" with
  | some (.docList l) => l
  | _ => []

/-- `saveDocument`: write bytes, then metadata, then the document
list.  The returned store reflects exactly the writes that completed
before any failure; `none` signals the raised error. -/
def saveDocumentKV (failing : List String) (id : String) (meta : DocMeta)
    (data : List Char) (st : KVStore) : Option DocMeta × KVStore :=
  match kvSet failing ("file:" ++ id) (.file data) st with
  | .error _ => (none, st)
  | .ok st1 =>
    match kvSet failing ("meta:" ++ id) (.meta meta) st1 with
    | .error _ => (none, st1)
    | .ok st2 =>
      let list := kvDocList st2
      if id ∈ list then (some meta, st2)
      else
        match kvSet failing "documentList" (.docList (list ++ [id])) st2 with
        | .error _ => (none, st2)
        | .ok st3 => (some meta, st3)

/-! ## Independent observables over generated documents

These definitions read structure back out of an emitted byte buffer;
they are used to state the claims without restating the generator. -/

/-- Number of occurrences of a pattern in a text. -/
def countOcc (p s : List Char) : Nat := lenTR (occList p s)

/-- Leading decimal digits of a text. -/
def takeDigits : List Char → List Char
  | [] => []
  | c :: s => if c.isDigit then c :: takeDigits s else []

/-- Value of a decimal digit string. -/
def digitsToNat (l : List Char) : Nat :=
  l.foldl (fun a c => a * 10 + (c.toNat - 48)) 0

/-- Read the object references of a Kids array body: repeatedly a
decimal number followed by the literal `" 0 R "`. -/
def parseKidsRefs : Nat → List Char → List Nat
  | 0, _ => []
  | fuel + 1, s =>
    let ds := takeDigits s
    if ds.isEmpty then []
    else
      let rest := s.drop ds.length
      if (str " 0 R ").isPrefixOf rest then
        digitsToNat ds :: parseKidsRefs fuel (rest.drop 5)
      else []

/-- The object numbers listed in the first `/Kids [...]` array of a
document. -/
def extractKids (s : List Char) : List Nat :=
  match jsIndexOf (str "/Kids [") s with
  | none => []
  | some i => parseKidsRefs (lenTR s) (s.drop (i + 7))

/-- The number following the first `/Count ` of a document. -/
def extractCount (s : List Char) : Nat :=
  match jsIndexOf (str "/Count ") s with
  | none => 0
  | some i => digitsToNat (takeDigits (s.drop (i + 7)))

/-- Number of occurrences of a (digit-free) pattern inside the literal
chunks of a chunk sequence; equal to the length of `chunkOccs`
(see `chunkOccs_length`). -/
def chunkCount (p : List Char) : List Chunk → Nat
  | [] => 0
  | .lit t :: rest => (occList p t).length + chunkCount p rest
  | .dig _ :: rest => chunkCount p rest

/-- The page blocks with each page's image bytes spliced in between
its `stream` and `endstream` markers: what the final-buffer assembly
of `mergeImagesToPDF` produces for the page region. -/
def splicedPagesFrom : Nat → List MergeImg → List Char
  | _, [] => []
  | i, img :: rest =>
    pageBlockA i (3 + 3 * i) img.width img.height
      ++ pageBlockB img.bytes.length (3 + 3 * i + 1) img.width img.height
      ++ img.bytes
      ++ pageBlockC i (3 + 3 * i + 2) img.width img.height
      ++ splicedPagesFrom (i + 1) rest

/-- Page `i`'s Page-object text (object `3 + 3i`). -/
def pbA (i : Nat) (img : MergeImg) : List Char :=
  pageBlockA i (3 + 3 * i) img.width img.height

/-- Page `i`'s image-XObject text up to its `stream` line. -/
def pbB (i : Nat) (img : MergeImg) : List Char :=
  pageBlockB img.bytes.length (3 + 3 * i + 1) img.width img.height

/-- The `endstream` closing page `i`'s image stream plus the page's
content-stream object. -/
def pbC (i : Nat) (img : MergeImg) : List Char :=
  pageBlockC i (3 + 3 * i + 2) img.width img.height

/-- Start indices of every occurrence of `"stream\n"` in the page
region of the merge text, pages `i, i+1, ...`, page `i`'s text
starting at index `D`: four per page (end of the XObject dictionary's
`stream` line; inside the `endstream\n` that follows it; the content
stream's `stream` line; inside the final `endstream\n`). -/
def streamOccsFrom : Nat → Nat → List MergeImg → List Nat
  | _, _, [] => []
  | D, i, img :: rest =>
    (D + (pbA i img).length + (pbB i img).length - 7)
    :: (D + (pbA i img).length + (pbB i img).length + 3)
    :: (D + (pbA i img).length + (pbB i img).length + 17
        + (natStr (3 + 3 * i + 2)).length + 24)
    :: (D + (pbA i img).length + (pbB i img).length + (pbC i img).length - 14)
    :: streamOccsFrom
        (D + (pbA i img).length + (pbB i img).length + (pbC i img).length)
        (i + 1) rest

/-- Start indices of every `"endstream"` occurrence in the page
region: two per page. -/
def endstreamOccsFrom : Nat → Nat → List MergeImg → List Nat
  | _, _, [] => []
  | D, i, img :: rest =>
    (D + (pbA i img).length + (pbB i img).length)
    :: (D + (pbA i img).length + (pbB i img).length + (pbC i img).length - 17)
    :: endstreamOccsFrom
        (D + (pbA i img).length + (pbB i img).length + (pbC i img).length)
        (i + 1) rest

/-- Start indices of every `"obj"` occurrence in the page region: six
per page. -/
def objOccsFrom : Nat → Nat → List MergeImg → List Nat
  | _, _, [] => []
  | D, i, img :: rest =>
    (D + (natStr (3 + 3 * i)).length + 3)
    :: (D + (pbA i img).length - 4)
    :: (D + (pbA i img).length + (natStr (3 + 3 * i + 1)).length + 3)
    :: (D + (pbA i img).length + (pbB i img).length + 13)
    :: (D + (pbA i img).length + (pbB i img).length + 17
        + (natStr (3 + 3 * i + 2)).length + 3)
    :: (D + (pbA i img).length + (pbB i img).length + (pbC i img).length - 4)
    :: objOccsFrom
        (D + (pbA i img).length + (pbB i img).length + (pbC i img).length)
        (i + 1) rest

/-- The splice intervals the position search records: one per page,
both ends at the boundary between the page's `stream\n` line and its
`endstream` (the pre-splice text holds them adjacent). -/
def imgPositionsFrom : Nat → Nat → List MergeImg → List (Nat × Nat)
  | _, _, [] => []
  | D, i, img :: rest =>
    (D + (pbA i img).length + (pbB i img).length,
     D + (pbA i img).length + (pbB i img).length)
    :: imgPositionsFrom
        (D + (pbA i img).length + (pbB i img).length + (pbC i img).length)
        (i + 1) rest

/-! ## Concrete sample data for the concrete-input theorems -/

/-- Ten sample JPEG bytes. -/
def jb10 : List Char := str "ABCDEFGHIJ"

/-- A 100 × 200 image whose encoding is ten bytes. -/
def sampleImgA : MergeImg := ⟨100, 200, jb10⟩

/-- A 120 × 80 image whose encoding is three bytes. -/
def sampleImgB : MergeImg := ⟨120, 80, str "KLM"⟩

/-- Source image A. -/
def docA : DocMeta := { id := "A", name := "a.png", type := "image/png" }

/-- Source image B. -/
def docB : DocMeta := { id := "B", name := "b.png", type := "image/png" }

/-- Source image C. -/
def docC : DocMeta := { id := "C", name := "c.png", type := "image/png" }

/-- The artifact recorded by an earlier merge of A, B, C. -/
def mergedArtifactABC : DocMeta :=
  { id := "m1", name := "merged-images-t1.pdf", type := "application/pdf",
    sourceImageIds := some ["A", "B", "C"], isMergedDocument := true }

/-- A store holding the three source images and the merged artifact. -/
def storeABC : MergeStore :=
  ⟨[docA, docB, docC, mergedArtifactABC],
   [("A", str "aa"), ("B", str "bb"), ("C", str "cc")]⟩

/-- A candidate image document named photo.png. -/
def candPng : DocMeta := { id := "X", name := "photo.png", type := "image/png" }

/-- A stored PDF named photo.pdf that carries no conversion
provenance. -/
def plainPdf : DocMeta :=
  { id := "p1", name := "photo.pdf", type := "application/pdf" }

/-- A stored PDF whose provenance records a conversion from candPng,
under an unrelated file name. -/
def provenancePdf : DocMeta :=
  { id := "p2", name := "other.pdf", type := "application/pdf",
    isGeneratedDocument := true, sourceDocumentId := some "X" }

/-- The candidate as a source document with three data bytes. -/
def srcPng : SrcDoc := ⟨candPng, str "IMG"⟩

/-- An empty store. -/
def emptyStore : MergeStore := ⟨[], []⟩

/-- Sample metadata for the persistence theorems. -/
def sampleMeta : DocMeta :=
  { id := "d1", name := "n.pdf", type := "application/pdf" }

/-- A raster oracle that fails on the bytes `"BBB"` and decodes
everything else as a 10 × 20 image keeping the source bytes. -/
def r3 : RasterOracle :=
  fun data => if data == str "BBB" then none else some ⟨10, 20, data⟩

/-- Three image sources for the partial-failure merge; the second one
carries the bytes the oracle `r3` fails on. -/
def src3A : SrcDoc := ⟨{ id := "A", name := "a.png", type := "image/png" }, str "AAA"⟩

/-- The source whose decode fails under `r3`. -/
def src3B : SrcDoc := ⟨{ id := "B", name := "b.png", type := "image/png" }, str "BBB"⟩

/-- The third source, decodable under `r3`. -/
def src3C : SrcDoc := ⟨{ id := "C", name := "c.png", type := "image/png" }, str "CCC"⟩

/-! ## Foundational lemmas -/

theorem foldl_len (l : List α) (a : Nat) :
    l.foldl (fun n _ => n + 1) a = a + l.length := by
  induction l generalizing a with
  | nil => simp
  | cons x xs ih => simp [List.foldl, ih]; omega

theorem lenTR_eq (l : List α) : lenTR l = l.length := by
  simp [lenTR, foldl_len]

theorem lexLe_refl : ∀ l, lexLe l l = true
  | [] => rfl
  | _ :: s => by simp [lexLe, lexLe_refl s]

theorem lexLe_total : ∀ a b, lexLe a b = true ∨ lexLe b a = true
  | [], _ => .inl rfl
  | _ :: _, [] => .inr rfl
  | a :: as, b :: bs => by
    by_cases hab : a.toNat < b.toNat
    · exact .inl (by simp [lexLe, hab])
    · by_cases hba : b.toNat < a.toNat
      · exact .inr (by simp [lexLe, hba])
      · rcases lexLe_total as bs with h | h
        · exact .inl (by simp [lexLe, hab, hba, h])
        · exact .inr (by simp [lexLe, hab, hba, h])

theorem char_eq_of_toNat_eq {a b : Char} (h : a.toNat = b.toNat) : a = b :=
  Char.eq_of_val_eq (UInt32.toNat.inj h)

theorem lexLe_trans : ∀ a b c, lexLe a b = true → lexLe b c = true →
    lexLe a c = true
  | [], _, _ => by intro _ _; rfl
  | _ :: _, [], _ => by intro h _; simp [lexLe] at h
  | _ :: _, _ :: _, [] => by intro _ h; simp [lexLe] at h
  | a :: as, b :: bs, c :: cs => by
    intro h1 h2
    simp only [lexLe] at h1 h2 ⊢
    split_ifs at h1 h2 ⊢ <;>
      first
        | rfl
        | omega
        | exact lexLe_trans as bs cs (by assumption) (by assumption)

theorem lexLe_antisymm : ∀ a b, lexLe a b = true → lexLe b a = true → a = b
  | [], [] => by intro _ _; rfl
  | [], _ :: _ => by intro _ h; simp [lexLe] at h
  | _ :: _, [] => by intro h _; simp [lexLe] at h
  | a :: as, b :: bs => by
    intro h1 h2
    simp only [lexLe] at h1 h2
    split_ifs at h1 h2 <;> try omega
    have hab : a = b := char_eq_of_toNat_eq (by omega)
    have := lexLe_antisymm as bs h1 h2
    simp [hab, this]

instance : IsTotal String (fun a b => idLe a b = true) :=
  ⟨fun a b => lexLe_total a.data b.data⟩

instance : IsTrans String (fun a b => idLe a b = true) :=
  ⟨fun a b c => lexLe_trans a.data b.data c.data⟩

instance : IsAntisymm String (fun a b => idLe a b = true) :=
  ⟨fun a b h1 h2 => String.ext (lexLe_antisymm a.data b.data h1 h2)⟩

instance : IsTotal DocMeta (fun a b => idLe a.id b.id = true) :=
  ⟨fun a b => lexLe_total a.id.data b.id.data⟩

instance : IsTrans DocMeta (fun a b => idLe a.id b.id = true) :=
  ⟨fun a b c => lexLe_trans a.id.data b.id.data c.id.data⟩

/-! ## Lemmas on the id sort and the merge duplicate scan -/

theorem sortStrings_sorted (l : List String) :
    (sortStrings l).Sorted (fun a b => idLe a b = true) :=
  List.sorted_insertionSort _ l

theorem sortStrings_perm (l : List String) : List.Perm (sortStrings l) l :=
  List.perm_insertionSort _ l

theorem sortStrings_length (l : List String) :
    (sortStrings l).length = l.length :=
  (sortStrings_perm l).length_eq

theorem sortStrings_eq_of_mem_iff {l1 l2 : List String} (h1 : l1.Nodup)
    (h2 : l2.Nodup) (hmem : ∀ x, x ∈ l1 ↔ x ∈ l2) :
    sortStrings l1 = sortStrings l2 := by
  have hp : List.Perm l1 l2 :=
    List.perm_of_nodup_nodup_toFinset_eq h1 h2
      (Finset.ext fun x => by simp [List.mem_toFinset, hmem x])
  exact List.eq_of_perm_of_sorted
    ((sortStrings_perm l1).trans (hp.trans (sortStrings_perm l2).symm))
    (sortStrings_sorted l1) (sortStrings_sorted l2)

theorem mem_iff_of_sortStrings_eq {l1 l2 : List String}
    (h : sortStrings l1 = sortStrings l2) : ∀ x, x ∈ l1 ↔ x ∈ l2 := by
  have hp : List.Perm l1 l2 :=
    (sortStrings_perm l1).symm.trans (h ▸ sortStrings_perm l2)
  exact fun x => hp.mem_iff

theorem sortedImageIdsOf_eq (docs : List DocMeta) :
    sortedImageIdsOf docs = sortStrings (docs.map (·.id)) := by
  apply List.eq_of_perm_of_sorted (r := fun a b => idLe a b = true)
  · exact ((List.perm_insertionSort
        (fun a b : DocMeta => idLe a.id b.id = true) docs).map (·.id)).trans
      (sortStrings_perm _).symm
  · exact (List.pairwise_map).mpr
      (List.sorted_insertionSort (fun a b : DocMeta => idLe a.id b.id = true) docs)
  · exact sortStrings_sorted _

theorem zipAllEq_iff : ∀ {l1 l2 : List String}, l1.length = l2.length →
    (((l1.zip l2).all fun p => p.1 == p.2) = true ↔ l1 = l2)
  | [], [] => by simp
  | [], _ :: _ => by intro h; simp at h
  | _ :: _, [] => by intro h; simp at h
  | a :: as, b :: bs => by
    intro h
    simp only [List.length_cons, Nat.succ_inj] at h
    rw [List.zip_cons_cons, List.all_cons]
    simp only [Bool.and_eq_true, beq_iff_eq, zipAllEq_iff h, List.cons.injEq]

theorem matchesMergeSet_iff {cand : List String} {d : DocMeta} :
    matchesMergeSet cand d = true ↔
      ∃ ids, d.sourceImageIds = some ids ∧ sortStrings ids = cand := by
  cases hsrc : d.sourceImageIds with
  | none => simp [matchesMergeSet, hsrc]
  | some ids =>
    constructor
    · intro h
      simp only [matchesMergeSet, hsrc, lenTR_eq] at h
      by_cases hlen : ids.length = cand.length
      · rw [if_neg (by simpa [bne_iff_ne] using hlen)] at h
        simp only [Bool.and_eq_true, beq_iff_eq] at h
        exact ⟨ids, rfl, ((zipAllEq_iff h.1).mp h.2).symm⟩
      · rw [if_pos (by simpa [bne_iff_ne] using hlen)] at h
        exact absurd h (by simp)
    · rintro ⟨ids2, hids2, hsort⟩
      have hids : ids = ids2 := Option.some.inj hids2
      subst hids
      have hlen : cand.length = (sortStrings ids).length :=
        (congrArg List.length hsort).symm
      have hlen2 : ids.length = cand.length := by
        rw [hlen, sortStrings_length]
      simp only [matchesMergeSet, hsrc, lenTR_eq]
      rw [if_neg (by simpa [bne_iff_ne] using hlen2)]
      simp only [Bool.and_eq_true, beq_iff_eq]
      exact ⟨hlen, (zipAllEq_iff hlen).mpr hsort.symm⟩

theorem findDuplicateMerge_isSome {cand : List String}
    {store : List DocMeta} :
    (findDuplicateMerge cand store).isSome = true ↔
      ∃ d ∈ store, isExistingMergedPdf d = true ∧
        matchesMergeSet cand d = true := by
  simp only [findDuplicateMerge, List.find?_isSome, List.mem_filter]
  constructor
  · rintro ⟨d, ⟨hd, hpdf⟩, hm⟩; exact ⟨d, hd, hpdf, hm⟩
  · rintro ⟨d, hd, hpdf, hm⟩; exact ⟨d, ⟨hd, hpdf⟩, hm⟩


/-! ## Storage lemmas for the persistence claims -/

theorem kvGet_cons_ne (x : String × StoredVal) (xs : KVStore) (k : String)
    (h : x.1 ≠ k) : kvGet (x :: xs) k = kvGet xs k := by
  simp [kvGet, List.find?_cons, beq_iff_eq, h]

theorem kvGet_no_key_append (l : KVStore) (k : String) (v : StoredVal)
    (h : ∀ p ∈ l, p.1 ≠ k) : kvGet (l ++ [(k, v)]) k = some v := by
  induction l with
  | nil => simp [kvGet, List.find?]
  | cons x xs ih =>
    rw [List.cons_append, kvGet_cons_ne x _ k (h x (by simp))]
    exact ih fun p hp => h p (by simp [hp])

theorem kvGet_append_single_ne (l : KVStore) (k k2 : String) (v : StoredVal)
    (h : k2 ≠ k) : kvGet (l ++ [(k, v)]) k2 = kvGet l k2 := by
  induction l with
  | nil =>
    have hk : (k == k2) = false := by
      simp only [beq_eq_false_iff_ne]
      exact fun hh => h hh.symm
    simp [kvGet, List.find?, hk]
  | cons x xs ih =>
    by_cases hx : x.1 = k2
    · simp [kvGet, List.find?_cons, beq_iff_eq, hx]
    · rw [List.cons_append, kvGet_cons_ne x _ k2 hx, kvGet_cons_ne x xs k2 hx]
      exact ih

theorem kvGet_filter_other (l : KVStore) (k k2 : String) (h : k2 ≠ k) :
    kvGet (l.filter fun p => p.1 != k) k2 = kvGet l k2 := by
  induction l with
  | nil => rfl
  | cons x xs ih =>
    by_cases hx : x.1 = k
    · rw [List.filter_cons_of_neg (by simp [hx]), kvGet_cons_ne x xs k2 (by rw [hx]; exact fun hh => h hh.symm)]
      exact ih
    · rw [List.filter_cons_of_pos (by simp [hx])]
      by_cases hx2 : x.1 = k2
      · simp [kvGet, List.find?_cons, beq_iff_eq, hx2]
      · rw [kvGet_cons_ne x _ k2 hx2, kvGet_cons_ne x xs k2 hx2]
        exact ih

theorem metaKey_ne_fileKey (id : String) : ("meta:" ++ id) ≠ ("file:" ++ id) := by
  intro h
  have h2 := congrArg String.data h
  rw [String.data_append, String.data_append] at h2
  simp [str] at h2

/-! ## Occurrence machinery: digit-free patterns over chunks -/

theorem natStrAux_digits : ∀ (fuel n : Nat), ∀ c ∈ natStrAux fuel n,
    c.isDigit = true
  | 0, _ => by intro c hc; simp [natStrAux] at hc
  | fuel + 1, n => by
    intro c hc
    unfold natStrAux at hc
    split_ifs at hc with h
    · simp only [List.mem_singleton] at hc
      subst hc
      have h9 : n ≤ 9 := by omega
      interval_cases n <;> decide
    · rw [List.mem_append] at hc
      rcases hc with hc | hc
      · exact natStrAux_digits fuel (n / 10) c hc
      · simp only [List.mem_singleton] at hc
        subst hc
        have h9 : n % 10 ≤ 9 := by omega
        have h9b : n % 10 = 0 ∨ n % 10 = 1 ∨ n % 10 = 2 ∨ n % 10 = 3
            ∨ n % 10 = 4 ∨ n % 10 = 5 ∨ n % 10 = 6 ∨ n % 10 = 7
            ∨ n % 10 = 8 ∨ n % 10 = 9 := by omega
        rcases h9b with h | h | h | h | h | h | h | h | h | h <;>
          rw [h] <;> decide

theorem natStr_digits (n : Nat) : ∀ c ∈ natStr n, c.isDigit = true :=
  natStrAux_digits (n + 1) n

theorem natStr_ne_nil (n : Nat) : natStr n ≠ [] := by
  unfold natStr natStrAux
  split_ifs with h
  · simp
  · simp

theorem pad10_digits (n : Nat) : ∀ c ∈ pad10 n, c.isDigit = true := by
  intro c hc
  unfold pad10 at hc
  rw [List.mem_append] at hc
  rcases hc with hc | hc
  · rw [List.eq_of_mem_replicate hc]; decide
  · exact natStr_digits n c hc

theorem pad10_ne_nil (n : Nat) : pad10 n ≠ [] := by
  unfold pad10
  intro h
  rcases List.append_eq_nil.mp h with ⟨_, h2⟩
  exact natStr_ne_nil n h2

theorem occListFrom_nil (p : List Char) (hp0 : p ≠ []) (i : Nat) :
    occListFrom p [] i = [] := by
  unfold occListFrom
  rw [if_neg]
  intro h
  exact hp0 (List.prefix_nil.mp (List.isPrefixOf_iff_prefix.mp h))

theorem isPrefixOf_append_digit_head :
    ∀ (p u w : List Char), (∀ c ∈ p, c.isDigit = false) →
    (∀ c, w.head? = some c → c.isDigit = true) →
    p.isPrefixOf (u ++ w) = p.isPrefixOf u
  | [], u, w => by intro _ _; cases u <;> simp [List.isPrefixOf]
  | q :: p2, [], w => by
    intro hp hw
    cases w with
    | nil => rfl
    | cons cw w2 =>
      simp only [List.nil_append, List.isPrefixOf]
      have h1 : cw.isDigit = true := hw cw rfl
      have h2 : q.isDigit = false := hp q (by simp)
      have : (q == cw) = false := by
        rw [beq_eq_false_iff_ne]
        intro he
        rw [he, h1] at h2
        simp at h2
      simp [this]
  | q :: p2, c :: u2, w => by
    intro hp hw
    simp only [List.cons_append, List.isPrefixOf, List.append_eq]
    rw [isPrefixOf_append_digit_head p2 u2 w (fun c2 hc => hp c2 (by simp [hc])) hw]

theorem occListFrom_append_digit_head (p : List Char) (hp0 : p ≠ [])
    (hp : ∀ c ∈ p, c.isDigit = false) :
    ∀ (u w : List Char), (∀ c, w.head? = some c → c.isDigit = true) →
    ∀ i, occListFrom p (u ++ w) i
      = occListFrom p u i ++ occListFrom p w (i + u.length)
  | [], w, hw, i => by
    rw [occListFrom_nil p hp0]
    simp
  | c :: u2, w, hw, i => by
    show (if p.isPrefixOf (c :: u2 ++ w) then [i] else [])
        ++ occListFrom p (u2 ++ w) (i + 1) = _
    rw [show c :: u2 ++ w = (c :: u2) ++ w from rfl,
      isPrefixOf_append_digit_head p (c :: u2) w hp hw,
      occListFrom_append_digit_head p hp0 hp u2 w hw (i + 1)]
    show _ = (if p.isPrefixOf (c :: u2) then [i] else [])
        ++ occListFrom p u2 (i + 1) ++ occListFrom p w (i + (c :: u2).length)
    simp only [List.length_cons, List.append_assoc]
    have : i + 1 + u2.length = i + (u2.length + 1) := by omega
    rw [this]

theorem occListFrom_digits_prepend (p : List Char) (hp0 : p ≠ [])
    (hp : ∀ c ∈ p, c.isDigit = false) :
    ∀ (d w : List Char), (∀ c ∈ d, c.isDigit = true) →
    ∀ i, occListFrom p (d ++ w) i = occListFrom p w (i + d.length)
  | [], w, _, i => by simp
  | c :: d2, w, hd, i => by
    show (if p.isPrefixOf (c :: d2 ++ w) then [i] else [])
        ++ occListFrom p (d2 ++ w) (i + 1) = _
    have hpre : p.isPrefixOf (c :: d2 ++ w) = false := by
      cases p with
      | nil => exact absurd rfl hp0
      | cons q p2 =>
        simp only [List.cons_append, List.isPrefixOf]
        have h1 : c.isDigit = true := hd c (by simp)
        have h2 : q.isDigit = false := hp q (by simp)
        have : (q == c) = false := by
          rw [beq_eq_false_iff_ne]
          intro he
          rw [he, h1] at h2
          simp at h2
        simp [this]
    have harith : i + 1 + d2.length = i + (d2.length + 1) := by omega
    rw [hpre,
      occListFrom_digits_prepend p hp0 hp d2 w (fun c2 hc => hd c2 (by simp [hc])) (i + 1),
      harith]
    simp

theorem occListFrom_chunks (p : List Char) (hp0 : p ≠ [])
    (hp : ∀ c ∈ p, c.isDigit = false) :
    ∀ (cs : List Chunk), chunksOk cs → ∀ i,
    occListFrom p (chunksText cs) i = chunkOccs p cs i
  | [], _, i => by
    show occListFrom p [] i = []
    exact occListFrom_nil p hp0 i
  | .dig d :: rest, hok, i => by
    obtain ⟨hd0, hd, hrest⟩ := hok
    show occListFrom p (d ++ chunksText rest) i = chunkOccs p rest (i + d.length)
    rw [occListFrom_digits_prepend p hp0 hp d _ hd i]
    exact occListFrom_chunks p hp0 hp rest hrest (i + d.length)
  | [.lit t], _, i => by
    show occListFrom p (t ++ chunksText []) i
      = occListFrom p t i ++ chunkOccs p [] (i + t.length)
    simp [chunksText, chunkOccs]
  | .lit t :: .lit t2 :: rest, hok, i => absurd hok (by simp [chunksOk])
  | .lit t :: .dig d :: rest, hok, i => by
    have hok2 : chunksOk (Chunk.dig d :: rest) := hok
    obtain ⟨hd0, hd, hrest⟩ := hok2
    show occListFrom p (t ++ chunksText (Chunk.dig d :: rest)) i
      = occListFrom p t i ++ chunkOccs p (Chunk.dig d :: rest) (i + t.length)
    rw [occListFrom_append_digit_head p hp0 hp t _ ?hw i]
    · rw [occListFrom_chunks p hp0 hp (Chunk.dig d :: rest) hok (i + t.length)]
    case hw =>
      intro c hc
      cases d with
      | nil => exact absurd rfl hd0
      | cons cd d2 =>
        have hcd : c = cd := by
          simp only [chunksText, List.cons_append, List.head?,
            Option.some.injEq] at hc
          exact hc.symm
        rw [hcd]
        exact hd cd (by simp)

/-! ## The merge loop produces the page blocks in order -/

theorem mergeLoop_eq : ∀ (rest : List MergeImg) (i : Nat) (content : List Char)
    (xref : List Nat),
    mergeLoop (List.enumFrom i rest) content xref (3 + 3 * i) =
      (content ++ pageBlocksFrom i rest,
       xref ++ xrefPosFrom content.length i rest,
       3 + 3 * i + 3 * rest.length)
  | [], i, content, xref => by
    simp [mergeLoop, pageBlocksFrom, xrefPosFrom, List.enumFrom]
  | img :: rest, i, content, xref => by
    rw [List.enumFrom_cons]
    show mergeLoop (List.enumFrom (i + 1) rest)
        (content ++ pageBlockA i (3 + 3 * i) img.width img.height
          ++ pageBlockB (lenTR img.bytes) (3 + 3 * i + 1) img.width img.height
          ++ pageBlockC i (3 + 3 * i + 2) img.width img.height)
        (xref ++ [lenTR content,
          lenTR (content ++ pageBlockA i (3 + 3 * i) img.width img.height),
          lenTR (content ++ pageBlockA i (3 + 3 * i) img.width img.height
            ++ pageBlockB (lenTR img.bytes) (3 + 3 * i + 1) img.width img.height)
            + lenTR img.bytes + 10])
        (3 + 3 * i + 3) = _
    have h3 : 3 + 3 * i + 3 = 3 + 3 * (i + 1) := by omega
    rw [h3, mergeLoop_eq rest (i + 1)]
    simp only [Prod.mk.injEq, lenTR_eq, List.length_append, pageBlocksFrom,
      xrefPosFrom, pageBlock, List.append_assoc, List.cons_append,
      List.nil_append, List.singleton_append, Nat.add_assoc, List.length_cons]
    exact ⟨trivial, trivial, by omega⟩

theorem mergePdfContent_eq (imgs : List MergeImg) :
    mergePdfContent imgs =
      mergeHeader imgs.length ++ pageBlocksFrom 0 imgs
        ++ xrefSection (mergeHeader imgs.length ++ pageBlocksFrom 0 imgs).length
            (mergeInitXref imgs.length
              ++ xrefPosFrom (mergeHeader imgs.length).length 0 imgs)
            (3 + 3 * imgs.length) := by
  have h := mergeLoop_eq imgs 0 (mergeHeader imgs.length)
    (mergeInitXref imgs.length)
  simp only [Nat.mul_zero, Nat.add_zero] at h
  unfold mergePdfContent mergeContentXref
  rw [show (imgs.enum) = List.enumFrom 0 imgs from rfl, h]
  simp [lenTR_eq, List.append_assoc]

theorem mergeXrefPositions_eq (imgs : List MergeImg) :
    mergeXrefPositions imgs =
      mergeInitXref imgs.length
        ++ xrefPosFrom (mergeHeader imgs.length).length 0 imgs := by
  have h := mergeLoop_eq imgs 0 (mergeHeader imgs.length)
    (mergeInitXref imgs.length)
  simp only [Nat.mul_zero, Nat.add_zero] at h
  unfold mergeXrefPositions mergeContentXref
  rw [show (imgs.enum) = List.enumFrom 0 imgs from rfl, h]

/-- Splitting the joined page blocks at one page. -/
theorem pageBlocksFrom_split : ∀ (imgs : List MergeImg) (i0 i : Nat)
    (hi : i < imgs.length),
    ∃ pre post, pageBlocksFrom i0 imgs =
      pre ++ pageBlock (i0 + i) (3 + 3 * (i0 + i)) (imgs.get ⟨i, hi⟩) ++ post
  | img :: rest, i0, 0, _ =>
    ⟨[], pageBlocksFrom (i0 + 1) rest, by simp [pageBlocksFrom]⟩
  | img :: rest, i0, i + 1, hi => by
    obtain ⟨pre, post, hp⟩ :=
      pageBlocksFrom_split rest (i0 + 1) i (by simpa using Nat.lt_of_succ_lt_succ hi)
    refine ⟨pageBlock i0 (3 + 3 * i0) img ++ pre, post, ?_⟩
    have harith : i0 + 1 + i = i0 + (i + 1) := by omega
    simp only [pageBlocksFrom, List.get_cons_succ, hp, harith, List.append_assoc]

/-! ## Chunk sequence facts: text, well-formedness -/

theorem chunksText_append : ∀ (cs1 cs2 : List Chunk),
    chunksText (cs1 ++ cs2) = chunksText cs1 ++ chunksText cs2
  | [], cs2 => rfl
  | .lit t :: rest, cs2 => by
    simp [chunksText, chunksText_append rest cs2]
  | .dig d :: rest, cs2 => by
    simp [chunksText, chunksText_append rest cs2]

/-- The last chunk is a digit chunk. -/
def lastDig : List Chunk → Prop
  | [] => False
  | [Chunk.dig _] => True
  | [Chunk.lit _] => False
  | _ :: c :: rest => lastDig (c :: rest)

/-- The first chunk is a digit chunk. -/
def headDig : List Chunk → Prop
  | Chunk.dig _ :: _ => True
  | _ => False

theorem chunksOk_append : ∀ (cs1 cs2 : List Chunk), chunksOk cs1 →
    chunksOk cs2 → (headDig cs2 ∨ lastDig cs1) → chunksOk (cs1 ++ cs2)
  | [], cs2, _, h2, _ => h2
  | [Chunk.lit t], cs2, _, h2, hside => by
    cases cs2 with
    | nil => exact trivial
    | cons c2 rest2 =>
      cases c2 with
      | dig d => exact h2
      | lit t2 =>
        rcases hside with hside | hside
        · exact absurd hside (by simp [headDig])
        · exact absurd hside (by simp [lastDig])
  | [Chunk.dig d], cs2, h1, h2, hside => by
    obtain ⟨hd0, hd, _⟩ := h1
    exact ⟨hd0, hd, h2⟩
  | Chunk.dig d :: c :: rest, cs2, h1, h2, hside => by
    obtain ⟨hd0, hd, hrest⟩ := h1
    refine ⟨hd0, hd, ?_⟩
    exact chunksOk_append (c :: rest) cs2 hrest h2
      (by rcases hside with hside | hside
          · exact Or.inl hside
          · exact Or.inr hside)
  | Chunk.lit t :: Chunk.lit t2 :: rest, cs2, h1, _, _ => absurd h1 (by simp [chunksOk])
  | Chunk.lit t :: Chunk.dig d :: rest, cs2, h1, h2, hside => by
    show chunksOk (Chunk.dig d :: (rest ++ cs2))
    have h1b : chunksOk (Chunk.dig d :: rest) := h1
    have := chunksOk_append (Chunk.dig d :: rest) cs2 h1b h2
      (by rcases hside with hside | hside
          · exact Or.inl hside
          · exact Or.inr hside)
    exact this

theorem kidsMore_text : ∀ (m i : Nat),
    chunksText (kidsMoreChunks m i)
      = (List.range' i m).flatMap (fun j => str " 0 R " ++ natStr (3 + 3 * j))
        ++ str " 0 R ] /Count "
  | 0, i => by simp [kidsMoreChunks, chunksText]
  | m + 1, i => by
    simp only [kidsMoreChunks, chunksText, kidsMore_text m (i + 1),
      List.range', List.flatMap_cons, List.append_assoc]

theorem kidsMore_ok : ∀ (m i : Nat), chunksOk (kidsMoreChunks m i)
  | 0, i => trivial
  | m + 1, i => by
    show chunksOk (Chunk.dig (natStr (3 + 3 * i)) :: kidsMoreChunks m (i + 1))
    exact ⟨natStr_ne_nil _, natStr_digits _, kidsMore_ok m (i + 1)⟩

theorem kids_text : ∀ (m i : Nat),
    natStr (3 + 3 * i) ++ chunksText (kidsMoreChunks m (i + 1))
      = (List.range' i (m + 1)).flatMap
          (fun j => natStr (3 + 3 * j) ++ str " 0 R ")
        ++ str "] /Count "
  | 0, i => by
    have hsplit : str " 0 R ] /Count " = str " 0 R " ++ str "] /Count " := rfl
    simp [kidsMoreChunks, chunksText, List.range', hsplit, List.append_assoc]
  | m + 1, i => by
    show natStr (3 + 3 * i) ++ (str " 0 R "
        ++ (natStr (3 + 3 * (i + 1))
          ++ chunksText (kidsMoreChunks m (i + 1 + 1)))) = _
    rw [kids_text m (i + 1)]
    simp [List.range', List.flatMap_cons, List.append_assoc]

theorem header_text (k : Nat) (hk : 1 ≤ k) :
    chunksText (headerChunks k) = mergeHeader k := by
  obtain ⟨m, rfl⟩ : ∃ m, k = m + 1 := ⟨k - 1, by omega⟩
  show mergeHeaderPre
      ++ (natStr 3 ++ chunksText (kidsMoreChunks m 1
        ++ [Chunk.dig (natStr (m + 1)), Chunk.lit (str " >>\nendobj\n")]))
    = mergeHeader (m + 1)
  rw [chunksText_append]
  have h0 : (3 : Nat) + 3 * 0 = 3 := by norm_num
  have hkk := kids_text m 0
  rw [h0] at hkk
  have hmc : ∀ j : Nat, 3 + j * 3 = 3 + 3 * j := fun j => by omega
  unfold mergeHeader kidsList
  rw [List.range_eq_range']
  simp only [hmc, chunksText, List.append_nil, List.append_assoc]
  rw [show (0 : Nat) + 1 = 1 from rfl] at hkk
  rw [← List.append_assoc (natStr 3), hkk]
  simp [List.append_assoc]

theorem pageCore_text (i : Nat) (img : MergeImg) :
    chunksText (pageChunksCore i img) ++ str " Do\nQ\nendstream\nendobj\n"
      = pageBlock i (3 + 3 * i) img := by
  have e1 : str " >>\nstream\nendstream\nendobj\n"
      = str " >>\nstream\n" ++ str "endstream\nendobj\n" := rfl
  unfold pageChunksCore pageBlock pageBlockA pageBlockB pageBlockC
  rw [e1]
  simp [chunksText, List.append_assoc]

theorem pageCore_ok (i : Nat) (img : MergeImg) (tail : List Chunk)
    (htail : chunksOk tail) (hhead : ¬ headDig tail) :
    chunksOk (pageChunksCore i img ++ tail) := by
  cases tail with
  | nil =>
    simp only [List.append_nil]
    unfold pageChunksCore
    refine ⟨natStr_ne_nil _, natStr_digits _, ?_⟩
    refine ⟨natStr_ne_nil _, natStr_digits _, ?_⟩
    refine ⟨natStr_ne_nil _, natStr_digits _, ?_⟩
    refine ⟨natStr_ne_nil _, natStr_digits _, ?_⟩
    refine ⟨natStr_ne_nil _, natStr_digits _, ?_⟩
    refine ⟨natStr_ne_nil _, natStr_digits _, ?_⟩
    refine ⟨natStr_ne_nil _, natStr_digits _, ?_⟩
    refine ⟨natStr_ne_nil _, natStr_digits _, ?_⟩
    refine ⟨natStr_ne_nil _, natStr_digits _, ?_⟩
    refine ⟨natStr_ne_nil _, natStr_digits _, ?_⟩
    refine ⟨natStr_ne_nil _, natStr_digits _, ?_⟩
    refine ⟨natStr_ne_nil _, natStr_digits _, ?_⟩
    refine ⟨natStr_ne_nil _, natStr_digits _, ?_⟩
    exact ⟨natStr_ne_nil _, natStr_digits _, trivial⟩
  | cons c rest =>
    cases c with
    | dig d => exact absurd trivial hhead
    | lit t =>
      unfold pageChunksCore
      simp only [List.cons_append, List.nil_append]
      refine ⟨natStr_ne_nil _, natStr_digits _, ?_⟩
      refine ⟨natStr_ne_nil _, natStr_digits _, ?_⟩
      refine ⟨natStr_ne_nil _, natStr_digits _, ?_⟩
      refine ⟨natStr_ne_nil _, natStr_digits _, ?_⟩
      refine ⟨natStr_ne_nil _, natStr_digits _, ?_⟩
      refine ⟨natStr_ne_nil _, natStr_digits _, ?_⟩
      refine ⟨natStr_ne_nil _, natStr_digits _, ?_⟩
      refine ⟨natStr_ne_nil _, natStr_digits _, ?_⟩
      refine ⟨natStr_ne_nil _, natStr_digits _, ?_⟩
      refine ⟨natStr_ne_nil _, natStr_digits _, ?_⟩
      refine ⟨natStr_ne_nil _, natStr_digits _, ?_⟩
      refine ⟨natStr_ne_nil _, natStr_digits _, ?_⟩
      refine ⟨natStr_ne_nil _, natStr_digits _, ?_⟩
      exact ⟨natStr_ne_nil _, natStr_digits _, htail⟩

theorem pagesX_text : ∀ (imgs : List MergeImg) (i : Nat),
    chunksText (pagesChunksX i imgs)
      = pageBlocksFrom i imgs ++ str "xref\n0 "
  | [], i => by simp [pagesChunksX, chunksText, pageBlocksFrom]
  | [img], i => by
    have e1 : str " Do\nQ\nendstream\nendobj\nxref\n0 "
        = str " Do\nQ\nendstream\nendobj\n" ++ str "xref\n0 " := rfl
    show chunksText (pageChunksCore i img
        ++ [Chunk.lit (str " Do\nQ\nendstream\nendobj\nxref\n0 ")]) = _
    rw [chunksText_append]
    show chunksText (pageChunksCore i img)
        ++ (str " Do\nQ\nendstream\nendobj\nxref\n0 " ++ []) = _
    rw [List.append_nil, e1, ← List.append_assoc, pageCore_text]
    simp [pageBlocksFrom]
  | img :: img2 :: rest, i => by
    show chunksText (pageChunksCore i img
        ++ (Chunk.lit (str " Do\nQ\nendstream\nendobj\n")
            :: pagesChunksX (i + 1) (img2 :: rest))) = _
    rw [chunksText_append]
    show chunksText (pageChunksCore i img)
        ++ (str " Do\nQ\nendstream\nendobj\n"
          ++ chunksText (pagesChunksX (i + 1) (img2 :: rest))) = _
    rw [pagesX_text (img2 :: rest) (i + 1), ← List.append_assoc, pageCore_text]
    simp [pageBlocksFrom, List.append_assoc]

theorem pagesX_ok : ∀ (imgs : List MergeImg) (i : Nat), imgs ≠ [] →
    chunksOk (pagesChunksX i imgs)
  | [], _, h => absurd rfl h
  | [img], i, _ => by
    apply pageCore_ok
    · exact trivial
    · simp [headDig]
  | img :: img2 :: rest, i, _ => by
    apply pageCore_ok
    · show chunksOk (Chunk.lit (str " Do\nQ\nendstream\nendobj\n")
        :: pagesChunksX (i + 1) (img2 :: rest))
      have hrec := pagesX_ok (img2 :: rest) (i + 1) (by simp)
      cases hh : pagesChunksX (i + 1) (img2 :: rest) with
      | nil => exact trivial
      | cons c rest2 =>
        rw [hh] at hrec
        cases c with
        | dig d => exact hrec
        | lit t =>
          exfalso
          have hhd : headDig (pagesChunksX (i + 1) (img2 :: rest)) := by
            cases rest <;> simp [pagesChunksX, pageChunksCore, headDig]
          rw [hh] at hhd
          simp [headDig] at hhd
    · simp [headDig]

theorem xrefEntry_text : ∀ (m j : Nat) (positions : List Nat),
    chunksText (xrefEntryChunks positions m j)
      = (List.range' j m).flatMap
          (fun t => pad10 (positions.getD (t + 1) 0) ++ str " 00000 n\n")
        ++ str "trailer\n<< /Size "
  | 0, j, positions => by simp [xrefEntryChunks, chunksText, List.range']
  | 1, j, positions => by
    have e1 : str " 00000 n\ntrailer\n<< /Size "
        = str " 00000 n\n" ++ str "trailer\n<< /Size " := rfl
    simp [xrefEntryChunks, chunksText, List.range', e1, List.append_assoc]
  | m + 2, j, positions => by
    show pad10 (positions.getD (j + 1) 0) ++ (str " 00000 n\n"
        ++ chunksText (xrefEntryChunks positions (m + 1) (j + 1))) = _
    rw [xrefEntry_text (m + 1) (j + 1) positions]
    simp [List.range', List.flatMap_cons, List.append_assoc]

theorem xrefEntry_ok : ∀ (m j : Nat) (positions : List Nat),
    chunksOk (xrefEntryChunks positions m j)
  | 0, _, _ => trivial
  | 1, j, positions =>
    ⟨pad10_ne_nil _, pad10_digits _, trivial⟩
  | m + 2, j, positions => by
    refine ⟨pad10_ne_nil _, pad10_digits _, ?_⟩
    show chunksOk (Chunk.lit (str " 00000 n\n")
      :: xrefEntryChunks positions (m + 1) (j + 1))
    have hrec := xrefEntry_ok (m + 1) (j + 1) positions
    cases m with
    | zero => exact hrec
    | succ m2 => exact hrec

theorem chunksOk_lit_cons (t : List Char) (cs : List Chunk)
    (h : chunksOk cs) (hd : headDig cs) : chunksOk (Chunk.lit t :: cs) := by
  cases cs with
  | nil => trivial
  | cons c rest =>
    cases c with
    | dig d => exact h
    | lit t2 => exact absurd hd (by simp [headDig])

theorem headDig_pagesChunksX (i : Nat) (img : MergeImg)
    (rest : List MergeImg) : headDig (pagesChunksX i (img :: rest)) := by
  cases rest <;> simp [pagesChunksX, pageChunksCore, headDig]

theorem headDig_append (a b : List Chunk) (h : headDig a) :
    headDig (a ++ b) := by
  cases a with
  | nil => exact absurd h (by simp [headDig])
  | cons c rest =>
    cases c with
    | dig d => simp [headDig]
    | lit t => exact absurd h (by simp [headDig])

theorem mergeChunks_text (imgs : List MergeImg) (h : imgs ≠ []) :
    chunksText (mergeChunks imgs) = mergePdfContent imgs := by
  have hk : 1 ≤ imgs.length := by
    cases imgs with
    | nil => exact absurd rfl h
    | cons a l => simp
  unfold mergeChunks
  rw [chunksText_append, chunksText_append, chunksText_append,
    header_text imgs.length hk, pagesX_text imgs 0, mergePdfContent_eq]
  unfold xrefSection
  rw [← mergeXrefPositions_eq]
  simp only [chunksText, List.append_nil]
  rw [xrefEntry_text, List.range_eq_range']
  simp [List.append_assoc]

theorem mergeChunks_ok (imgs : List MergeImg) (h : imgs ≠ []) :
    chunksOk (mergeChunks imgs) := by
  obtain ⟨img, rest, rfl⟩ : ∃ a l, imgs = a :: l := by
    cases imgs with
    | nil => exact absurd rfl h
    | cons a l => exact ⟨a, l, rfl⟩
  have htail3 : chunksOk
      [Chunk.dig (natStr (3 + 3 * (img :: rest).length)),
       Chunk.lit (str " /Root 1 0 R >>\nstartxref\n"),
       Chunk.dig (natStr (mergeHeader (img :: rest).length
         ++ pageBlocksFrom 0 (img :: rest)).length),
       Chunk.lit (str "\n%%EOF")] :=
    ⟨natStr_ne_nil _, natStr_digits _,
      ⟨natStr_ne_nil _, natStr_digits _, trivial⟩⟩
  have hentry : chunksOk (xrefEntryChunks (mergeXrefPositions (img :: rest))
      (3 + 3 * (img :: rest).length - 1) 0
      ++ [Chunk.dig (natStr (3 + 3 * (img :: rest).length)),
          Chunk.lit (str " /Root 1 0 R >>\nstartxref\n"),
          Chunk.dig (natStr (mergeHeader (img :: rest).length
            ++ pageBlocksFrom 0 (img :: rest)).length),
          Chunk.lit (str "\n%%EOF")]) := by
    apply chunksOk_append _ _ (xrefEntry_ok _ _ _) htail3
    exact Or.inl trivial
  have hmiddle : chunksOk
      ((Chunk.dig (natStr (3 + 3 * (img :: rest).length))
        :: Chunk.lit (str "\n0000000000 65535 f\n")
        :: xrefEntryChunks (mergeXrefPositions (img :: rest))
            (3 + 3 * (img :: rest).length - 1) 0)
        ++ [Chunk.dig (natStr (3 + 3 * (img :: rest).length)),
            Chunk.lit (str " /Root 1 0 R >>\nstartxref\n"),
            Chunk.dig (natStr (mergeHeader (img :: rest).length
              ++ pageBlocksFrom 0 (img :: rest)).length),
            Chunk.lit (str "\n%%EOF")]) := by
    simp only [List.cons_append]
    refine ⟨natStr_ne_nil _, natStr_digits _, ?_⟩
    apply chunksOk_lit_cons
    · exact hentry
    · have harith : 3 + 3 * (img :: rest).length - 1
          = 3 * (img :: rest).length + 1 + 1 := by
        simp only [List.length_cons]; omega
      rw [harith]
      show headDig ((Chunk.dig _ :: _) ++ _)
      simp [headDig, xrefEntryChunks]
  have hpages : chunksOk (pagesChunksX 0 (img :: rest) ++ _) :=
    chunksOk_append _ _ (pagesX_ok (img :: rest) 0 (by simp)) hmiddle
      (Or.inl trivial)
  unfold mergeChunks headerChunks
  simp only [List.cons_append]
  apply chunksOk_lit_cons
  · refine ⟨natStr_ne_nil _, natStr_digits _, ?_⟩
    rw [List.append_assoc, List.append_assoc, List.append_assoc]
    apply chunksOk_append _ _ (kidsMore_ok _ _)
    · simp only [List.cons_append]
      refine ⟨natStr_ne_nil _, natStr_digits _, ?_⟩
      apply chunksOk_lit_cons
      · exact hpages
      · simp only [List.nil_append]
        exact headDig_append _ _ (headDig_pagesChunksX 0 img rest)
    · exact Or.inl trivial
  · simp [headDig]

/-! ## Occurrence shifts, chunk occurrence counts -/

theorem occListFrom_add (p : List Char) :
    ∀ (t : List Char) (i j : Nat),
    occListFrom p t (i + j) = (occListFrom p t j).map (fun q => q + i)
  | [], i, j => by
    by_cases hp : p.isPrefixOf ([] : List Char) <;>
      simp [occListFrom, hp, Nat.add_comm]
  | c :: s, i, j => by
    show (if p.isPrefixOf (c :: s) then [i + j] else [])
        ++ occListFrom p s (i + j + 1) = _
    have h1 : i + j + 1 = i + (j + 1) := by omega
    rw [h1, occListFrom_add p s i (j + 1)]
    show _ = ((if p.isPrefixOf (c :: s) then [j] else [])
        ++ occListFrom p s (j + 1)).map (fun q => q + i)
    by_cases hp : p.isPrefixOf (c :: s) <;> simp [hp, Nat.add_comm]

theorem occListFrom_eq_shift (p t : List Char) (i : Nat) :
    occListFrom p t i = (occList p t).map (fun q => q + i) := by
  have h := occListFrom_add p t i 0
  simpa [occList] using h

theorem occListFrom_length (p t : List Char) (i : Nat) :
    (occListFrom p t i).length = (occList p t).length := by
  rw [occListFrom_eq_shift, List.length_map]

theorem chunkOccs_length (p : List Char) :
    ∀ (cs : List Chunk) (i : Nat),
    (chunkOccs p cs i).length = chunkCount p cs
  | [], _ => rfl
  | .lit t :: rest, i => by
    show (occListFrom p t i ++ chunkOccs p rest (i + t.length)).length = _
    rw [List.length_append, occListFrom_length, chunkOccs_length p rest]
    rfl
  | .dig d :: rest, i => by
    show (chunkOccs p rest (i + d.length)).length = _
    rw [chunkOccs_length p rest]
    rfl

theorem chunkCount_append (p : List Char) :
    ∀ (cs1 cs2 : List Chunk),
    chunkCount p (cs1 ++ cs2) = chunkCount p cs1 + chunkCount p cs2
  | [], cs2 => by simp [chunkCount]
  | .lit t :: rest, cs2 => by
    show (occList p t).length + chunkCount p (rest ++ cs2) = _
    rw [chunkCount_append p rest cs2]
    show _ = (occList p t).length + chunkCount p rest + chunkCount p cs2
    omega
  | .dig d :: rest, cs2 => by
    show chunkCount p (rest ++ cs2) = _
    rw [chunkCount_append p rest cs2]
    rfl

theorem chunkOccs_append (p : List Char) :
    ∀ (cs1 cs2 : List Chunk) (i : Nat),
    chunkOccs p (cs1 ++ cs2) i
      = chunkOccs p cs1 i ++ chunkOccs p cs2 (i + (chunksText cs1).length)
  | [], cs2, i => by simp [chunkOccs, chunksText]
  | .lit t :: rest, cs2, i => by
    show occListFrom p t i ++ chunkOccs p (rest ++ cs2) (i + t.length) = _
    rw [chunkOccs_append p rest cs2]
    show _ = occListFrom p t i ++ chunkOccs p rest (i + t.length)
        ++ chunkOccs p cs2 (i + (t ++ chunksText rest).length)
    simp [List.length_append, List.append_assoc, Nat.add_assoc]
  | .dig d :: rest, cs2, i => by
    show chunkOccs p (rest ++ cs2) (i + d.length) = _
    rw [chunkOccs_append p rest cs2]
    show _ = chunkOccs p rest (i + d.length)
        ++ chunkOccs p cs2 (i + (d ++ chunksText rest).length)
    simp [List.length_append, Nat.add_assoc]

/-! ## Page-object counting: the pattern of a Page object header -/

theorem chunkCount_page_kidsMore :
    ∀ (m i : Nat),
    chunkCount (str "/Type /Page /Parent") (kidsMoreChunks m i) = 0
  | 0, i => by
    simp only [kidsMoreChunks, chunkCount]
    decide
  | m + 1, i => by
    simp only [kidsMoreChunks, chunkCount,
      chunkCount_page_kidsMore m (i + 1)]
    decide

theorem chunkCount_page_header (k : Nat) :
    chunkCount (str "/Type /Page /Parent") (headerChunks k) = 0 := by
  unfold headerChunks
  simp only [chunkCount, chunkCount_append, chunkCount_page_kidsMore]
  decide

theorem chunkCount_page_core (i : Nat) (img : MergeImg) :
    chunkCount (str "/Type /Page /Parent") (pageChunksCore i img) = 1 := by
  unfold pageChunksCore
  simp only [chunkCount]
  decide

theorem chunkCount_page_pagesX :
    ∀ (imgs : List MergeImg) (i : Nat),
    chunkCount (str "/Type /Page /Parent") (pagesChunksX i imgs) = imgs.length
  | [], i => by
    simp only [pagesChunksX, chunkCount, List.length_nil]
    decide
  | [img], i => by
    show chunkCount _ (pageChunksCore i img
        ++ [Chunk.lit (str " Do\nQ\nendstream\nendobj\nxref\n0 ")]) = _
    rw [chunkCount_append, chunkCount_page_core]
    simp only [chunkCount, List.length_cons, List.length_nil]
    decide
  | img :: img2 :: rest, i => by
    show chunkCount _ (pageChunksCore i img
        ++ (Chunk.lit (str " Do\nQ\nendstream\nendobj\n")
            :: pagesChunksX (i + 1) (img2 :: rest))) = _
    have h0 : (occList (str "/Type /Page /Parent")
        (str " Do\nQ\nendstream\nendobj\n")).length = 0 := by decide
    rw [chunkCount_append, chunkCount_page_core]
    simp only [chunkCount, h0,
      chunkCount_page_pagesX (img2 :: rest) (i + 1), List.length_cons]
    omega

theorem chunkCount_page_xref :
    ∀ (m j : Nat) (positions : List Nat),
    chunkCount (str "/Type /Page /Parent") (xrefEntryChunks positions m j) = 0
  | 0, j, positions => by
    simp only [xrefEntryChunks, chunkCount]
    decide
  | 1, j, positions => by
    simp only [xrefEntryChunks, chunkCount]
    decide
  | m + 2, j, positions => by
    simp only [xrefEntryChunks, chunkCount,
      chunkCount_page_xref (m + 1) (j + 1) positions]
    decide

theorem countOcc_page_merge (imgs : List MergeImg) (h : imgs ≠ []) :
    countOcc (str "/Type /Page /Parent") (mergePdfContent imgs)
      = imgs.length := by
  have h0 : str "/Type /Page /Parent" ≠ [] := by decide
  have hnd : ∀ c ∈ str "/Type /Page /Parent", c.isDigit = false := by decide
  have hocc := occListFrom_chunks (str "/Type /Page /Parent") h0 hnd
    (mergeChunks imgs) (mergeChunks_ok imgs h) 0
  rw [mergeChunks_text imgs h] at hocc
  rw [countOcc, lenTR_eq, occList, hocc, chunkOccs_length]
  unfold mergeChunks
  have e1 : (occList (str "/Type /Page /Parent")
      (str "\n0000000000 65535 f\n")).length = 0 := by decide
  have e2 : (occList (str "/Type /Page /Parent")
      (str " /Root 1 0 R >>\nstartxref\n")).length = 0 := by decide
  have e3 : (occList (str "/Type /Page /Parent")
      (str "\n%%EOF")).length = 0 := by decide
  rw [chunkCount_append, chunkCount_append, chunkCount_append,
    chunkCount_page_header, chunkCount_page_pagesX]
  simp only [chunkCount, chunkCount_page_xref, e1, e2, e3]
  omega

/-! ## Reading numbers back: digits, Kids parsing, Count -/

theorem digitsToNat_append (l : List Char) (c : Char) :
    digitsToNat (l ++ [c]) = digitsToNat l * 10 + (c.toNat - 48) := by
  unfold digitsToNat
  rw [List.foldl_append]
  rfl

theorem digitsToNat_natStrAux :
    ∀ (fuel n : Nat), n < fuel → digitsToNat (natStrAux fuel n) = n
  | 0, n, h => absurd h (by omega)
  | fuel + 1, n, h => by
    unfold natStrAux
    by_cases h10 : n < 10
    · rw [if_pos h10]
      interval_cases n <;> decide
    · rw [if_neg h10]
      rw [digitsToNat_append,
        digitsToNat_natStrAux fuel (n / 10) (by omega)]
      have hm : n % 10 < 10 := Nat.mod_lt _ (by norm_num)
      have hc : (Char.ofNat (48 + n % 10)).toNat = 48 + n % 10 := by
        set m := n % 10 with hmdef
        interval_cases m <;> decide
      omega

theorem digitsToNat_natStr (n : Nat) : digitsToNat (natStr n) = n :=
  digitsToNat_natStrAux (n + 1) n (by omega)

theorem takeDigits_digits_append :
    ∀ (d s : List Char), (∀ c ∈ d, c.isDigit = true) →
    takeDigits (d ++ s) = d ++ takeDigits s
  | [], _, _ => by simp
  | c :: d2, s, hd => by
    show takeDigits (c :: (d2 ++ s)) = _
    rw [show takeDigits (c :: (d2 ++ s))
        = if c.isDigit then c :: takeDigits (d2 ++ s) else [] from rfl,
      if_pos (hd c (by simp)),
      takeDigits_digits_append d2 s (fun x hx => hd x (by simp [hx]))]
    simp

theorem takeDigits_nondigit (c : Char) (s : List Char)
    (h : c.isDigit = false) : takeDigits (c :: s) = [] := by
  simp [takeDigits, h]

theorem takeDigits_head_nondigit (s : List Char)
    (h : ∀ c, s.head? = some c → c.isDigit = false) : takeDigits s = [] := by
  cases s with
  | nil => rfl
  | cons c t => exact takeDigits_nondigit c t (h c rfl)

theorem isPrefixOf_self_append (l t : List Char) :
    l.isPrefixOf (l ++ t) = true :=
  List.isPrefixOf_iff_prefix.mpr (List.prefix_append l t)

theorem parseKids_flat :
    ∀ (m i fuel : Nat) (tail : List Char), m < fuel → takeDigits tail = [] →
    parseKidsRefs fuel
        ((List.range' i m).flatMap
          (fun j => natStr (3 + 3 * j) ++ str " 0 R ") ++ tail)
      = (List.range' i m).map (fun j => 3 + 3 * j)
  | 0, i, fuel, tail, hf, ht => by
    obtain ⟨f, rfl⟩ : ∃ f, fuel = f + 1 := ⟨fuel - 1, by omega⟩
    show parseKidsRefs (f + 1) ([] ++ tail) = []
    rw [List.nil_append]
    simp [parseKidsRefs, ht]
  | m + 1, i, fuel, tail, hf, ht => by
    obtain ⟨f, rfl⟩ : ∃ f, fuel = f + 1 := ⟨fuel - 1, by omega⟩
    show parseKidsRefs (f + 1)
        ((natStr (3 + 3 * i) ++ str " 0 R ")
          ++ (List.range' (i + 1) m).flatMap
              (fun j => natStr (3 + 3 * j) ++ str " 0 R ") ++ tail) = _
    have hdig : ∀ c ∈ natStr (3 + 3 * i), c.isDigit = true :=
      natStr_digits _
    have hsp : str " 0 R " = ' ' :: str "0 R " := rfl
    have htd : takeDigits (natStr (3 + 3 * i) ++ str " 0 R "
        ++ (List.range' (i + 1) m).flatMap
            (fun j => natStr (3 + 3 * j) ++ str " 0 R ") ++ tail)
        = natStr (3 + 3 * i) := by
      simp only [List.append_assoc]
      rw [takeDigits_digits_append _ _ hdig, hsp,
        List.cons_append, takeDigits_nondigit ' ' _ (by decide)]
      simp
    have hne : (natStr (3 + 3 * i)).isEmpty = false := by
      cases hn : natStr (3 + 3 * i) with
      | nil => exact absurd hn (natStr_ne_nil _)
      | cons a l => rfl
    have hdrop : ((natStr (3 + 3 * i) ++ str " 0 R "
        ++ (List.range' (i + 1) m).flatMap
            (fun j => natStr (3 + 3 * j) ++ str " 0 R ") ++ tail).drop
          (natStr (3 + 3 * i)).length)
        = str " 0 R " ++ ((List.range' (i + 1) m).flatMap
            (fun j => natStr (3 + 3 * j) ++ str " 0 R ") ++ tail) := by
      simp only [List.append_assoc]
      rw [List.drop_left]
    have hdrop5 : ((str " 0 R " ++ ((List.range' (i + 1) m).flatMap
        (fun j => natStr (3 + 3 * j) ++ str " 0 R ") ++ tail)).drop 5)
        = (List.range' (i + 1) m).flatMap
            (fun j => natStr (3 + 3 * j) ++ str " 0 R ") ++ tail :=
      List.drop_left' (by decide)
    unfold parseKidsRefs
    rw [htd]
    simp only [hne, Bool.false_eq_true, if_false, hdrop,
      isPrefixOf_self_append, if_true, hdrop5, digitsToNat_natStr,
      parseKids_flat m (i + 1) f tail (by omega) ht]
    rfl

theorem kidsList_eq (k : Nat) :
    kidsList k = (List.range' 0 k).flatMap
      (fun j => natStr (3 + 3 * j) ++ str " 0 R ") := by
  unfold kidsList
  rw [List.range_eq_range']
  have hmc : ∀ j : Nat, 3 + j * 3 = 3 + 3 * j := fun j => by omega
  simp only [hmc]

theorem kidsFlat_len (k : Nat) : ∀ i, k ≤ ((List.range' i k).flatMap
    (fun j => natStr (3 + 3 * j) ++ str " 0 R ")).length := by
  induction k with
  | zero => intro i; simp
  | succ m ih =>
    intro i
    show m + 1 ≤ ((natStr (3 + 3 * i) ++ str " 0 R ")
      ++ (List.range' (i + 1) m).flatMap
          (fun j => natStr (3 + 3 * j) ++ str " 0 R ")).length
    have h1 : 1 ≤ (natStr (3 + 3 * i)).length := by
      cases hn : natStr (3 + 3 * i) with
      | nil => exact absurd hn (natStr_ne_nil _)
      | cons a l => simp
    have h2 := ih (i + 1)
    simp only [List.length_append]
    omega

/-! ## First occurrences of the Kids and Count markers -/

theorem jsIndexOf_kids (imgs : List MergeImg) (h : imgs ≠ []) :
    jsIndexOf (str "/Kids [") (mergePdfContent imgs) = some 82 := by
  have h0 : str "/Kids [" ≠ [] := by decide
  have hnd : ∀ c ∈ str "/Kids [", c.isDigit = false := by decide
  have hocc := occListFrom_chunks (str "/Kids [") h0 hnd
    (mergeChunks imgs) (mergeChunks_ok imgs h) 0
  rw [mergeChunks_text imgs h] at hocc
  rw [jsIndexOf, occList, hocc]
  unfold mergeChunks headerChunks
  simp only [List.cons_append]
  show (occListFrom (str "/Kids [") mergeHeaderPre 0 ++ _).head? = _
  rw [show occListFrom (str "/Kids [") mergeHeaderPre 0 = [82] by decide]
  rfl

theorem chunkOccs_count_kidsMore :
    ∀ (m i j : Nat),
    chunkOccs (str "/Count ") (kidsMoreChunks m i) j
        = [j + (chunksText (kidsMoreChunks m i)).length - 7]
      ∧ 14 ≤ (chunksText (kidsMoreChunks m i)).length
  | 0, i, j => by
    have h2 : (chunksText (kidsMoreChunks 0 i)).length = 14 := by
      simp only [kidsMoreChunks, chunksText]
      decide
    constructor
    · show occListFrom (str "/Count ") (str " 0 R ] /Count ") j ++ [] = _
      rw [List.append_nil, occListFrom_eq_shift,
        show occList (str "/Count ") (str " 0 R ] /Count ") = [7] by decide,
        h2]
      simp
      omega
    · rw [h2]
  | m + 1, i, j => by
    obtain ⟨ih1, ih2⟩ := chunkOccs_count_kidsMore m (i + 1)
      (j + 5 + (natStr (3 + 3 * i)).length)
    have htext : chunksText (kidsMoreChunks (m + 1) i)
        = str " 0 R " ++ (natStr (3 + 3 * i)
          ++ chunksText (kidsMoreChunks m (i + 1))) := rfl
    constructor
    · show occListFrom (str "/Count ") (str " 0 R ") j
          ++ chunkOccs (str "/Count ") (Chunk.dig (natStr (3 + 3 * i))
              :: kidsMoreChunks m (i + 1)) (j + 5) = _
      show occListFrom (str "/Count ") (str " 0 R ") j
          ++ chunkOccs (str "/Count ") (kidsMoreChunks m (i + 1))
              (j + 5 + (natStr (3 + 3 * i)).length) = _
      rw [occListFrom_eq_shift,
        show occList (str "/Count ") (str " 0 R ") = [] by decide,
        ih1, htext]
      simp only [List.map_nil, List.nil_append, List.length_append]
      have h5 : (str " 0 R ").length = 5 := by decide
      rw [h5]
      congr 1
      omega
    · rw [htext]
      simp only [List.length_append]
      omega

theorem jsIndexOf_count (imgs : List MergeImg) (h : imgs ≠ []) :
    jsIndexOf (str "/Count ") (mergePdfContent imgs)
      = some ((mergeHeaderPre ++ kidsList imgs.length ++ str "] ").length) := by
  obtain ⟨img, rest, rfl⟩ : ∃ a l, imgs = a :: l := by
    cases imgs with
    | nil => exact absurd rfl h
    | cons a l => exact ⟨a, l, rfl⟩
  have h0 : str "/Count " ≠ [] := by decide
  have hnd : ∀ c ∈ str "/Count ", c.isDigit = false := by decide
  have hocc := occListFrom_chunks (str "/Count ") h0 hnd
    (mergeChunks (img :: rest)) (mergeChunks_ok (img :: rest) h) 0
  rw [mergeChunks_text (img :: rest) h] at hocc
  rw [jsIndexOf, occList, hocc]
  unfold mergeChunks headerChunks
  obtain ⟨hkm, hkmlen⟩ := chunkOccs_count_kidsMore ((img :: rest).length - 1) 1
    (0 + mergeHeaderPre.length + (natStr 3).length)
  simp only [List.cons_append, List.append_assoc]
  simp only [chunkOccs]
  rw [show occListFrom (str "/Count ") mergeHeaderPre 0 = [] by decide,
    chunkOccs_append, hkm]
  simp only [List.nil_append, List.singleton_append, List.head?_cons]
  congr 1
  have hkidskey : natStr 3
      ++ chunksText (kidsMoreChunks ((img :: rest).length - 1) 1)
      = kidsList (img :: rest).length ++ str "] /Count " := by
    have hk := kids_text ((img :: rest).length - 1) 0
    rw [show (3 : Nat) + 3 * 0 = 3 from rfl, show (0 : Nat) + 1 = 1 from rfl,
      show (img :: rest).length - 1 + 1 = (img :: rest).length by
        simp [List.length_cons]] at hk
    rw [hk, kidsList_eq]
  have hlen : (natStr 3).length
      + (chunksText (kidsMoreChunks ((img :: rest).length - 1) 1)).length
      = (kidsList (img :: rest).length).length + 9 := by
    have := congrArg List.length hkidskey
    simp only [List.length_append] at this
    have h9 : (str "] /Count ").length = 9 := by decide
    rw [h9] at this
    omega
  simp only [List.length_append]
  have h2 : (str "] ").length = 2 := by decide
  rw [h2]
  omega

/-! ## Extracting Kids and Count from the merge content -/

theorem mergeContent_decomp (imgs : List MergeImg) :
    mergePdfContent imgs
      = mergeHeaderPre ++ (kidsList imgs.length
        ++ (str "] /Count " ++ (natStr imgs.length
          ++ (str " >>\nendobj\n" ++ (pageBlocksFrom 0 imgs
            ++ xrefSection (mergeHeader imgs.length
                ++ pageBlocksFrom 0 imgs).length
              (mergeInitXref imgs.length
                ++ xrefPosFrom (mergeHeader imgs.length).length 0 imgs)
              (3 + 3 * imgs.length)))))) := by
  rw [mergePdfContent_eq]
  unfold mergeHeader
  simp [List.append_assoc]

theorem extractKids_merge (imgs : List MergeImg) (h : imgs ≠ []) :
    extractKids (mergePdfContent imgs)
      = (List.range imgs.length).map (fun i => 3 + 3 * i) := by
  have hdecomp := mergeContent_decomp imgs
  have hfuel : imgs.length < lenTR (mergePdfContent imgs) := by
    rw [lenTR_eq, hdecomp]
    have hk := kidsFlat_len imgs.length 0
    rw [← kidsList_eq] at hk
    simp only [List.length_append]
    have h89 : mergeHeaderPre.length = 89 := by decide
    omega
  have htail : takeDigits (str "] /Count " ++ (natStr imgs.length
      ++ (str " >>\nendobj\n" ++ (pageBlocksFrom 0 imgs
        ++ xrefSection (mergeHeader imgs.length
            ++ pageBlocksFrom 0 imgs).length
          (mergeInitXref imgs.length
            ++ xrefPosFrom (mergeHeader imgs.length).length 0 imgs)
          (3 + 3 * imgs.length))))) = [] := by
    rw [show str "] /Count " = ']' :: str " /Count " from rfl,
      List.cons_append]
    exact takeDigits_nondigit ']' _ (by decide)
  unfold extractKids
  rw [jsIndexOf_kids imgs h]
  show parseKidsRefs (lenTR (mergePdfContent imgs))
      ((mergePdfContent imgs).drop (82 + 7))
    = (List.range imgs.length).map (fun i => 3 + 3 * i)
  rw [hdecomp] at hfuel ⊢
  rw [show (82 + 7) = mergeHeaderPre.length from by decide, List.drop_left]
  have hp := parseKids_flat imgs.length 0 _ _ hfuel htail
  rw [← kidsList_eq] at hp
  rw [List.range_eq_range']
  exact hp

theorem extractCount_merge (imgs : List MergeImg) (h : imgs ≠ []) :
    extractCount (mergePdfContent imgs) = imgs.length := by
  have hdecomp := mergeContent_decomp imgs
  have hsplit : mergePdfContent imgs
      = (mergeHeaderPre ++ kidsList imgs.length ++ str "] ")
        ++ str "/Count " ++ (natStr imgs.length
          ++ (str " >>\nendobj\n" ++ (pageBlocksFrom 0 imgs
            ++ xrefSection (mergeHeader imgs.length
                ++ pageBlocksFrom 0 imgs).length
              (mergeInitXref imgs.length
                ++ xrefPosFrom (mergeHeader imgs.length).length 0 imgs)
              (3 + 3 * imgs.length)))) := by
    rw [hdecomp]
    rw [show str "] /Count " = str "] " ++ str "/Count " from rfl]
    simp [List.append_assoc]
  unfold extractCount
  rw [jsIndexOf_count imgs h]
  show digitsToNat (takeDigits ((mergePdfContent imgs).drop
      ((mergeHeaderPre ++ kidsList imgs.length ++ str "] ").length + 7)))
    = imgs.length
  rw [hsplit]
  rw [show ((mergeHeaderPre ++ kidsList imgs.length ++ str "] ")
      ++ str "/Count " ++ (natStr imgs.length
        ++ (str " >>\nendobj\n" ++ (pageBlocksFrom 0 imgs
          ++ xrefSection (mergeHeader imgs.length
              ++ pageBlocksFrom 0 imgs).length
            (mergeInitXref imgs.length
              ++ xrefPosFrom (mergeHeader imgs.length).length 0 imgs)
            (3 + 3 * imgs.length)))))
    = ((mergeHeaderPre ++ kidsList imgs.length ++ str "] ") ++ str "/Count ")
      ++ (natStr imgs.length
        ++ (str " >>\nendobj\n" ++ (pageBlocksFrom 0 imgs
          ++ xrefSection (mergeHeader imgs.length
              ++ pageBlocksFrom 0 imgs).length
            (mergeInitXref imgs.length
              ++ xrefPosFrom (mergeHeader imgs.length).length 0 imgs)
            (3 + 3 * imgs.length)))) by simp [List.append_assoc]]
  rw [List.drop_left' (by
    simp only [List.length_append]
    rw [show (str "/Count ").length = 7 by decide])]
  rw [takeDigits_digits_append _ _ (natStr_digits _),
    show takeDigits (str " >>\nendobj\n" ++ (pageBlocksFrom 0 imgs
        ++ xrefSection (mergeHeader imgs.length
            ++ pageBlocksFrom 0 imgs).length
          (mergeInitXref imgs.length
            ++ xrefPosFrom (mergeHeader imgs.length).length 0 imgs)
          (3 + 3 * imgs.length))) = [] from by
      rw [show str " >>\nendobj\n" = ' ' :: str ">>\nendobj\n" from rfl,
        List.cons_append]
      exact takeDigits_nondigit ' ' _ (by decide)]
  rw [List.append_nil, digitsToNat_natStr]

/-! ## Block lengths -/

theorem natStr_len_pos (n : Nat) : 1 ≤ (natStr n).length := by
  cases hn : natStr n with
  | nil => exact absurd hn (natStr_ne_nil n)
  | cons a l => simp

theorem pageBlock_pb (i : Nat) (img : MergeImg) :
    pageBlock i (3 + 3 * i) img = pbA i img ++ pbB i img ++ pbC i img := rfl

theorem pbA_len (i : Nat) (img : MergeImg) :
    (pbA i img).length = (natStr (3 + 3 * i)).length
      + (natStr img.width).length + (natStr img.height).length
      + (natStr i).length + (natStr (3 + 3 * i + 1)).length
      + (natStr (3 + 3 * i + 2)).length + 123 := by
  unfold pbA pageBlockA
  simp only [List.length_append,
    show (str " 0 obj\n<< /Type /Page /Parent 2 0 R /MediaBox [0 0 ").length
      = 51 from by decide,
    show (str " ").length = 1 from by decide,
    show (str "] /Resources << /XObject << /Image").length = 34 from by decide,
    show (str " 0 R >> >> /Contents ").length = 21 from by decide,
    show (str " 0 R >>\nendobj\n").length = 15 from by decide]
  omega

theorem pbB_len (i : Nat) (img : MergeImg) :
    (pbB i img).length = (natStr (3 + 3 * i + 1)).length
      + (natStr img.width).length + (natStr img.height).length
      + (natStr img.bytes.length).length + 139 := by
  unfold pbB pageBlockB
  simp only [List.length_append,
    show (str " 0 obj\n<< /Type /XObject /Subtype /Image /Width ").length
      = 48 from by decide,
    show (str " /Height ").length = 9 from by decide,
    show (str " /ColorSpace /DeviceRGB /BitsPerComponent 8 /Filter /DCTDecode /Length ").length
      = 71 from by decide,
    show (str " >>\nstream\n").length = 11 from by decide]
  omega

theorem pbC_len (i : Nat) (img : MergeImg) :
    (pbC i img).length = (natStr (3 + 3 * i + 2)).length
      + (natStr img.width).length + (natStr img.height).length
      + (natStr i).length + 92 := by
  unfold pbC pageBlockC
  simp only [List.length_append,
    show (str "endstream\nendobj\n").length = 17 from by decide,
    show (str " 0 obj\n<< /Length 44 >>\nstream\nq\n").length = 33 from by decide,
    show (str " 0 0 ").length = 5 from by decide,
    show (str " 0 0 cm\n/Image").length = 14 from by decide,
    show (str " Do\nQ\nendstream\nendobj\n").length = 23 from by decide]
  omega

/-! ## Occurrences of the splice-search patterns, page by page -/

theorem pageCore_text_len (i : Nat) (img : MergeImg) :
    (chunksText (pageChunksCore i img)).length
      = (pbA i img).length + (pbB i img).length + (pbC i img).length - 23 := by
  have h := congrArg List.length (pageCore_text i img)
  rw [pageBlock_pb] at h
  simp only [List.length_append,
    show (str " Do\nQ\nendstream\nendobj\n").length = 23 from by decide] at h
  omega

theorem streamOccs_core (i : Nat) (img : MergeImg) (j : Nat) :
    chunkOccs (str "stream\n") (pageChunksCore i img) j
      = [j + (pbA i img).length + (pbB i img).length - 7,
         j + (pbA i img).length + (pbB i img).length + 3,
         j + (pbA i img).length + (pbB i img).length + 17
           + (natStr (3 + 3 * i + 2)).length + 24] := by
  unfold pageChunksCore
  simp only [chunkOccs, occListFrom_eq_shift,
    show occList (str "stream\n")
      (str " 0 obj\n<< /Type /Page /Parent 2 0 R /MediaBox [0 0 ") = []
      from by decide,
    show occList (str "stream\n") (str " ") = [] from by decide,
    show occList (str "stream\n")
      (str "] /Resources << /XObject << /Image") = [] from by decide,
    show occList (str "stream\n") (str " 0 R >> >> /Contents ") = []
      from by decide,
    show occList (str "stream\n") (str " 0 R >>\nendobj\n") = []
      from by decide,
    show occList (str "stream\n")
      (str " 0 obj\n<< /Type /XObject /Subtype /Image /Width ") = []
      from by decide,
    show occList (str "stream\n") (str " /Height ") = [] from by decide,
    show occList (str "stream\n")
      (str " /ColorSpace /DeviceRGB /BitsPerComponent 8 /Filter /DCTDecode /Length ")
      = [] from by decide,
    show occList (str "stream\n")
      (str " >>\nstream\nendstream\nendobj\n") = [4, 14] from by decide,
    show occList (str "stream\n")
      (str " 0 obj\n<< /Length 44 >>\nstream\nq\n") = [24] from by decide,
    show occList (str "stream\n") (str " 0 0 ") = [] from by decide,
    show occList (str "stream\n") (str " 0 0 cm\n/Image") = [] from by decide,
    List.map_nil, List.map_cons, List.nil_append, List.cons_append,
    List.append_nil]
  simp only [
    show (str " 0 obj\n<< /Type /Page /Parent 2 0 R /MediaBox [0 0 ").length
      = 51 from by decide,
    show (str " ").length = 1 from by decide,
    show (str "] /Resources << /XObject << /Image").length = 34
      from by decide,
    show (str " 0 R >> >> /Contents ").length = 21 from by decide,
    show (str " 0 R >>\nendobj\n").length = 15 from by decide,
    show (str " 0 obj\n<< /Type /XObject /Subtype /Image /Width ").length
      = 48 from by decide,
    show (str " /Height ").length = 9 from by decide,
    show (str " /ColorSpace /DeviceRGB /BitsPerComponent 8 /Filter /DCTDecode /Length ").length
      = 71 from by decide,
    show (str " >>\nstream\nendstream\nendobj\n").length = 28
      from by decide,
    show (str " 0 obj\n<< /Length 44 >>\nstream\nq\n").length = 33
      from by decide,
    show (str " 0 0 ").length = 5 from by decide,
    show (str " 0 0 cm\n/Image").length = 14 from by decide]
  rw [pbA_len, pbB_len]
  simp only [List.cons.injEq, and_true]
  refine ⟨by omega, by omega, by omega⟩

theorem endstreamOccs_core (i : Nat) (img : MergeImg) (j : Nat) :
    chunkOccs (str "endstream") (pageChunksCore i img) j
      = [j + (pbA i img).length + (pbB i img).length] := by
  unfold pageChunksCore
  simp only [chunkOccs, occListFrom_eq_shift,
    show occList (str "endstream")
      (str " 0 obj\n<< /Type /Page /Parent 2 0 R /MediaBox [0 0 ") = []
      from by decide,
    show occList (str "endstream") (str " ") = [] from by decide,
    show occList (str "endstream")
      (str "] /Resources << /XObject << /Image") = [] from by decide,
    show occList (str "endstream") (str " 0 R >> >> /Contents ") = []
      from by decide,
    show occList (str "endstream") (str " 0 R >>\nendobj\n") = []
      from by decide,
    show occList (str "endstream")
      (str " 0 obj\n<< /Type /XObject /Subtype /Image /Width ") = []
      from by decide,
    show occList (str "endstream") (str " /Height ") = [] from by decide,
    show occList (str "endstream")
      (str " /ColorSpace /DeviceRGB /BitsPerComponent 8 /Filter /DCTDecode /Length ")
      = [] from by decide,
    show occList (str "endstream")
      (str " >>\nstream\nendstream\nendobj\n") = [11] from by decide,
    show occList (str "endstream")
      (str " 0 obj\n<< /Length 44 >>\nstream\nq\n") = [] from by decide,
    show occList (str "endstream") (str " 0 0 ") = [] from by decide,
    show occList (str "endstream") (str " 0 0 cm\n/Image") = []
      from by decide,
    List.map_nil, List.map_cons, List.nil_append, List.cons_append,
    List.append_nil]
  simp only [
    show (str " 0 obj\n<< /Type /Page /Parent 2 0 R /MediaBox [0 0 ").length
      = 51 from by decide,
    show (str " ").length = 1 from by decide,
    show (str "] /Resources << /XObject << /Image").length = 34
      from by decide,
    show (str " 0 R >> >> /Contents ").length = 21 from by decide,
    show (str " 0 R >>\nendobj\n").length = 15 from by decide,
    show (str " 0 obj\n<< /Type /XObject /Subtype /Image /Width ").length
      = 48 from by decide,
    show (str " /Height ").length = 9 from by decide,
    show (str " /ColorSpace /DeviceRGB /BitsPerComponent 8 /Filter /DCTDecode /Length ").length
      = 71 from by decide,
    show (str " >>\nstream\nendstream\nendobj\n").length = 28
      from by decide,
    show (str " 0 obj\n<< /Length 44 >>\nstream\nq\n").length = 33
      from by decide,
    show (str " 0 0 ").length = 5 from by decide,
    show (str " 0 0 cm\n/Image").length = 14 from by decide]
  rw [pbA_len, pbB_len]
  simp only [List.cons.injEq, and_true]
  omega

theorem objOccs_core (i : Nat) (img : MergeImg) (j : Nat) :
    chunkOccs (str "obj") (pageChunksCore i img) j
      = [j + (natStr (3 + 3 * i)).length + 3,
         j + (pbA i img).length - 4,
         j + (pbA i img).length + (natStr (3 + 3 * i + 1)).length + 3,
         j + (pbA i img).length + (pbB i img).length + 13,
         j + (pbA i img).length + (pbB i img).length + 17
           + (natStr (3 + 3 * i + 2)).length + 3] := by
  unfold pageChunksCore
  simp only [chunkOccs, occListFrom_eq_shift,
    show occList (str "obj")
      (str " 0 obj\n<< /Type /Page /Parent 2 0 R /MediaBox [0 0 ") = [3]
      from by decide,
    show occList (str "obj") (str " ") = [] from by decide,
    show occList (str "obj")
      (str "] /Resources << /XObject << /Image") = [] from by decide,
    show occList (str "obj") (str " 0 R >> >> /Contents ") = []
      from by decide,
    show occList (str "obj") (str " 0 R >>\nendobj\n") = [11]
      from by decide,
    show occList (str "obj")
      (str " 0 obj\n<< /Type /XObject /Subtype /Image /Width ") = [3]
      from by decide,
    show occList (str "obj") (str " /Height ") = [] from by decide,
    show occList (str "obj")
      (str " /ColorSpace /DeviceRGB /BitsPerComponent 8 /Filter /DCTDecode /Length ")
      = [] from by decide,
    show occList (str "obj")
      (str " >>\nstream\nendstream\nendobj\n") = [24] from by decide,
    show occList (str "obj")
      (str " 0 obj\n<< /Length 44 >>\nstream\nq\n") = [3] from by decide,
    show occList (str "obj") (str " 0 0 ") = [] from by decide,
    show occList (str "obj") (str " 0 0 cm\n/Image") = [] from by decide,
    List.map_nil, List.map_cons, List.nil_append, List.cons_append,
    List.append_nil]
  simp only [
    show (str " 0 obj\n<< /Type /Page /Parent 2 0 R /MediaBox [0 0 ").length
      = 51 from by decide,
    show (str " ").length = 1 from by decide,
    show (str "] /Resources << /XObject << /Image").length = 34
      from by decide,
    show (str " 0 R >> >> /Contents ").length = 21 from by decide,
    show (str " 0 R >>\nendobj\n").length = 15 from by decide,
    show (str " 0 obj\n<< /Type /XObject /Subtype /Image /Width ").length
      = 48 from by decide,
    show (str " /Height ").length = 9 from by decide,
    show (str " /ColorSpace /DeviceRGB /BitsPerComponent 8 /Filter /DCTDecode /Length ").length
      = 71 from by decide,
    show (str " >>\nstream\nendstream\nendobj\n").length = 28
      from by decide,
    show (str " 0 obj\n<< /Length 44 >>\nstream\nq\n").length = 33
      from by decide,
    show (str " 0 0 ").length = 5 from by decide,
    show (str " 0 0 cm\n/Image").length = 14 from by decide]
  rw [pbA_len, pbB_len]
  simp only [List.cons.injEq, and_true]
  refine ⟨by omega, by omega, by omega, by omega, by omega⟩

theorem streamOccs_pagesX :
    ∀ (imgs : List MergeImg) (i j : Nat),
    chunkOccs (str "stream\n") (pagesChunksX i imgs) j
      = streamOccsFrom j i imgs
  | [], i, j => by
    simp only [pagesChunksX, streamOccsFrom, chunkOccs, occListFrom_eq_shift,
      show occList (str "stream\n") (str "xref\n0 ") = [] from by decide,
      List.map_nil, List.append_nil]
  | [img], i, j => by
    show chunkOccs (str "stream\n") (pageChunksCore i img
        ++ [Chunk.lit (str " Do\nQ\nendstream\nendobj\nxref\n0 ")]) j = _
    rw [chunkOccs_append, streamOccs_core, pageCore_text_len]
    simp only [chunkOccs, occListFrom_eq_shift,
      show occList (str "stream\n")
        (str " Do\nQ\nendstream\nendobj\nxref\n0 ") = [9] from by decide,
      List.map_cons, List.map_nil, List.append_nil, streamOccsFrom,
      List.cons_append, List.nil_append]
    have h1 := pbA_len i img
    have h2 := pbB_len i img
    have h3 := pbC_len i img
    simp only [List.cons.injEq, and_true, true_and]
    omega
  | img :: img2 :: rest, i, j => by
    show chunkOccs (str "stream\n") (pageChunksCore i img
        ++ (Chunk.lit (str " Do\nQ\nendstream\nendobj\n")
            :: pagesChunksX (i + 1) (img2 :: rest))) j = _
    rw [chunkOccs_append, streamOccs_core, pageCore_text_len]
    simp only [chunkOccs, occListFrom_eq_shift,
      show occList (str "stream\n") (str " Do\nQ\nendstream\nendobj\n")
        = [9] from by decide,
      show (str " Do\nQ\nendstream\nendobj\n").length = 23 from by decide,
      List.map_cons, List.map_nil, List.cons_append, List.nil_append]
    rw [streamOccs_pagesX (img2 :: rest) (i + 1)]
    have h1 := pbA_len i img
    have h2 := pbB_len i img
    have h3 := pbC_len i img
    rw [show j + ((pbA i img).length + (pbB i img).length
          + (pbC i img).length - 23) + 23
        = j + (pbA i img).length + (pbB i img).length + (pbC i img).length
        from by omega]
    simp only [streamOccsFrom, List.cons.injEq, and_true, true_and]
    omega

theorem endstreamOccs_pagesX :
    ∀ (imgs : List MergeImg) (i j : Nat),
    chunkOccs (str "endstream") (pagesChunksX i imgs) j
      = endstreamOccsFrom j i imgs
  | [], i, j => by
    simp only [pagesChunksX, endstreamOccsFrom, chunkOccs, occListFrom_eq_shift,
      show occList (str "endstream") (str "xref\n0 ") = [] from by decide,
      List.map_nil, List.append_nil]
  | [img], i, j => by
    show chunkOccs (str "endstream") (pageChunksCore i img
        ++ [Chunk.lit (str " Do\nQ\nendstream\nendobj\nxref\n0 ")]) j = _
    rw [chunkOccs_append, endstreamOccs_core, pageCore_text_len]
    simp only [chunkOccs, occListFrom_eq_shift,
      show occList (str "endstream")
        (str " Do\nQ\nendstream\nendobj\nxref\n0 ") = [6] from by decide,
      List.map_cons, List.map_nil, List.append_nil, endstreamOccsFrom,
      List.cons_append, List.nil_append]
    have h1 := pbA_len i img
    have h2 := pbB_len i img
    have h3 := pbC_len i img
    simp only [List.cons.injEq, and_true, true_and]
    omega
  | img :: img2 :: rest, i, j => by
    show chunkOccs (str "endstream") (pageChunksCore i img
        ++ (Chunk.lit (str " Do\nQ\nendstream\nendobj\n")
            :: pagesChunksX (i + 1) (img2 :: rest))) j = _
    rw [chunkOccs_append, endstreamOccs_core, pageCore_text_len]
    simp only [chunkOccs, occListFrom_eq_shift,
      show occList (str "endstream") (str " Do\nQ\nendstream\nendobj\n")
        = [6] from by decide,
      show (str " Do\nQ\nendstream\nendobj\n").length = 23 from by decide,
      List.map_cons, List.map_nil, List.cons_append, List.nil_append]
    rw [endstreamOccs_pagesX (img2 :: rest) (i + 1)]
    have h1 := pbA_len i img
    have h2 := pbB_len i img
    have h3 := pbC_len i img
    rw [show j + ((pbA i img).length + (pbB i img).length
          + (pbC i img).length - 23) + 23
        = j + (pbA i img).length + (pbB i img).length + (pbC i img).length
        from by omega]
    simp only [endstreamOccsFrom, List.cons.injEq, and_true, true_and]
    omega

theorem objOccs_pagesX :
    ∀ (imgs : List MergeImg) (i j : Nat),
    chunkOccs (str "obj") (pagesChunksX i imgs) j = objOccsFrom j i imgs
  | [], i, j => by
    simp only [pagesChunksX, objOccsFrom, chunkOccs, occListFrom_eq_shift,
      show occList (str "obj") (str "xref\n0 ") = [] from by decide,
      List.map_nil, List.append_nil]
  | [img], i, j => by
    show chunkOccs (str "obj") (pageChunksCore i img
        ++ [Chunk.lit (str " Do\nQ\nendstream\nendobj\nxref\n0 ")]) j = _
    rw [chunkOccs_append, objOccs_core, pageCore_text_len]
    simp only [chunkOccs, occListFrom_eq_shift,
      show occList (str "obj")
        (str " Do\nQ\nendstream\nendobj\nxref\n0 ") = [19] from by decide,
      List.map_cons, List.map_nil, List.append_nil, objOccsFrom,
      List.cons_append, List.nil_append]
    have h1 := pbA_len i img
    have h2 := pbB_len i img
    have h3 := pbC_len i img
    simp only [List.cons.injEq, and_true, true_and]
    omega
  | img :: img2 :: rest, i, j => by
    show chunkOccs (str "obj") (pageChunksCore i img
        ++ (Chunk.lit (str " Do\nQ\nendstream\nendobj\n")
            :: pagesChunksX (i + 1) (img2 :: rest))) j = _
    rw [chunkOccs_append, objOccs_core, pageCore_text_len]
    simp only [chunkOccs, occListFrom_eq_shift,
      show occList (str "obj") (str " Do\nQ\nendstream\nendobj\n")
        = [19] from by decide,
      show (str " Do\nQ\nendstream\nendobj\n").length = 23 from by decide,
      List.map_cons, List.map_nil, List.cons_append, List.nil_append]
    rw [objOccs_pagesX (img2 :: rest) (i + 1)]
    have h1 := pbA_len i img
    have h2 := pbB_len i img
    have h3 := pbC_len i img
    rw [show j + ((pbA i img).length + (pbB i img).length
          + (pbC i img).length - 23) + 23
        = j + (pbA i img).length + (pbB i img).length + (pbC i img).length
        from by omega]
    simp only [objOccsFrom, List.cons.injEq, and_true, true_and]
    omega

/-! ## Occurrences in the header, the kids region and the xref tail -/

theorem chunkOccs_kidsMore_nil (p : List Char)
    (h1 : occList p (str " 0 R ") = [])
    (h2 : occList p (str " 0 R ] /Count ") = []) :
    ∀ (m i j : Nat), chunkOccs p (kidsMoreChunks m i) j = []
  | 0, i, j => by
    simp only [kidsMoreChunks, chunkOccs, occListFrom_eq_shift, h2,
      List.map_nil, List.append_nil]
  | m + 1, i, j => by
    simp only [kidsMoreChunks, chunkOccs, occListFrom_eq_shift, h1,
      List.map_nil, List.nil_append,
      chunkOccs_kidsMore_nil p h1 h2 m (i + 1)]

theorem chunkOccs_xrefEntries_nil (p : List Char)
    (h1 : occList p (str " 00000 n\n") = [])
    (h2 : occList p (str " 00000 n\ntrailer\n<< /Size ") = [])
    (h3 : occList p (str "trailer\n<< /Size ") = []) :
    ∀ (m : Nat) (positions : List Nat) (j2 j : Nat),
    chunkOccs p (xrefEntryChunks positions m j2) j = []
  | 0, positions, j2, j => by
    simp only [xrefEntryChunks, chunkOccs, occListFrom_eq_shift, h3,
      List.map_nil, List.append_nil]
  | 1, positions, j2, j => by
    simp only [xrefEntryChunks, chunkOccs, occListFrom_eq_shift, h2,
      List.map_nil, List.append_nil]
  | m + 2, positions, j2, j => by
    simp only [xrefEntryChunks, chunkOccs, occListFrom_eq_shift, h1,
      List.map_nil, List.nil_append,
      chunkOccs_xrefEntries_nil p h1 h2 h3 (m + 1) positions (j2 + 1)]

theorem chunkOccs_header_nil (p : List Char)
    (hpre : occList p mergeHeaderPre = [])
    (h1 : occList p (str " 0 R ") = [])
    (h2 : occList p (str " 0 R ] /Count ") = [])
    (h3 : occList p (str " >>\nendobj\n") = []) (k : Nat) :
    chunkOccs p (headerChunks k) 0 = [] := by
  unfold headerChunks
  simp only [chunkOccs, occListFrom_eq_shift, hpre, List.map_nil,
    List.nil_append]
  rw [chunkOccs_append, chunkOccs_kidsMore_nil p h1 h2]
  simp only [chunkOccs, occListFrom_eq_shift, h3, List.map_nil,
    List.append_nil, List.nil_append]

theorem mergeHeader_len (k : Nat) (hk : 1 ≤ k) :
    (mergeHeader k).length = 89 + (natStr 3).length
      + (chunksText (kidsMoreChunks (k - 1) 1)).length
      + (natStr k).length + 11 := by
  rw [← header_text k hk]
  unfold headerChunks
  simp only [chunksText, chunksText_append, List.length_append,
    show mergeHeaderPre.length = 89 from by decide,
    show (str " >>\nendobj\n").length = 11 from by decide,
    List.append_nil, List.length_nil]
  omega

theorem objOccs_header (k : Nat) (hk : 1 ≤ k) :
    chunkOccs (str "obj") (headerChunks k) 0
      = [13, 54, 62, (mergeHeader k).length - 4] := by
  unfold headerChunks
  simp only [chunkOccs]
  rw [show occListFrom (str "obj") mergeHeaderPre 0 = [13, 54, 62]
    from by decide]
  rw [chunkOccs_append,
    chunkOccs_kidsMore_nil (str "obj") (by decide) (by decide)]
  simp only [chunkOccs, occListFrom_eq_shift,
    show occList (str "obj") (str " >>\nendobj\n") = [7] from by decide,
    List.map_cons, List.map_nil, List.append_nil, List.nil_append,
    List.cons_append]
  have hml := mergeHeader_len k hk
  simp only [show mergeHeaderPre.length = 89 from by decide,
    List.cons.injEq, and_true, true_and]
  omega

/-! ## Full occurrence lists of the three search patterns -/

theorem occList_stream_merge (imgs : List MergeImg) (h : imgs ≠ []) :
    occList (str "stream\n") (mergePdfContent imgs)
      = streamOccsFrom (mergeHeader imgs.length).length 0 imgs := by
  have hk : 1 ≤ imgs.length := by
    cases imgs with
    | nil => exact absurd rfl h
    | cons a l => simp
  have hocc := occListFrom_chunks (str "stream\n") (by decide) (by decide)
    (mergeChunks imgs) (mergeChunks_ok imgs h) 0
  rw [mergeChunks_text imgs h] at hocc
  rw [occList, hocc]
  unfold mergeChunks
  rw [chunkOccs_append, chunkOccs_append, chunkOccs_append,
    chunkOccs_header_nil (str "stream\n") (by decide) (by decide) (by decide)
      (by decide) imgs.length,
    streamOccs_pagesX imgs 0]
  rw [header_text imgs.length hk]
  simp only [chunkOccs, occListFrom_eq_shift,
    show occList (str "stream\n") (str "\n0000000000 65535 f\n") = []
      from by decide,
    show occList (str "stream\n") (str " /Root 1 0 R >>\nstartxref\n") = []
      from by decide,
    show occList (str "stream\n") (str "\n%%EOF") = [] from by decide,
    List.map_nil, List.nil_append, List.append_nil]
  rw [chunkOccs_xrefEntries_nil (str "stream\n") (by decide) (by decide)
    (by decide)]
  simp

theorem occList_endstream_merge (imgs : List MergeImg) (h : imgs ≠ []) :
    occList (str "endstream") (mergePdfContent imgs)
      = endstreamOccsFrom (mergeHeader imgs.length).length 0 imgs := by
  have hk : 1 ≤ imgs.length := by
    cases imgs with
    | nil => exact absurd rfl h
    | cons a l => simp
  have hocc := occListFrom_chunks (str "endstream") (by decide) (by decide)
    (mergeChunks imgs) (mergeChunks_ok imgs h) 0
  rw [mergeChunks_text imgs h] at hocc
  rw [occList, hocc]
  unfold mergeChunks
  rw [chunkOccs_append, chunkOccs_append, chunkOccs_append,
    chunkOccs_header_nil (str "endstream") (by decide) (by decide) (by decide)
      (by decide) imgs.length,
    endstreamOccs_pagesX imgs 0]
  rw [header_text imgs.length hk]
  simp only [chunkOccs, occListFrom_eq_shift,
    show occList (str "endstream") (str "\n0000000000 65535 f\n") = []
      from by decide,
    show occList (str "endstream") (str " /Root 1 0 R >>\nstartxref\n") = []
      from by decide,
    show occList (str "endstream") (str "\n%%EOF") = [] from by decide,
    List.map_nil, List.nil_append, List.append_nil]
  rw [chunkOccs_xrefEntries_nil (str "endstream") (by decide) (by decide)
    (by decide)]
  simp

theorem occList_obj_merge (imgs : List MergeImg) (h : imgs ≠ []) :
    occList (str "obj") (mergePdfContent imgs)
      = [13, 54, 62, (mergeHeader imgs.length).length - 4]
        ++ objOccsFrom (mergeHeader imgs.length).length 0 imgs := by
  have hk : 1 ≤ imgs.length := by
    cases imgs with
    | nil => exact absurd rfl h
    | cons a l => simp
  have hocc := occListFrom_chunks (str "obj") (by decide) (by decide)
    (mergeChunks imgs) (mergeChunks_ok imgs h) 0
  rw [mergeChunks_text imgs h] at hocc
  rw [occList, hocc]
  unfold mergeChunks
  rw [chunkOccs_append, chunkOccs_append, chunkOccs_append,
    objOccs_header imgs.length hk, objOccs_pagesX imgs 0]
  rw [header_text imgs.length hk]
  simp only [chunkOccs, occListFrom_eq_shift,
    show occList (str "obj") (str "\n0000000000 65535 f\n") = []
      from by decide,
    show occList (str "obj") (str " /Root 1 0 R >>\nstartxref\n") = []
      from by decide,
    show occList (str "obj") (str "\n%%EOF") = [] from by decide,
    List.map_nil, List.nil_append, List.append_nil]
  rw [chunkOccs_xrefEntries_nil (str "obj") (by decide) (by decide)
    (by decide)]
  simp

/-! ## Selecting occurrences: head and last of a filtered list -/

theorem filter_head (P : Nat → Bool) :
    ∀ (L1 : List Nat) (x : Nat) (L2 : List Nat),
    (∀ y ∈ L1, P y = false) → P x = true →
    ((L1 ++ x :: L2).filter P).head? = some x
  | [], x, L2, _, hx => by simp [List.filter_cons, hx]
  | y :: L1, x, L2, h1, hx => by
    have hy : P y = false := h1 y (by simp)
    simp only [List.cons_append, List.filter_cons, hy, Bool.false_eq_true,
      if_false]
    exact filter_head P L1 x L2 (fun z hz => h1 z (by simp [hz])) hx

theorem filter_none (P : Nat → Bool) (L : List Nat)
    (h : ∀ y ∈ L, P y = false) : (L.filter P).head? = none := by
  rw [List.filter_eq_nil_iff.mpr (fun a ha => by simp [h a ha])]
  rfl

theorem filter_getLast (P : Nat → Bool) (K : List Nat) (x : Nat)
    (R : List Nat) (hx : P x = true) (hR : ∀ y ∈ R, P y = false) :
    ((K ++ x :: R).filter P).getLast? = some x := by
  have hR' : R.filter P = [] :=
    List.filter_eq_nil_iff.mpr (fun a ha => by simp [hR a ha])
  have hxR : (x :: R).filter P = [x] := by
    simp [List.filter_cons, hx, hR']
  rw [List.filter_append, hxR, List.getLast?_concat]

/-! ## Exhibiting an occurrence inside a known decomposition -/

theorem occListFrom_mem_split (p : List Char) (hp : p ≠ []) :
    ∀ (a b : List Char) (i : Nat),
    (i + a.length) ∈ occListFrom p (a ++ p ++ b) i
  | [], b, i => by
    cases hp' : p with
    | nil => exact absurd hp' hp
    | cons c p2 =>
      have hpre : (c :: p2).isPrefixOf ((c :: p2) ++ b) = true :=
        isPrefixOf_self_append _ _
      simp only [List.nil_append, List.length_nil, Nat.add_zero]
      show i ∈ (if (c :: p2).isPrefixOf ((c :: p2) ++ b) = true
          then [i] else []) ++ occListFrom (c :: p2) (p2 ++ b) (i + 1)
      rw [hpre]
      simp
  | c :: a2, b, i => by
    have := occListFrom_mem_split p hp a2 b (i + 1)
    show (i + (a2.length + 1)) ∈ (if p.isPrefixOf (c :: (a2 ++ p ++ b))
        then [i] else []) ++ occListFrom p (a2 ++ p ++ b) (i + 1)
    have harith : i + (a2.length + 1) = i + 1 + a2.length := by omega
    rw [harith]
    exact List.mem_append_right _ this

theorem includesSub_of_split (s p a b : List Char) (hp : p ≠ [])
    (hs : s = a ++ p ++ b) : includesSub s p = true := by
  subst hs
  unfold includesSub
  have hm := occListFrom_mem_split p hp a b 0
  cases hc : occList p (a ++ p ++ b) with
  | nil =>
    rw [occList] at hc
    rw [hc] at hm
    exact absurd hm (by simp)
  | cons q l => rfl

theorem jsSubstring_split (s U V W : List Char) (a b : Nat)
    (hs : s = U ++ V ++ W) (ha : a = U.length)
    (hb : b = U.length + V.length) : jsSubstring s a b = V := by
  subst hs ha hb
  unfold jsSubstring
  rw [List.append_assoc, List.take_append, List.drop_left, List.take_left]

/-! ## Lower bounds on block lengths and occurrence positions -/

theorem pbA_len_ge (i : Nat) (img : MergeImg) : 129 ≤ (pbA i img).length := by
  have h := pbA_len i img
  have h1 := natStr_len_pos (3 + 3 * i)
  have h2 := natStr_len_pos img.width
  have h3 := natStr_len_pos img.height
  have h4 := natStr_len_pos i
  have h5 := natStr_len_pos (3 + 3 * i + 1)
  have h6 := natStr_len_pos (3 + 3 * i + 2)
  omega

theorem pbB_len_ge (i : Nat) (img : MergeImg) : 143 ≤ (pbB i img).length := by
  have h := pbB_len i img
  have h1 := natStr_len_pos (3 + 3 * i + 1)
  have h2 := natStr_len_pos img.width
  have h3 := natStr_len_pos img.height
  have h4 := natStr_len_pos img.bytes.length
  omega

theorem pbC_len_ge (i : Nat) (img : MergeImg) : 96 ≤ (pbC i img).length := by
  have h := pbC_len i img
  have h1 := natStr_len_pos (3 + 3 * i + 2)
  have h2 := natStr_len_pos img.width
  have h3 := natStr_len_pos img.height
  have h4 := natStr_len_pos i
  omega

theorem streamOccsFrom_ge :
    ∀ (rem : List MergeImg) (i D x : Nat),
    x ∈ streamOccsFrom D i rem → D ≤ x
  | [], i, D, x, hx => absurd hx (by simp [streamOccsFrom])
  | img :: rest, i, D, x, hx => by
    have hA := pbA_len_ge i img
    have hB := pbB_len_ge i img
    have hC := pbC_len_ge i img
    simp only [streamOccsFrom, List.mem_cons] at hx
    rcases hx with h | h | h | h | h
    · omega
    · omega
    · omega
    · omega
    · have := streamOccsFrom_ge rest (i + 1)
        (D + (pbA i img).length + (pbB i img).length + (pbC i img).length) x h
      omega

theorem endstreamOccsFrom_ge :
    ∀ (rem : List MergeImg) (i D x : Nat),
    x ∈ endstreamOccsFrom D i rem → D ≤ x
  | [], i, D, x, hx => absurd hx (by simp [endstreamOccsFrom])
  | img :: rest, i, D, x, hx => by
    have hA := pbA_len_ge i img
    have hB := pbB_len_ge i img
    have hC := pbC_len_ge i img
    simp only [endstreamOccsFrom, List.mem_cons] at hx
    rcases hx with h | h | h
    · omega
    · omega
    · have := endstreamOccsFrom_ge rest (i + 1)
        (D + (pbA i img).length + (pbB i img).length + (pbC i img).length) x h
      omega

theorem objOccsFrom_ge :
    ∀ (rem : List MergeImg) (i D x : Nat),
    x ∈ objOccsFrom D i rem → D ≤ x
  | [], i, D, x, hx => absurd hx (by simp [objOccsFrom])
  | img :: rest, i, D, x, hx => by
    have hA := pbA_len_ge i img
    have hB := pbB_len_ge i img
    have hC := pbC_len_ge i img
    have h1 := natStr_len_pos (3 + 3 * i)
    have h2 := natStr_len_pos (3 + 3 * i + 1)
    have h3 := natStr_len_pos (3 + 3 * i + 2)
    simp only [objOccsFrom, List.mem_cons] at hx
    rcases hx with h | h | h | h | h | h | h
    · omega
    · omega
    · omega
    · omega
    · omega
    · omega
    · have := objOccsFrom_ge rest (i + 1)
        (D + (pbA i img).length + (pbB i img).length + (pbC i img).length) x h
      omega

/-! ## Text splits of the B and C blocks around the search windows -/

theorem pbB_split (i : Nat) (img : MergeImg) :
    pbB i img = natStr (3 + 3 * i + 1) ++ str " 0 "
      ++ (str "obj\n<< /Type /XObject /Subtype /Image /Width "
        ++ natStr img.width ++ str " /Height " ++ natStr img.height
        ++ str " /ColorSpace /DeviceRGB /BitsPerComponent 8 /Filter /DCTDecode /Length "
        ++ natStr img.bytes.length ++ str " >>\n")
      ++ str "stream\n" := by
  unfold pbB pageBlockB
  rw [show str " 0 obj\n<< /Type /XObject /Subtype /Image /Width "
      = str " 0 " ++ str "obj\n<< /Type /XObject /Subtype /Image /Width "
      from rfl,
    show str " >>\nstream\n" = str " >>\n" ++ str "stream\n" from rfl]
  simp [List.append_assoc]

theorem pbC_split (i : Nat) (img : MergeImg) :
    pbC i img = str "endstream\nendobj\n" ++ natStr (3 + 3 * i + 2)
      ++ str " 0 " ++ str "obj\n<< /Length 44 >>\n"
      ++ (str "stream\nq\n" ++ natStr img.width ++ str " 0 0 "
        ++ natStr img.height ++ str " 0 0 cm\n/Image" ++ natStr i
        ++ str " Do\nQ\nendstream\nendobj\n") := by
  unfold pbC pageBlockC
  rw [show str " 0 obj\n<< /Length 44 >>\nstream\nq\n"
      = str " 0 " ++ str "obj\n<< /Length 44 >>\n" ++ str "stream\nq\n"
      from rfl]
  simp [List.append_assoc]

theorem filter_head_cons1 (P : Nat → Bool) (K : List Nat) (y1 x : Nat)
    (L2 : List Nat) (hK : ∀ y ∈ K, P y = false) (hy : P y1 = false)
    (hx : P x = true) : ((K ++ y1 :: x :: L2).filter P).head? = some x := by
  rw [show K ++ y1 :: x :: L2 = (K ++ [y1]) ++ x :: L2 from by simp]
  refine filter_head P _ x L2 ?_ hx
  intro y hy2
  rcases List.mem_append.mp hy2 with hy2 | hy2
  · exact hK y hy2
  · rw [List.mem_singleton.mp hy2]
    exact hy

theorem filter_head_cons2 (P : Nat → Bool) (K : List Nat) (y1 y2 x : Nat)
    (L2 : List Nat) (hK : ∀ y ∈ K, P y = false) (hy1 : P y1 = false)
    (hy2 : P y2 = false) (hx : P x = true) :
    ((K ++ y1 :: y2 :: x :: L2).filter P).head? = some x := by
  rw [show K ++ y1 :: y2 :: x :: L2 = (K ++ [y1, y2]) ++ x :: L2 from by simp]
  refine filter_head P _ x L2 ?_ hx
  intro y hy'
  rcases List.mem_append.mp hy' with hy' | hy'
  · exact hK y hy'
  · rcases List.mem_cons.mp hy' with rfl | hy'
    · exact hy1
    · rw [List.mem_singleton.mp hy']
      exact hy2

theorem filter_getLast_cons2 (P : Nat → Bool) (K : List Nat) (y1 y2 x : Nat)
    (R : List Nat) (hx : P x = true) (hR : ∀ y ∈ R, P y = false) :
    ((K ++ y1 :: y2 :: x :: R).filter P).getLast? = some x := by
  rw [show K ++ y1 :: y2 :: x :: R = (K ++ [y1, y2]) ++ x :: R from by simp]
  exact filter_getLast P _ x R hx hR

theorem filter_getLast_cons4 (P : Nat → Bool) (K : List Nat)
    (y1 y2 y3 y4 x : Nat) (R : List Nat) (hx : P x = true)
    (hR : ∀ y ∈ R, P y = false) :
    ((K ++ y1 :: y2 :: y3 :: y4 :: x :: R).filter P).getLast? = some x := by
  rw [show K ++ y1 :: y2 :: y3 :: y4 :: x :: R
    = (K ++ [y1, y2, y3, y4]) ++ x :: R from by simp]
  exact filter_getLast P _ x R hx hR

/-! ## The splice-position search characterized -/

set_option maxHeartbeats 2000000 in
theorem findAux_loop (content : List Char) :
    ∀ (rem : List MergeImg) (i : Nat) (W1 W2 : List Char)
    (sp fuel : Nat) (PS PE PO : List Nat),
    content = W1 ++ (pageBlocksFrom i rem ++ W2) →
    occList (str "stream\n") content = PS ++ streamOccsFrom W1.length i rem →
    occList (str "endstream") content
      = PE ++ endstreamOccsFrom W1.length i rem →
    occList (str "obj") content = PO ++ objOccsFrom W1.length i rem →
    (∀ x ∈ PS, x < sp) → (∀ x ∈ PE, x < W1.length) →
    (∀ x ∈ PO, x < W1.length) → sp ≤ W1.length →
    2 * rem.length + 1 ≤ fuel →
    findImagePositionsAux content fuel sp = imgPositionsFrom W1.length i rem
  | [], i, W1, W2, sp, fuel, PS, PE, PO, hdec, hS, hE, hO, hPS, hPE, hPO,
      hsp, hfuel => by
    obtain ⟨f, rfl⟩ : ∃ f, fuel = f + 1 := ⟨fuel - 1, by omega⟩
    have hS' : occList (str "stream\n") content = PS := by
      simpa [streamOccsFrom] using hS
    have hnone : jsIndexOfFrom (str "stream\n") content sp = none := by
      unfold jsIndexOfFrom
      rw [hS']
      exact filter_none _ PS (fun y hy =>
        decide_eq_false_iff_not.mpr (by have := hPS y hy; omega))
    simp only [findImagePositionsAux, hnone, imgPositionsFrom]
  | img :: rest, i, W1, W2, sp, fuel, PS, PE, PO, hdec, hS, hE, hO, hPS,
      hPE, hPO, hsp, hfuel => by
    obtain ⟨f2, rfl⟩ : ∃ f2, fuel = f2 + 1 + 1 :=
      ⟨fuel - 2, by simp only [List.length_cons] at hfuel; omega⟩
    have hA := pbA_len i img
    have hB := pbB_len i img
    have hC := pbC_len i img
    have hn1 := natStr_len_pos (3 + 3 * i)
    have hn2 := natStr_len_pos (3 + 3 * i + 1)
    have hn3 := natStr_len_pos (3 + 3 * i + 2)
    have hw := natStr_len_pos img.width
    have hh := natStr_len_pos img.height
    have hbl := natStr_len_pos img.bytes.length
    have hni := natStr_len_pos i
    simp only [streamOccsFrom] at hS
    simp only [endstreamOccsFrom] at hE
    simp only [objOccsFrom] at hO
    have hidx1 : jsIndexOfFrom (str "stream\n") content sp
        = some (W1.length + (pbA i img).length + (pbB i img).length - 7) := by
      unfold jsIndexOfFrom
      rw [hS]
      exact filter_head _ PS _ _
        (fun y hy => decide_eq_false_iff_not.mpr
          (by have := hPS y hy; omega))
        (decide_eq_true (by omega))
    have hidx2 : jsIndexOfFrom (str "endstream") content
        (W1.length + (pbA i img).length + (pbB i img).length - 7)
        = some (W1.length + (pbA i img).length + (pbB i img).length) := by
      unfold jsIndexOfFrom
      rw [hE]
      exact filter_head _ PE _ _
        (fun y hy => decide_eq_false_iff_not.mpr
          (by have := hPE y hy; omega))
        (decide_eq_true (by omega))
    have hlast1 : jsLastIndexOfLe (str "obj") content
        (W1.length + (pbA i img).length + (pbB i img).length - 7)
        = some (W1.length + (pbA i img).length
            + (natStr (3 + 3 * i + 1)).length + 3) := by
      unfold jsLastIndexOfLe
      rw [hO]
      refine filter_getLast_cons2 _ PO _ _ _ _
        (decide_eq_true (by omega)) ?_
      intro y hy
      rcases List.mem_cons.mp hy with rfl | hy
      · exact decide_eq_false_iff_not.mpr (by omega)
      rcases List.mem_cons.mp hy with rfl | hy
      · exact decide_eq_false_iff_not.mpr (by omega)
      rcases List.mem_cons.mp hy with rfl | hy
      · exact decide_eq_false_iff_not.mpr (by omega)
      have := objOccsFrom_ge rest (i + 1) _ y hy
      exact decide_eq_false_iff_not.mpr (by omega)
    have hU1 : content
        = (W1 ++ (pbA i img ++ (natStr (3 + 3 * i + 1) ++ str " 0 ")))
          ++ (str "obj\n<< /Type /XObject /Subtype /Image /Width "
            ++ natStr img.width ++ str " /Height " ++ natStr img.height
            ++ str " /ColorSpace /DeviceRGB /BitsPerComponent 8 /Filter /DCTDecode /Length "
            ++ natStr img.bytes.length ++ str " >>\n")
          ++ (str "stream\n"
            ++ (pbC i img ++ (pageBlocksFrom (i + 1) rest ++ W2))) := by
      rw [hdec,
        show pageBlocksFrom i (img :: rest)
          = pageBlock i (3 + 3 * i) img ++ pageBlocksFrom (i + 1) rest
          from rfl,
        pageBlock_pb, pbB_split]
      simp [List.append_assoc]
    have hpa1 : W1.length + (pbA i img).length
        + (natStr (3 + 3 * i + 1)).length + 3
        = (W1 ++ (pbA i img ++ (natStr (3 + 3 * i + 1) ++ str " 0 "))).length := by
      simp only [List.length_append,
        show (str " 0 ").length = 3 from by decide]
      omega
    have hpb1 : W1.length + (pbA i img).length + (pbB i img).length - 7
        = (W1 ++ (pbA i img ++ (natStr (3 + 3 * i + 1) ++ str " 0 "))).length
          + (str "obj\n<< /Type /XObject /Subtype /Image /Width "
            ++ natStr img.width ++ str " /Height " ++ natStr img.height
            ++ str " /ColorSpace /DeviceRGB /BitsPerComponent 8 /Filter /DCTDecode /Length "
            ++ natStr img.bytes.length ++ str " >>\n").length := by
      simp only [List.length_append,
        show (str " 0 ").length = 3 from by decide,
        show (str "obj\n<< /Type /XObject /Subtype /Image /Width ").length
          = 45 from by decide,
        show (str " /Height ").length = 9 from by decide,
        show (str " /ColorSpace /DeviceRGB /BitsPerComponent 8 /Filter /DCTDecode /Length ").length
          = 71 from by decide,
        show (str " >>\n").length = 4 from by decide]
      omega
    have hsub1 : includesSub (jsSubstring content
        (W1.length + (pbA i img).length + (natStr (3 + 3 * i + 1)).length + 3)
        (W1.length + (pbA i img).length + (pbB i img).length - 7))
        (str "/DCTDecode") = true := by
      rw [jsSubstring_split content _ _ _ _ _ hU1 hpa1 hpb1]
      exact includesSub_of_split _ _
        (str "obj\n<< /Type /XObject /Subtype /Image /Width "
          ++ natStr img.width ++ str " /Height " ++ natStr img.height
          ++ str " /ColorSpace /DeviceRGB /BitsPerComponent 8 /Filter ")
        (str " /Length " ++ natStr img.bytes.length ++ str " >>\n")
        (by decide)
        (by rw [show str " /ColorSpace /DeviceRGB /BitsPerComponent 8 /Filter /DCTDecode /Length "
              = str " /ColorSpace /DeviceRGB /BitsPerComponent 8 /Filter "
                ++ (str "/DCTDecode" ++ str " /Length ") from rfl]
            simp [List.append_assoc])
    have hidx3 : jsIndexOfFrom (str "stream\n") content
        (W1.length + (pbA i img).length + (pbB i img).length + 9)
        = some (W1.length + (pbA i img).length + (pbB i img).length + 17
            + (natStr (3 + 3 * i + 2)).length + 24) := by
      unfold jsIndexOfFrom
      rw [hS]
      refine filter_head_cons2 _ PS _ _ _ _
        (fun y hy => decide_eq_false_iff_not.mpr
          (by have := hPS y hy; omega))
        (decide_eq_false_iff_not.mpr (by omega))
        (decide_eq_false_iff_not.mpr (by omega))
        (decide_eq_true (by omega))
    have hidx4 : jsIndexOfFrom (str "endstream") content
        (W1.length + (pbA i img).length + (pbB i img).length + 17
          + (natStr (3 + 3 * i + 2)).length + 24)
        = some (W1.length + (pbA i img).length + (pbB i img).length
            + (pbC i img).length - 17) := by
      unfold jsIndexOfFrom
      rw [hE]
      refine filter_head_cons1 _ PE _ _ _
        (fun y hy => decide_eq_false_iff_not.mpr
          (by have := hPE y hy; omega))
        (decide_eq_false_iff_not.mpr (by omega))
        (decide_eq_true (by omega))
    have hlast2 : jsLastIndexOfLe (str "obj") content
        (W1.length + (pbA i img).length + (pbB i img).length + 17
          + (natStr (3 + 3 * i + 2)).length + 24)
        = some (W1.length + (pbA i img).length + (pbB i img).length + 17
            + (natStr (3 + 3 * i + 2)).length + 3) := by
      unfold jsLastIndexOfLe
      rw [hO]
      refine filter_getLast_cons4 _ PO _ _ _ _ _ _
        (decide_eq_true (by omega)) ?_
      intro y hy
      rcases List.mem_cons.mp hy with rfl | hy
      · exact decide_eq_false_iff_not.mpr (by omega)
      have := objOccsFrom_ge rest (i + 1) _ y hy
      exact decide_eq_false_iff_not.mpr (by omega)
    have hU2 : content
        = (W1 ++ (pbA i img ++ (pbB i img ++ (str "endstream\nendobj\n"
            ++ (natStr (3 + 3 * i + 2) ++ str " 0 ")))))
          ++ str "obj\n<< /Length 44 >>\n"
          ++ ((str "stream\nq\n" ++ natStr img.width ++ str " 0 0 "
            ++ natStr img.height ++ str " 0 0 cm\n/Image" ++ natStr i
            ++ str " Do\nQ\nendstream\nendobj\n")
            ++ (pageBlocksFrom (i + 1) rest ++ W2)) := by
      rw [hdec,
        show pageBlocksFrom i (img :: rest)
          = pageBlock i (3 + 3 * i) img ++ pageBlocksFrom (i + 1) rest
          from rfl,
        pageBlock_pb, pbC_split]
      simp [List.append_assoc]
    have hpa2 : W1.length + (pbA i img).length + (pbB i img).length + 17
        + (natStr (3 + 3 * i + 2)).length + 3
        = (W1 ++ (pbA i img ++ (pbB i img ++ (str "endstream\nendobj\n"
            ++ (natStr (3 + 3 * i + 2) ++ str " 0 "))))).length := by
      simp only [List.length_append,
        show (str "endstream\nendobj\n").length = 17 from by decide,
        show (str " 0 ").length = 3 from by decide]
      omega
    have hpb2 : W1.length + (pbA i img).length + (pbB i img).length + 17
        + (natStr (3 + 3 * i + 2)).length + 24
        = (W1 ++ (pbA i img ++ (pbB i img ++ (str "endstream\nendobj\n"
            ++ (natStr (3 + 3 * i + 2) ++ str " 0 "))))).length
          + (str "obj\n<< /Length 44 >>\n").length := by
      simp only [List.length_append,
        show (str "endstream\nendobj\n").length = 17 from by decide,
        show (str " 0 ").length = 3 from by decide,
        show (str "obj\n<< /Length 44 >>\n").length = 21 from by decide]
      omega
    have hsub2 : includesSub (jsSubstring content
        (W1.length + (pbA i img).length + (pbB i img).length + 17
          + (natStr (3 + 3 * i + 2)).length + 3)
        (W1.length + (pbA i img).length + (pbB i img).length + 17
          + (natStr (3 + 3 * i + 2)).length + 24))
        (str "/DCTDecode") = false := by
      rw [jsSubstring_split content _ _ _ _ _ hU2 hpa2 hpb2]
      decide
    have hW1' : (W1 ++ pageBlock i (3 + 3 * i) img).length
        = W1.length + (pbA i img).length + (pbB i img).length
          + (pbC i img).length := by
      rw [pageBlock_pb]
      simp only [List.length_append]
      omega
    have hdec' : content = (W1 ++ pageBlock i (3 + 3 * i) img)
        ++ (pageBlocksFrom (i + 1) rest ++ W2) := by
      rw [hdec,
        show pageBlocksFrom i (img :: rest)
          = pageBlock i (3 + 3 * i) img ++ pageBlocksFrom (i + 1) rest
          from rfl]
      simp [List.append_assoc]
    have hS' : occList (str "stream\n") content
        = (PS ++ [W1.length + (pbA i img).length + (pbB i img).length - 7,
            W1.length + (pbA i img).length + (pbB i img).length + 3,
            W1.length + (pbA i img).length + (pbB i img).length + 17
              + (natStr (3 + 3 * i + 2)).length + 24,
            W1.length + (pbA i img).length + (pbB i img).length
              + (pbC i img).length - 14])
          ++ streamOccsFrom (W1 ++ pageBlock i (3 + 3 * i) img).length
              (i + 1) rest := by
      rw [hS, hW1']
      simp [List.append_assoc]
    have hE' : occList (str "endstream") content
        = (PE ++ [W1.length + (pbA i img).length + (pbB i img).length,
            W1.length + (pbA i img).length + (pbB i img).length
              + (pbC i img).length - 17])
          ++ endstreamOccsFrom (W1 ++ pageBlock i (3 + 3 * i) img).length
              (i + 1) rest := by
      rw [hE, hW1']
      simp [List.append_assoc]
    have hO' : occList (str "obj") content
        = (PO ++ [W1.length + (natStr (3 + 3 * i)).length + 3,
            W1.length + (pbA i img).length - 4,
            W1.length + (pbA i img).length
              + (natStr (3 + 3 * i + 1)).length + 3,
            W1.length + (pbA i img).length + (pbB i img).length + 13,
            W1.length + (pbA i img).length + (pbB i img).length + 17
              + (natStr (3 + 3 * i + 2)).length + 3,
            W1.length + (pbA i img).length + (pbB i img).length
              + (pbC i img).length - 4])
          ++ objOccsFrom (W1 ++ pageBlock i (3 + 3 * i) img).length
              (i + 1) rest := by
      rw [hO, hW1']
      simp [List.append_assoc]
    have hPS' : ∀ x ∈ PS
        ++ [W1.length + (pbA i img).length + (pbB i img).length - 7,
            W1.length + (pbA i img).length + (pbB i img).length + 3,
            W1.length + (pbA i img).length + (pbB i img).length + 17
              + (natStr (3 + 3 * i + 2)).length + 24,
            W1.length + (pbA i img).length + (pbB i img).length
              + (pbC i img).length - 14],
        x < W1.length + (pbA i img).length + (pbB i img).length
          + (pbC i img).length - 17 + 9 := by
      intro x hx
      rcases List.mem_append.mp hx with hx | hx
      · have := hPS x hx
        omega
      rcases List.mem_cons.mp hx with rfl | hx
      · omega
      rcases List.mem_cons.mp hx with rfl | hx
      · omega
      rcases List.mem_cons.mp hx with rfl | hx
      · omega
      rcases List.mem_cons.mp hx with rfl | hx
      · omega
      exact absurd hx (by simp)
    have hPE' : ∀ x ∈ PE
        ++ [W1.length + (pbA i img).length + (pbB i img).length,
            W1.length + (pbA i img).length + (pbB i img).length
              + (pbC i img).length - 17],
        x < (W1 ++ pageBlock i (3 + 3 * i) img).length := by
      intro x hx
      rw [hW1']
      rcases List.mem_append.mp hx with hx | hx
      · have := hPE x hx
        omega
      rcases List.mem_cons.mp hx with rfl | hx
      · omega
      rcases List.mem_cons.mp hx with rfl | hx
      · omega
      exact absurd hx (by simp)
    have hPO' : ∀ x ∈ PO
        ++ [W1.length + (natStr (3 + 3 * i)).length + 3,
            W1.length + (pbA i img).length - 4,
            W1.length + (pbA i img).length
              + (natStr (3 + 3 * i + 1)).length + 3,
            W1.length + (pbA i img).length + (pbB i img).length + 13,
            W1.length + (pbA i img).length + (pbB i img).length + 17
              + (natStr (3 + 3 * i + 2)).length + 3,
            W1.length + (pbA i img).length + (pbB i img).length
              + (pbC i img).length - 4],
        x < (W1 ++ pageBlock i (3 + 3 * i) img).length := by
      intro x hx
      rw [hW1']
      rcases List.mem_append.mp hx with hx | hx
      · have := hPO x hx
        omega
      rcases List.mem_cons.mp hx with rfl | hx
      · omega
      rcases List.mem_cons.mp hx with rfl | hx
      · omega
      rcases List.mem_cons.mp hx with rfl | hx
      · omega
      rcases List.mem_cons.mp hx with rfl | hx
      · omega
      rcases List.mem_cons.mp hx with rfl | hx
      · omega
      rcases List.mem_cons.mp hx with rfl | hx
      · omega
      exact absurd hx (by simp)
    have hsp' : W1.length + (pbA i img).length + (pbB i img).length
        + (pbC i img).length - 17 + 9
        ≤ (W1 ++ pageBlock i (3 + 3 * i) img).length := by
      rw [hW1']
      omega
    have hfuel' : 2 * rest.length + 1 ≤ f2 := by
      simp only [List.length_cons] at hfuel
      omega
    have hrec := findAux_loop content rest (i + 1)
      (W1 ++ pageBlock i (3 + 3 * i) img) W2
      (W1.length + (pbA i img).length + (pbB i img).length
        + (pbC i img).length - 17 + 9) f2 _ _ _
      hdec' hS' hE' hO' hPS' hPE' hPO' hsp' hfuel'
    simp only [findImagePositionsAux, hidx1, hidx2, hlast1, hsub1, if_true,
      hidx3, hidx4, hlast2, hsub2, Bool.false_eq_true, if_false, hrec,
      hW1', imgPositionsFrom]
    simp only [Prod.mk.injEq, List.cons.injEq, and_true, true_and]
    omega

theorem pageBlocksFrom_len_ge :
    ∀ (imgs : List MergeImg) (i : Nat),
    2 * imgs.length ≤ (pageBlocksFrom i imgs).length
  | [], _ => by simp [pageBlocksFrom]
  | img :: rest, i => by
    have h1 := pbA_len_ge i img
    have h2 := pageBlocksFrom_len_ge rest (i + 1)
    show 2 * (img :: rest).length
      ≤ (pageBlock i (3 + 3 * i) img ++ pageBlocksFrom (i + 1) rest).length
    rw [pageBlock_pb]
    simp only [List.length_append, List.length_cons]
    omega

theorem findImagePositions_merge (imgs : List MergeImg) (h : imgs ≠ []) :
    findImagePositions (mergePdfContent imgs)
      = imgPositionsFrom (mergeHeader imgs.length).length 0 imgs := by
  have hk : 1 ≤ imgs.length := by
    cases imgs with
    | nil => exact absurd rfl h
    | cons a l => simp
  have hkm := chunkOccs_count_kidsMore (imgs.length - 1) 1 0
  have hml := mergeHeader_len imgs.length hk
  unfold findImagePositions
  refine findAux_loop (mergePdfContent imgs) imgs 0 (mergeHeader imgs.length)
    (xrefSection (mergeHeader imgs.length ++ pageBlocksFrom 0 imgs).length
      (mergeInitXref imgs.length
        ++ xrefPosFrom (mergeHeader imgs.length).length 0 imgs)
      (3 + 3 * imgs.length))
    0 (lenTR (mergePdfContent imgs) + 1) [] []
    [13, 54, 62, (mergeHeader imgs.length).length - 4]
    ?_ ?_ ?_ ?_ ?_ ?_ ?_ ?_ ?_
  · rw [mergePdfContent_eq]
    simp [List.append_assoc]
  · rw [occList_stream_merge imgs h]
    simp
  · rw [occList_endstream_merge imgs h]
    simp
  · rw [occList_obj_merge imgs h]
  · simp
  · simp
  · intro x hx
    have hn3 := natStr_len_pos 3
    have hnk := natStr_len_pos imgs.length
    rcases List.mem_cons.mp hx with rfl | hx
    · omega
    rcases List.mem_cons.mp hx with rfl | hx
    · omega
    rcases List.mem_cons.mp hx with rfl | hx
    · omega
    rcases List.mem_cons.mp hx with rfl | hx
    · omega
    exact absurd hx (by simp)
  · omega
  · rw [lenTR_eq, mergePdfContent_eq]
    have hb := pageBlocksFrom_len_ge imgs 0
    simp only [List.length_append]
    omega

/-! ## The final-parts assembly realizes the splice -/

theorem jsSubstring_of_drop (s : List Char) (L : Nat) (hL : L ≤ s.length)
    (V W : List Char) (hdrop : s.drop L = V ++ W) :
    jsSubstring s L (L + V.length) = V := by
  have hs : s = s.take L ++ V ++ W := by
    rw [List.append_assoc, ← hdrop, List.take_append_drop]
  exact jsSubstring_split s _ V W L (L + V.length) hs
    (by rw [List.length_take]; omega)
    (by rw [List.length_take]; omega)

theorem splicedPagesFrom_cons (i : Nat) (img : MergeImg)
    (rest : List MergeImg) :
    splicedPagesFrom i (img :: rest)
      = pbA i img ++ pbB i img ++ img.bytes ++ pbC i img
        ++ splicedPagesFrom (i + 1) rest := rfl

theorem spliceGo_pages (content : List Char) :
    ∀ (rem : List MergeImg) (i L : Nat) (M W : List Char),
    content.drop L = M ++ (pageBlocksFrom i rem ++ W) →
    spliceGo content (imgPositionsFrom (L + M.length) i rem)
        (rem.map (fun img => img.bytes)) L
      = M ++ (splicedPagesFrom i rem ++ W)
  | [], i, L, M, W, hdrop => by
    show content.drop L = M ++ (splicedPagesFrom i [] ++ W)
    rw [hdrop]
    simp [pageBlocksFrom, splicedPagesFrom]
  | img :: rest, i, L, M, W, hdrop => by
    have hlen := congrArg List.length hdrop
    rw [List.length_drop] at hlen
    simp only [List.length_append] at hlen
    have hpb : (pageBlocksFrom i (img :: rest)).length
        = (pbA i img).length + (pbB i img).length + (pbC i img).length
          + (pageBlocksFrom (i + 1) rest).length := by
      show (pageBlock i (3 + 3 * i) img ++ pageBlocksFrom (i + 1) rest).length
        = _
      rw [pageBlock_pb]
      simp only [List.length_append]
    have hAg := pbA_len_ge i img
    have hBg := pbB_len_ge i img
    have hCg := pbC_len_ge i img
    have hL : L ≤ content.length := by omega
    have hdropV : content.drop L
        = (M ++ (pbA i img ++ pbB i img))
          ++ (pbC i img ++ (pageBlocksFrom (i + 1) rest ++ W)) := by
      rw [hdrop,
        show pageBlocksFrom i (img :: rest)
          = pageBlock i (3 + 3 * i) img ++ pageBlocksFrom (i + 1) rest
          from rfl,
        pageBlock_pb]
      simp [List.append_assoc]
    have hsub : jsSubstring content L
        (L + M.length + (pbA i img).length + (pbB i img).length)
        = M ++ (pbA i img ++ pbB i img) := by
      rw [show L + M.length + (pbA i img).length + (pbB i img).length
          = L + (M ++ (pbA i img ++ pbB i img)).length from by
        simp only [List.length_append]; omega]
      exact jsSubstring_of_drop content L hL _ _ hdropV
    have hsfull : content
        = (content.take L ++ (M ++ (pbA i img ++ pbB i img)))
          ++ (pbC i img ++ (pageBlocksFrom (i + 1) rest ++ W)) := by
      conv_lhs => rw [← List.take_append_drop L content]
      rw [hdropV]
      simp [List.append_assoc]
    have hdropnext : content.drop
        (L + M.length + (pbA i img).length + (pbB i img).length)
        = pbC i img ++ (pageBlocksFrom (i + 1) rest ++ W) := by
      conv_lhs => rw [hsfull]
      rw [List.drop_left' (by
        simp only [List.length_append, List.length_take]
        omega)]
    have hrec := spliceGo_pages content rest (i + 1)
      (L + M.length + (pbA i img).length + (pbB i img).length)
      (pbC i img) W hdropnext
    show jsSubstring content L
        (L + M.length + (pbA i img).length + (pbB i img).length)
      ++ img.bytes
      ++ spliceGo content
          (imgPositionsFrom (L + M.length + (pbA i img).length
            + (pbB i img).length + (pbC i img).length) (i + 1) rest)
          (rest.map (fun img => img.bytes))
          (L + M.length + (pbA i img).length + (pbB i img).length)
      = M ++ (splicedPagesFrom i (img :: rest) ++ W)
    rw [hsub, splicedPagesFrom_cons, hrec]
    simp [List.append_assoc]

theorem mergeFinalBuffer_eq (imgs : List MergeImg) (h : imgs ≠ []) :
    mergeFinalBuffer imgs
      = mergeHeader imgs.length
        ++ (splicedPagesFrom 0 imgs
          ++ xrefSection (mergeHeader imgs.length
              ++ pageBlocksFrom 0 imgs).length
            (mergeInitXref imgs.length
              ++ xrefPosFrom (mergeHeader imgs.length).length 0 imgs)
            (3 + 3 * imgs.length)) := by
  unfold mergeFinalBuffer
  show spliceGo (mergePdfContent imgs)
      (findImagePositions (mergePdfContent imgs))
      (imgs.map (fun x => x.bytes)) 0 = _
  rw [findImagePositions_merge imgs h]
  have hdrop0 : (mergePdfContent imgs).drop 0
      = mergeHeader imgs.length ++ (pageBlocksFrom 0 imgs
        ++ xrefSection (mergeHeader imgs.length
            ++ pageBlocksFrom 0 imgs).length
          (mergeInitXref imgs.length
            ++ xrefPosFrom (mergeHeader imgs.length).length 0 imgs)
          (3 + 3 * imgs.length)) := by
    rw [List.drop_zero, mergePdfContent_eq]
    simp [List.append_assoc]
  have hgo := spliceGo_pages (mergePdfContent imgs) imgs 0 0
    (mergeHeader imgs.length)
    (xrefSection (mergeHeader imgs.length ++ pageBlocksFrom 0 imgs).length
      (mergeInitXref imgs.length
        ++ xrefPosFrom (mergeHeader imgs.length).length 0 imgs)
      (3 + 3 * imgs.length)) hdrop0
  simpa using hgo

/-- Splitting the spliced page region at one page. -/
theorem splicedPagesFrom_split : ∀ (imgs : List MergeImg) (i0 i : Nat)
    (hi : i < imgs.length),
    ∃ pre post, splicedPagesFrom i0 imgs
      = pre ++ (pbA (i0 + i) (imgs.get ⟨i, hi⟩)
        ++ pbB (i0 + i) (imgs.get ⟨i, hi⟩)
        ++ (imgs.get ⟨i, hi⟩).bytes
        ++ pbC (i0 + i) (imgs.get ⟨i, hi⟩)) ++ post
  | img :: rest, i0, 0, hi =>
    ⟨[], splicedPagesFrom (i0 + 1) rest, by
      rw [splicedPagesFrom_cons]
      simp [List.append_assoc]⟩
  | img :: rest, i0, i + 1, hi => by
    obtain ⟨pre, post, hp⟩ := splicedPagesFrom_split rest (i0 + 1) i
      (by simpa using Nat.lt_of_succ_lt_succ hi)
    refine ⟨pbA i0 img ++ pbB i0 img ++ img.bytes ++ pbC i0 img ++ pre,
      post, ?_⟩
    have harith : i0 + 1 + i = i0 + (i + 1) := by omega
    rw [splicedPagesFrom_cons, hp, harith]
    simp only [List.get_cons_succ, List.append_assoc]

/-! ## Claim theorems -/

set_option maxRecDepth 8000 in
/-- C1: the claim states that for every generated PDF and every object
number n in its xref table, the bytes at the recorded offset are the
literal "n 0 obj".  The code violates this: this theorem evaluates
both generators at concrete failing inputs.  For a merge of a 100x200
ten-byte image with a 120x80 three-byte image, the table records
offset 423 for object 5, but the final buffer holds "endobj" there
("5 0 obj" actually starts at 430, because the estimate
`pdfContent.length + bytes.length + 10` undercounts the 17 bytes of
"endstream\nendobj\n" and ignores previously spliced image bytes).
For the single-image path, the table records the literal offset 10 for
object 1, but "1 0 obj" starts at byte 9. -/
theorem c1_xref_offset_failure :
    ((mergeXrefPositions [sampleImgA, sampleImgB]).getD 5 0 = 423
      ∧ ¬ str "5 0 obj" <+: (mergeFinalBuffer [sampleImgA, sampleImgB]).drop 423
      ∧ str "5 0 obj" <+: (mergeFinalBuffer [sampleImgA, sampleImgB]).drop 430)
    ∧ ((singleXrefEntries jb10.length).getD 0 (0, 0) = (1, 10)
      ∧ ¬ str "1 0 obj" <+: (createPdfFromImage 100 200 jb10).drop 10
      ∧ str "1 0 obj" <+: (createPdfFromImage 100 200 jb10).drop 9) := by
  decide

/-- C4: merge duplicate detection depends only on the set of source
ids.  Two requests over the same id set (both duplicate-free) produce
the same fingerprint and the same sorted id list; an artifact whose
recorded ids are the first request's is matched by the second request
(after sorting, with the length short-circuit embodied in
`matchesMergeSet`), so the scan reports a duplicate; and an artifact
whose recorded id set differs from the candidate's is never matched. -/
theorem c4_duplicate_detection_set_based
    (docs1 docs2 : List DocMeta) (store : List DocMeta) (art : DocMeta)
    (h1 : (docs1.map (·.id)).Nodup) (h2 : (docs2.map (·.id)).Nodup)
    (hmem : ∀ x, x ∈ docs1.map (·.id) ↔ x ∈ docs2.map (·.id)) :
    (mergeSetIdentifier docs1 = mergeSetIdentifier docs2
      ∧ sortedImageIdsOf docs1 = sortedImageIdsOf docs2)
    ∧ (art ∈ store → isExistingMergedPdf art = true →
        art.sourceImageIds = some (docs1.map (·.id)) →
        matchesMergeSet (sortedImageIdsOf docs2) art = true
        ∧ (findDuplicateMerge (sortedImageIdsOf docs2) store).isSome = true)
    ∧ (∀ d : DocMeta, ∀ ids, d.sourceImageIds = some ids →
        ¬ (∀ x, x ∈ ids ↔ x ∈ docs2.map (·.id)) →
        matchesMergeSet (sortedImageIdsOf docs2) d = false) := by
  have hsort : sortedImageIdsOf docs1 = sortedImageIdsOf docs2 := by
    rw [sortedImageIdsOf_eq, sortedImageIdsOf_eq]
    exact sortStrings_eq_of_mem_iff h1 h2 hmem
  refine ⟨⟨congrArg (String.intercalate "_") hsort, hsort⟩, ?_, ?_⟩
  · intro hmemStore hpdf hids
    have hmatch : matchesMergeSet (sortedImageIdsOf docs2) art = true :=
      matchesMergeSet_iff.mpr
        ⟨docs1.map (·.id), hids, by rw [← sortedImageIdsOf_eq]; exact hsort⟩
    exact ⟨hmatch, findDuplicateMerge_isSome.mpr ⟨art, hmemStore, hpdf, hmatch⟩⟩
  · intro d ids hids hnot
    by_contra hc
    have hc2 : matchesMergeSet (sortedImageIdsOf docs2) d = true := by
      revert hc
      cases matchesMergeSet (sortedImageIdsOf docs2) d <;> simp
    obtain ⟨ids2, hids2, hsorteq⟩ := matchesMergeSet_iff.mp hc2
    rw [hids] at hids2
    obtain rfl : ids = ids2 := Option.some.inj hids2
    rw [sortedImageIdsOf_eq] at hsorteq
    exact hnot (mem_iff_of_sortStrings_eq hsorteq)

set_option maxRecDepth 4000 in
/-- C4 witness: the theorem applied to a concrete pair of requests
over the id set A, B, C in two orders, against a store holding the
artifact of the first merge. -/
theorem c4_witness :
    (mergeSetIdentifier [docA, docB, docC] = mergeSetIdentifier [docC, docA, docB]
      ∧ sortedImageIdsOf [docA, docB, docC] = sortedImageIdsOf [docC, docA, docB])
    ∧ (mergedArtifactABC ∈ [mergedArtifactABC] →
        isExistingMergedPdf mergedArtifactABC = true →
        mergedArtifactABC.sourceImageIds = some ([docA, docB, docC].map (·.id)) →
        matchesMergeSet (sortedImageIdsOf [docC, docA, docB]) mergedArtifactABC = true
        ∧ (findDuplicateMerge (sortedImageIdsOf [docC, docA, docB])
            [mergedArtifactABC]).isSome = true)
    ∧ (∀ d : DocMeta, ∀ ids, d.sourceImageIds = some ids →
        ¬ (∀ x, x ∈ ids ↔ x ∈ [docC, docA, docB].map (·.id)) →
        matchesMergeSet (sortedImageIdsOf [docC, docA, docB]) d = false) :=
  c4_duplicate_detection_set_based [docA, docB, docC] [docC, docA, docB]
    [mergedArtifactABC] mergedArtifactABC (by decide) (by decide)
    (by intro x; simp [docA, docB, docC]; tauto)

/-- C5 amended: when the duplicate scan finds a hit, `mergeImages`
creates no artifact and returns `false` (the claim's assertion that it
returns the earlier artifact id fails: the function's result carries
no id at all). -/
theorem c5_duplicate_merge_no_new_artifact
    (raster : RasterOracle) (freshId fileName : String)
    (selected : List DocMeta) (store : MergeStore)
    (hdup : (findDuplicateMerge
        (sortedImageIdsOf (selected.filter fun d => strStartsWith d.type "image/"))
        store.docs).isSome = true) :
    mergeImages raster freshId fileName selected store = (false, store) := by
  unfold mergeImages
  by_cases h2 : lenTR (selected.filter fun d => strStartsWith d.type "image/") < 2
  · simp [h2]
  · simp [h2, hdup]

/-- C5 witness: the amended theorem at the concrete duplicate
request. -/
theorem c5_witness :
    mergeImages (fun _ => some ⟨1, 1, []⟩) "doc_new" "merged-images-2.pdf"
      [docB, docC, docA] storeABC = (false, storeABC) :=
  c5_duplicate_merge_no_new_artifact _ _ _ _ _ (by decide)

/-- C5 counterexample: re-merging B, C, A after an A, B, C merge is
detected as a duplicate of the stored artifact, yet the operation
returns `false` - the same value as its failure paths - and no
artifact id; the store is untouched. -/
theorem c5_counterexample_returns_false :
    mergeImages (fun _ => some ⟨1, 1, []⟩) "doc_new" "merged-images-2.pdf"
        [docB, docC, docA] storeABC = (false, storeABC)
    ∧ findDuplicateMerge (sortedImageIdsOf
        ([docB, docC, docA].filter fun d => strStartsWith d.type "image/"))
        storeABC.docs = some mergedArtifactABC := by
  decide

/-- C7: a single-source conversion whose sole source fails to decode
raises an error and leaves the store unchanged: no artifact bytes or
metadata are persisted. -/
theorem c7_failed_conversion_persists_nothing
    (raster : RasterOracle) (freshId : String) (src : SrcDoc) (store : MergeStore)
    (himg : strStartsWith src.meta.type "image/" = true)
    (hfail : raster src.data = none) :
    (∃ e, (convertDocumentToPdf raster freshId src store).1 = Except.error e)
    ∧ (convertDocumentToPdf raster freshId src store).2 = store := by
  have hnotpdf : (src.meta.type == "application/pdf") = false := by
    by_cases h : src.meta.type = "application/pdf"
    · rw [h] at himg; exact absurd himg (by decide)
    · simpa using h
  unfold convertDocumentToPdf
  cases hv : validateConversion src.meta.type "application/pdf" with
  | error e => exact ⟨⟨e, rfl⟩, rfl⟩
  | ok u =>
    have hconv : convertToPdfModel raster src.data src.meta =
        Except.error "Failed to load image" := by
      unfold convertToPdfModel
      rw [if_neg (by simp [hnotpdf]), if_pos himg, hfail]
    rw [hconv]
    exact ⟨⟨_, rfl⟩, rfl⟩

/-- C7 witness: the theorem at a PNG source whose decode fails, in the
empty store. -/
theorem c7_witness :
    (∃ e, (convertDocumentToPdf (fun _ => none) "doc_x" srcPng emptyStore).1
        = Except.error e)
    ∧ (convertDocumentToPdf (fun _ => none) "doc_x" srcPng emptyStore).2
        = emptyStore :=
  c7_failed_conversion_persists_nothing _ _ _ _ (by decide) rfl

/-- C8 amended: the existence check before a single-document
conversion is name-based: it classifies an artifact as the existing
PDF version exactly when the artifact's type is `application/pdf` and
its file name without its final extension equals the candidate's;
conversion provenance is never consulted. -/
theorem c8_duplicate_check_is_name_based (document : DocMeta)
    (allDocs : List DocMeta) :
    (getExistingPDFDocument document allDocs).isSome = true ↔
      ∃ d ∈ allDocs, d.type = "application/pdf" ∧
        getFileNameWithoutExtension d.name.data =
          getFileNameWithoutExtension document.name.data := by
  simp [getExistingPDFDocument, List.find?_isSome, isPdfWithSameBaseName,
    Bool.and_eq_true, beq_iff_eq, and_assoc]

/-- C8 counterexample: a stored photo.pdf with no conversion
provenance is classified as a duplicate for candidate photo.png (the
claim requires provenance kind "conversion" with a matching source
id), while a stored PDF whose provenance does record a conversion from
the candidate, under another name, is not classified as one. -/
theorem c8_counterexample_name_based :
    getExistingPDFDocument candPng [plainPdf] = some plainPdf
    ∧ plainPdf.isGeneratedDocument = false
    ∧ plainPdf.sourceDocumentId = none
    ∧ getExistingPDFDocument candPng [provenancePdf] = none
    ∧ provenancePdf.isGeneratedDocument = true
    ∧ provenancePdf.sourceDocumentId = some candPng.id := by
  decide

/-- C9 amended: `saveDocument` is a sequence of dependent writes, not
an atomic unit.  If the bytes write fails nothing is persisted; but if
the metadata write fails after the bytes write succeeded, the raised
error leaves the bytes in storage with no metadata (for a fresh id,
the resulting store has the `file:` entry and no `meta:` entry). -/
theorem c9_persistence_not_atomic (failing : List String) (id : String)
    (meta : DocMeta) (data : List Char) (st : KVStore) :
    (("file:" ++ id) ∈ failing → saveDocumentKV failing id meta data st = (none, st))
    ∧ (("file:" ++ id) ∉ failing → ("meta:" ++ id) ∈ failing →
        (saveDocumentKV failing id meta data st).1 = none
        ∧ kvGet (saveDocumentKV failing id meta data st).2 ("file:" ++ id)
            = some (.file data)
        ∧ (kvGet st ("meta:" ++ id) = none →
            kvGet (saveDocumentKV failing id meta data st).2 ("meta:" ++ id)
              = none)) := by
  constructor
  · intro hf
    have h1 : kvSet failing ("file:" ++ id) (.file data) st = .error () := by
      unfold kvSet; rw [if_pos hf]
    simp only [saveDocumentKV, h1]
  · intro hfok hmf
    have h1 : kvSet failing ("file:" ++ id) (.file data) st =
        .ok ((st.filter fun p => p.1 != ("file:" ++ id))
          ++ [("file:" ++ id, .file data)]) := by
      unfold kvSet; rw [if_neg hfok]
    have h2 : kvSet failing ("meta:" ++ id) (.meta meta)
        ((st.filter fun p => p.1 != ("file:" ++ id))
          ++ [("file:" ++ id, .file data)]) = .error () := by
      unfold kvSet; rw [if_pos hmf]
    have hrun : saveDocumentKV failing id meta data st =
        (none, (st.filter fun p => p.1 != ("file:" ++ id))
          ++ [("file:" ++ id, .file data)]) := by
      simp only [saveDocumentKV, h1, h2]
    rw [hrun]
    refine ⟨rfl, ?_, ?_⟩
    · exact kvGet_no_key_append _ _ _
        (fun p hp => by simpa using (List.mem_filter.mp hp).2)
    · intro hnone
      rw [kvGet_append_single_ne _ _ _ _ (metaKey_ne_fileKey id),
        kvGet_filter_other _ _ _ (metaKey_ne_fileKey id)]
      exact hnone

/-- C9 witness: the amended theorem at a concrete failing metadata
write over the empty store. -/
theorem c9_witness :
    (saveDocumentKV ["meta:d1"] "d1" sampleMeta (str "BYTES") []).1 = none
    ∧ kvGet (saveDocumentKV ["meta:d1"] "d1" sampleMeta (str "BYTES") []).2
        "file:d1" = some (.file (str "BYTES"))
    ∧ kvGet (saveDocumentKV ["meta:d1"] "d1" sampleMeta (str "BYTES") []).2
        "meta:d1" = none := by
  have h := (c9_persistence_not_atomic ["meta:d1"] "d1" sampleMeta
    (str "BYTES") []).2 (by decide) (by decide)
  exact ⟨h.1, h.2.1, h.2.2 rfl⟩

/-- C9 counterexample: starting from an empty store, a failing
metadata write leaves the artifact bytes stored under `file:d1` with
no `meta:d1` entry - a reachable storage state with bytes and no
metadata, which the claim rules out. -/
theorem c9_counterexample_orphaned_bytes :
    (saveDocumentKV ["meta:d1"] "d1" sampleMeta (str "BYTES") []).1 = none
    ∧ kvGet (saveDocumentKV ["meta:d1"] "d1" sampleMeta (str "BYTES") []).2
        "file:d1" = some (.file (str "BYTES"))
    ∧ kvGet (saveDocumentKV ["meta:d1"] "d1" sampleMeta (str "BYTES") []).2
        "meta:d1" = none := by
  decide


/-- C10: both generation paths declare the constant `/Length 44` on
every page's content stream object, for every image size, while the
actual emitted content stream text has length
`digits(width) + digits(height) + 27` on the single path and
`digits(width) + digits(height) + digits(pageIndex) + 27` on the merge
path, so the true length varies with the decimal digit counts. -/
theorem c10_content_stream_declares_length_44
    (w h : Nat) (bytes : List Char) (imgs : List MergeImg) (i : Nat)
    (hi : i < imgs.length) :
    (∃ pre post,
      createPdfFromImage w h bytes =
        pre ++ str "5 0 obj\n<< /Length 44 >>\nstream\n"
          ++ (str "q\n" ++ natStr w ++ str " 0 0 " ++ natStr h
              ++ str " 0 0 cm\n/Image Do\nQ\n")
          ++ str "endstream" ++ post)
    ∧ (str "q\n" ++ natStr w ++ str " 0 0 " ++ natStr h
        ++ str " 0 0 cm\n/Image Do\nQ\n").length
        = (natStr w).length + (natStr h).length + 27
    ∧ (∃ pre post,
      mergePdfContent imgs =
        pre ++ natStr (3 + 3 * i + 2)
          ++ str " 0 obj\n<< /Length 44 >>\nstream\n"
          ++ (str "q\n" ++ natStr (imgs.get ⟨i, hi⟩).width ++ str " 0 0 "
              ++ natStr (imgs.get ⟨i, hi⟩).height ++ str " 0 0 cm\n/Image"
              ++ natStr i ++ str " Do\nQ\n")
          ++ str "endstream" ++ post)
    ∧ (str "q\n" ++ natStr (imgs.get ⟨i, hi⟩).width ++ str " 0 0 "
        ++ natStr (imgs.get ⟨i, hi⟩).height ++ str " 0 0 cm\n/Image"
        ++ natStr i ++ str " Do\nQ\n").length
        = (natStr (imgs.get ⟨i, hi⟩).width).length
          + (natStr (imgs.get ⟨i, hi⟩).height).length + (natStr i).length
          + 27 := by
  refine ⟨?_, ?_, ?_, ?_⟩
  · have e1 : str "\nendstream\nendobj\n5 0 obj\n<< /Length 44 >>\nstream\nq\n"
        = str "\nendstream\nendobj\n"
          ++ str "5 0 obj\n<< /Length 44 >>\nstream\n" ++ str "q\n" := by decide
    have e2 : str " 0 0 cm\n/Image Do\nQ\nendstream\nendobj\nxref\n0 6\n0000000000 65535 f\n0000000010 00000 n\n0000000059 00000 n\n0000000116 00000 n\n0000000266 00000 n\n0000000"
        = str " 0 0 cm\n/Image Do\nQ\n" ++ str "endstream"
          ++ str "\nendobj\nxref\n0 6\n0000000000 65535 f\n0000000010 00000 n\n0000000059 00000 n\n0000000116 00000 n\n0000000266 00000 n\n0000000" := by
      decide
    refine ⟨singleHeader w h bytes.length ++ bytes ++ str "\nendstream\nendobj\n",
      str "\nendobj\nxref\n0 6\n0000000000 65535 f\n0000000010 00000 n\n0000000059 00000 n\n0000000116 00000 n\n0000000266 00000 n\n0000000"
        ++ natStr (266 + bytes.length + 100)
        ++ str " 00000 n\ntrailer\n<< /Size 6 /Root 1 0 R >>\nstartxref\n0000000"
        ++ natStr (266 + bytes.length + 200) ++ str "\n%%EOF", ?_⟩
    unfold createPdfFromImage singleFooter
    rw [e1, e2]
    simp [List.append_assoc]
  · have l1 : (str "q\n").length = 2 := by decide
    have l2 : (str " 0 0 ").length = 5 := by decide
    have l3 : (str " 0 0 cm\n/Image Do\nQ\n").length = 20 := by decide
    simp only [List.length_append, l1, l2, l3]
    omega
  · obtain ⟨pre2, post2, hsplit⟩ := pageBlocksFrom_split imgs 0 i hi
    simp only [Nat.zero_add] at hsplit
    have e1 : str " 0 obj\n<< /Length 44 >>\nstream\nq\n"
        = str " 0 obj\n<< /Length 44 >>\nstream\n" ++ str "q\n" := by decide
    have e2 : str " Do\nQ\nendstream\nendobj\n"
        = str " Do\nQ\n" ++ str "endstream" ++ str "\nendobj\n" := by decide
    refine ⟨mergeHeader imgs.length ++ pre2
        ++ pageBlockA i (3 + 3 * i) (imgs.get ⟨i, hi⟩).width (imgs.get ⟨i, hi⟩).height
        ++ pageBlockB (imgs.get ⟨i, hi⟩).bytes.length (3 + 3 * i + 1)
            (imgs.get ⟨i, hi⟩).width (imgs.get ⟨i, hi⟩).height
        ++ str "endstream\nendobj\n",
      str "\nendobj\n" ++ post2
        ++ xrefSection (mergeHeader imgs.length ++ pageBlocksFrom 0 imgs).length
            (mergeInitXref imgs.length
              ++ xrefPosFrom (mergeHeader imgs.length).length 0 imgs)
            (3 + 3 * imgs.length), ?_⟩
    rw [mergePdfContent_eq, hsplit]
    unfold pageBlock pageBlockC
    rw [e1, e2]
    simp [List.append_assoc]
  · have l1 : (str "q\n").length = 2 := by decide
    have l2 : (str " 0 0 ").length = 5 := by decide
    have l3 : (str " 0 0 cm\n/Image").length = 14 := by decide
    have l4 : (str " Do\nQ\n").length = 6 := by decide
    simp only [List.length_append, l1, l2, l3, l4]
    omega

/-- C10 witness: the theorem at a 100 x 200 single image with ten
bytes and the two-image merge sample, page 0. -/
theorem c10_witness :
    (∃ pre post,
      createPdfFromImage 100 200 jb10 =
        pre ++ str "5 0 obj\n<< /Length 44 >>\nstream\n"
          ++ (str "q\n" ++ natStr 100 ++ str " 0 0 " ++ natStr 200
              ++ str " 0 0 cm\n/Image Do\nQ\n")
          ++ str "endstream" ++ post)
    ∧ (str "q\n" ++ natStr 100 ++ str " 0 0 " ++ natStr 200
        ++ str " 0 0 cm\n/Image Do\nQ\n").length
        = (natStr 100).length + (natStr 200).length + 27
    ∧ (∃ pre post,
      mergePdfContent [sampleImgA, sampleImgB] =
        pre ++ natStr (3 + 3 * 0 + 2)
          ++ str " 0 obj\n<< /Length 44 >>\nstream\n"
          ++ (str "q\n" ++ natStr sampleImgA.width ++ str " 0 0 "
              ++ natStr sampleImgA.height ++ str " 0 0 cm\n/Image"
              ++ natStr 0 ++ str " Do\nQ\n")
          ++ str "endstream" ++ post)
    ∧ (str "q\n" ++ natStr sampleImgA.width ++ str " 0 0 "
        ++ natStr sampleImgA.height ++ str " 0 0 cm\n/Image"
        ++ natStr 0 ++ str " Do\nQ\n").length
        = (natStr sampleImgA.width).length + (natStr sampleImgA.height).length
          + (natStr 0).length + 27 :=
  c10_content_stream_declares_length_44 100 200 jb10 [sampleImgA, sampleImgB] 0
    (by decide)


/-- C3: for every merge of successfully loaded images the generated
document text contains exactly `imgs.length` Page objects (occurrences
of the Page-object pattern "/Type /Page /Parent"), opens with the
Catalog whose /Pages entry references object 2 and with object 2
opening the page tree, lists in its first /Kids array exactly the page
object numbers 3, 6, ..., 3k in page (input) order, declares /Count
equal to the page count, and emits, for every page index i, object
3 + 3i as a Page object. -/
theorem c3_page_tree_structure (imgs : List MergeImg) (h : imgs ≠ []) :
    countOcc (str "/Type /Page /Parent") (mergePdfContent imgs) = imgs.length
    ∧ str "%PDF-1.7\n1 0 obj\n<< /Type /Catalog /Pages 2 0 R >>\nendobj\n2 0 obj\n<< /Type /Pages /Kids ["
        <+: mergePdfContent imgs
    ∧ extractKids (mergePdfContent imgs)
        = (List.range imgs.length).map (fun i => 3 + 3 * i)
    ∧ extractCount (mergePdfContent imgs) = imgs.length
    ∧ ∀ i, i < imgs.length →
        (natStr (3 + 3 * i)
            ++ str " 0 obj\n<< /Type /Page /Parent 2 0 R /MediaBox [0 0 ")
          <:+: mergePdfContent imgs := by
  refine ⟨countOcc_page_merge imgs h, ?_, extractKids_merge imgs h,
    extractCount_merge imgs h, ?_⟩
  · show mergeHeaderPre <+: mergePdfContent imgs
    rw [mergePdfContent_eq]
    unfold mergeHeader
    simp only [List.append_assoc]
    exact List.prefix_append _ _
  · intro i hi
    obtain ⟨pre1, post1, hsplit⟩ := pageBlocksFrom_split imgs 0 i hi
    simp only [Nat.zero_add] at hsplit
    have hXA : (natStr (3 + 3 * i)
        ++ str " 0 obj\n<< /Type /Page /Parent 2 0 R /MediaBox [0 0 ")
        <+: pageBlock i (3 + 3 * i) (imgs.get ⟨i, hi⟩) := by
      unfold pageBlock pageBlockA
      simp only [List.append_assoc]
      rw [← List.append_assoc (natStr (3 + 3 * i))]
      exact List.prefix_append _ _
    have hPB : pageBlock i (3 + 3 * i) (imgs.get ⟨i, hi⟩)
        <:+: pageBlocksFrom 0 imgs := by
      rw [hsplit]
      exact List.infix_append _ _ _
    have hPBF : pageBlocksFrom 0 imgs <:+: mergePdfContent imgs := by
      rw [mergePdfContent_eq]
      exact List.infix_append _ _ _
    exact hXA.isInfix.trans (hPB.trans hPBF)

/-- C3 witness: the theorem at the concrete two-image merge sample. -/
theorem c3_witness :
    ([sampleImgA, sampleImgB] ≠ [] : Prop)
    ∧ (countOcc (str "/Type /Page /Parent")
          (mergePdfContent [sampleImgA, sampleImgB]) = 2
      ∧ str "%PDF-1.7\n1 0 obj\n<< /Type /Catalog /Pages 2 0 R >>\nendobj\n2 0 obj\n<< /Type /Pages /Kids ["
          <+: mergePdfContent [sampleImgA, sampleImgB]
      ∧ extractKids (mergePdfContent [sampleImgA, sampleImgB])
          = (List.range 2).map (fun i => 3 + 3 * i)
      ∧ extractCount (mergePdfContent [sampleImgA, sampleImgB]) = 2
      ∧ ∀ i, i < 2 →
          (natStr (3 + 3 * i)
              ++ str " 0 obj\n<< /Type /Page /Parent 2 0 R /MediaBox [0 0 ")
            <:+: mergePdfContent [sampleImgA, sampleImgB]) :=
  ⟨by decide, c3_page_tree_structure [sampleImgA, sampleImgB] (by decide)⟩

set_option maxRecDepth 8000 in
/-- C6: a single source's decode failure does not abort a multi-source
merge.  Whenever at least one image source decodes, the load phase
returns ok with exactly the decoded images and the names of the
skipped sources as warnings; when image sources exist but none
decodes, the whole merge fails; end to end, a successful load yields a
document whose page count equals the number of decoded sources; and in
the concrete 3-source scenario where one source fails to decode, the
merge succeeds with one recorded warning and the resulting document
has exactly 2 pages. -/
theorem c6_decode_failure_skipped (raster : RasterOracle)
    (documents : List SrcDoc) :
    (((documents.filter (fun d => strStartsWith d.meta.type "image/")).filterMap
        (fun d => raster d.data)) ≠ [] →
      mergeImagesLoad raster documents
        = .ok ((documents.filter
              (fun d => strStartsWith d.meta.type "image/")).filterMap
            (fun d => raster d.data),
          ((documents.filter
              (fun d => strStartsWith d.meta.type "image/")).filter
            (fun d => (raster d.data).isNone)).map (fun d => d.meta.name)))
    ∧ (documents.filter (fun d => strStartsWith d.meta.type "image/") ≠ [] →
      ((documents.filter (fun d => strStartsWith d.meta.type "image/")).filterMap
        (fun d => raster d.data)) = [] →
      mergeImagesLoad raster documents
        = .error "Failed to load any images for merging")
    ∧ (((documents.filter (fun d => strStartsWith d.meta.type "image/")).filterMap
        (fun d => raster d.data)) ≠ [] →
      mergeImagesToPDFModel raster documents
        = .ok (mergeFinalBuffer ((documents.filter
              (fun d => strStartsWith d.meta.type "image/")).filterMap
            (fun d => raster d.data)),
          ((documents.filter
              (fun d => strStartsWith d.meta.type "image/")).filter
            (fun d => (raster d.data).isNone)).map (fun d => d.meta.name))
      ∧ countOcc (str "/Type /Page /Parent")
          (mergePdfContent ((documents.filter
              (fun d => strStartsWith d.meta.type "image/")).filterMap
            (fun d => raster d.data)))
        = ((documents.filter
            (fun d => strStartsWith d.meta.type "image/")).filterMap
          (fun d => raster d.data)).length)
    ∧ (mergeImagesToPDFModel r3 [src3A, src3B, src3C]
        = .ok (mergeFinalBuffer
            [⟨10, 20, str "AAA"⟩, ⟨10, 20, str "CCC"⟩], ["b.png"])
      ∧ countOcc (str "/Type /Page /Parent")
          (mergeFinalBuffer [⟨10, 20, str "AAA"⟩, ⟨10, 20, str "CCC"⟩])
        = 2) := by
  have hLoadOk : ((documents.filter
      (fun d => strStartsWith d.meta.type "image/")).filterMap
        (fun d => raster d.data)) ≠ [] →
      mergeImagesLoad raster documents
        = .ok ((documents.filter
              (fun d => strStartsWith d.meta.type "image/")).filterMap
            (fun d => raster d.data),
          ((documents.filter
              (fun d => strStartsWith d.meta.type "image/")).filter
            (fun d => (raster d.data).isNone)).map (fun d => d.meta.name)) := by
    intro hne
    have h1 : documents.filter (fun d => strStartsWith d.meta.type "image/")
        ≠ [] := by
      intro he
      exact hne (by rw [he]; rfl)
    have h2 : (lenTR (documents.filter
        (fun d => strStartsWith d.meta.type "image/")) == 0) = false := by
      rw [lenTR_eq]
      cases hc : documents.filter (fun d => strStartsWith d.meta.type "image/") with
      | nil => exact absurd hc h1
      | cons a l => rfl
    have h3 : (lenTR ((documents.filter
        (fun d => strStartsWith d.meta.type "image/")).filterMap
          (fun d => raster d.data)) == 0) = false := by
      rw [lenTR_eq]
      cases hc : (documents.filter
          (fun d => strStartsWith d.meta.type "image/")).filterMap
            (fun d => raster d.data) with
      | nil => exact absurd hc hne
      | cons a l => rfl
    simp only [mergeImagesLoad, h2, h3, Bool.false_eq_true, if_false]
  refine ⟨hLoadOk, ?_, ?_, ?_, ?_⟩
  · intro h1 hzero
    have h2 : (lenTR (documents.filter
        (fun d => strStartsWith d.meta.type "image/")) == 0) = false := by
      rw [lenTR_eq]
      cases hc : documents.filter (fun d => strStartsWith d.meta.type "image/") with
      | nil => exact absurd hc h1
      | cons a l => rfl
    have h3 : (lenTR ((documents.filter
        (fun d => strStartsWith d.meta.type "image/")).filterMap
          (fun d => raster d.data)) == 0) = true := by
      rw [lenTR_eq, hzero]
      rfl
    simp only [mergeImagesLoad, h2, h3, Bool.false_eq_true, if_false, if_true]
  · intro hne
    refine ⟨?_, countOcc_page_merge _ hne⟩
    unfold mergeImagesToPDFModel
    rw [hLoadOk hne]
    rfl
  · rfl
  · decide

/-- C2: every image XObject's declared /Length equals the exact byte
count of the image bytes placed between its `stream` line and the
following `endstream` in the final output.  On the single-image path
the file is header ++ bytes ++ footer, with the header declaring
`/Length bytes.length` and ending in `stream\n`, and the footer
opening with `\nendstream` (the payload between the markers is the
byte array followed by that newline).  On the merge path, the final
buffer places each image's raw bytes directly between its XObject's
`stream\n` line and `endstream`, and the dictionary declares exactly
`/Length bytes.length` - the code computes it from the actual array,
never an estimate. -/
theorem c2_xobject_length_exact :
    (∀ (w h : Nat) (bytes : List Char), ∃ pre post,
      createPdfFromImage w h bytes
        = pre ++ (str " /ColorSpace /DeviceRGB /BitsPerComponent 8 /Filter /DCTDecode /Length "
            ++ natStr bytes.length ++ str " >>\nstream\n")
          ++ bytes ++ (str "\nendstream" ++ post))
    ∧ (∀ (imgs : List MergeImg) (i : Nat) (hi : i < imgs.length),
      ∃ pre post, mergeFinalBuffer imgs
        = pre ++ (str " /ColorSpace /DeviceRGB /BitsPerComponent 8 /Filter /DCTDecode /Length "
            ++ natStr (imgs.get ⟨i, hi⟩).bytes.length ++ str " >>\nstream\n")
          ++ (imgs.get ⟨i, hi⟩).bytes ++ (str "endstream" ++ post)) := by
  constructor
  · intro w h bytes
    refine ⟨str "%PDF-1.5\n1 0 obj\n<< /Type /Catalog /Pages 2 0 R >>\nendobj\n2 0 obj\n<< /Type /Pages /Kids [3 0 R] /Count 1 >>\nendobj\n3 0 obj\n<< /Type /Page /Parent 2 0 R /MediaBox [0 0 "
        ++ natStr w ++ str " " ++ natStr h
        ++ str "] /Resources << /XObject << /Image 4 0 R >> >> /Contents 5 0 R >>\nendobj\n4 0 obj\n<< /Type /XObject /Subtype /Image /Width "
        ++ natStr w ++ str " /Height " ++ natStr h,
      str "\nendobj\n5 0 obj\n<< /Length 44 >>\nstream\nq\n"
        ++ natStr w ++ str " 0 0 " ++ natStr h
        ++ str " 0 0 cm\n/Image Do\nQ\nendstream\nendobj\nxref\n0 6\n0000000000 65535 f\n0000000010 00000 n\n0000000059 00000 n\n0000000116 00000 n\n0000000266 00000 n\n0000000"
        ++ natStr (266 + bytes.length + 100)
        ++ str " 00000 n\ntrailer\n<< /Size 6 /Root 1 0 R >>\nstartxref\n0000000"
        ++ natStr (266 + bytes.length + 200) ++ str "\n%%EOF", ?_⟩
    unfold createPdfFromImage singleHeader singleFooter
    rw [show str "\nendstream\nendobj\n5 0 obj\n<< /Length 44 >>\nstream\nq\n"
        = str "\nendstream"
          ++ str "\nendobj\n5 0 obj\n<< /Length 44 >>\nstream\nq\n" from rfl]
    simp [List.append_assoc]
  · intro imgs i hi
    have hne : imgs ≠ [] := by
      intro he
      rw [he] at hi
      simp at hi
    obtain ⟨pre1, post1, hsp⟩ := splicedPagesFrom_split imgs 0 i hi
    simp only [Nat.zero_add] at hsp
    rw [mergeFinalBuffer_eq imgs hne, hsp]
    refine ⟨mergeHeader imgs.length ++ pre1 ++ pbA i (imgs.get ⟨i, hi⟩)
        ++ natStr (3 + 3 * i + 1)
        ++ str " 0 obj\n<< /Type /XObject /Subtype /Image /Width "
        ++ natStr (imgs.get ⟨i, hi⟩).width ++ str " /Height "
        ++ natStr (imgs.get ⟨i, hi⟩).height,
      str "\nendobj\n" ++ natStr (3 + 3 * i + 2)
        ++ str " 0 obj\n<< /Length 44 >>\nstream\nq\n"
        ++ natStr (imgs.get ⟨i, hi⟩).width ++ str " 0 0 "
        ++ natStr (imgs.get ⟨i, hi⟩).height ++ str " 0 0 cm\n/Image"
        ++ natStr i ++ str " Do\nQ\nendstream\nendobj\n"
        ++ post1
        ++ xrefSection (mergeHeader imgs.length
            ++ pageBlocksFrom 0 imgs).length
          (mergeInitXref imgs.length
            ++ xrefPosFrom (mergeHeader imgs.length).length 0 imgs)
          (3 + 3 * imgs.length), ?_⟩
    unfold pbB pbC pageBlockB pageBlockC
    rw [show str "endstream\nendobj\n"
        = str "endstream" ++ str "\nendobj\n" from rfl]
    simp [List.append_assoc]

end DocFlow
